import Mathlib

/-!
# Change-event replay service: validation, schema synchronisation, write engine

A shallow embedding of the Go packages `domain`, `schema_database`, `db`
(storage) and `consumer_rabbitmq`, followed by theorems about them.

Conventions of the embedding

* A Go `error` is an `Option String`: `none` is `nil`, `some msg` is an error
  whose `Error()` text is `msg`; `fmt.Errorf("ctx: %w", err)` is `"ctx: " ++ err`.
* A Go `interface{}` holding a JSON-decoded value is a `Value`.
* A Go `map[string]T` is an association list; the order of the list stands for
  the order in which `range` visits the entries on the run under consideration.
* The database handle `*sql.DB` is an oracle `sql.DB`: every call is answered as a
  function of the calls made before it, and every call is appended to a log.
  Functions that talk to the database take the log and return the new log.
-/

/-! ## Go values and library functions -/

/-- JSON-decoded content of a Go `interface{}`: `nil`, `bool`, `float64`,
`string`, `[]interface{}` or `map[string]interface{}`. A `float64` is carried
as the text that `%v` prints for it. -/
inductive Value where
  | null
  | bool (b : Bool)
  | number (text : String)
  | str (s : String)
  | array (items : List Value)
  | object (entries : List (String × Value))

namespace Value

/-- The Go test `v == nil` on an `interface{}`. -/
def isNil : Value → Bool
  | .null => true
  | _ => false

end Value

namespace strings

/-- Go `strings.ToUpper` on ASCII text: every ASCII lower-case letter is replaced
by its upper-case letter and every other character is kept. Go's function also
maps the non-ASCII letters of a text; where a statement has to hold for such
texts as well, Go's function is taken as a parameter (`strings.AgreesOnASCII`,
`schema_database.mapTypeToPostgresWith`). -/
def ToUpper (s : String) : String := String.mk (s.data.map Char.toUpper)

/-- Whether the characters `sub` occur contiguously in `s`. -/
def containsChars (sub : List Char) : List Char → Bool
  | [] => sub.isEmpty
  | c :: cs => sub.isPrefixOf (c :: cs) || containsChars sub cs

/-- Go `strings.Contains`. -/
def Contains (s substr : String) : Bool := containsChars substr.data s.data

/-- Go `strings.Join`. -/
def Join (elems : List String) (sep : String) : String := sep.intercalate elems

/-- Go `strings.ReplaceAll(s, "'", "''")`: every single quote is doubled. -/
def doubleQuotes (s : String) : String :=
  String.mk (s.data.flatMap (fun c => if c = Char.ofNat 39 then [c, c] else [c]))

end strings

namespace fmt

/-- Insert a key/text pair into a list ordered by key. -/
def insertByKey (e : String × String) : List (String × String) → List (String × String)
  | [] => [e]
  | x :: xs => if e.1 < x.1 then e :: x :: xs else x :: insertByKey e xs

/-- Order key/text pairs by key, as `fmt` does when it prints a map. -/
def sortByKey : List (String × String) → List (String × String)
  | [] => []
  | x :: xs => insertByKey x (sortByKey xs)

mutual
/-- Go `fmt.Sprintf("%v", v)` for a JSON-decoded value. -/
def verbV : Value → String
  | .null => "<nil>"
  | .bool b => if b then "true" else "false"
  | .number t => t
  | .str s => s
  | .array xs => "[" ++ " ".intercalate (verbVs xs) ++ "]"
  | .object es =>
      "map[" ++ " ".intercalate ((sortByKey (verbEs es)).map (fun e => e.1 ++ ":" ++ e.2)) ++ "]"
/-- The `%v` texts of the elements of a slice. -/
def verbVs : List Value → List String
  | [] => []
  | x :: xs => verbV x :: verbVs xs
/-- The keys of a map with the `%v` texts of their values. -/
def verbEs : List (String × Value) → List (String × String)
  | [] => []
  | (k, v) :: es => (k, verbV v) :: verbEs es
end

/-- Go `fmt.Sprintf("%d", n)` for a non-negative `int`. -/
def verbD (n : Nat) : String := toString n

/-- Go `fmt.Sprintf("%d", n)` for an `int`. -/
def verbDInt (n : Int) : String := toString n

end fmt

/-- Go map assignment `m[k] = v` on the association-list model: an existing
entry for `k` is overwritten, otherwise a new entry is added. -/
def mapSet {β : Type} (m : List (String × β)) (k : String) (v : β) : List (String × β) :=
  match m with
  | [] => [(k, v)]
  | (k0, v0) :: rest => if k0 = k then (k, v) :: rest else (k0, v0) :: mapSet rest k v

/-- Go map lookup `v, exists := m[k]` on the association-list model. -/
def mapGet {β : Type} (m : List (String × β)) (k : String) : Option β :=
  match m with
  | [] => none
  | (k0, v0) :: rest => if k0 = k then some v0 else mapGet rest k

/-! ## Package `domain` -/

namespace domain

/-- Go `type EventTypeEnum string`. -/
abbrev EventTypeEnum := String

def EventTypeInsert : EventTypeEnum := "insert"
def EventTypeUpdate : EventTypeEnum := "update"

/-- Go `type Fields struct`. An absent `old_value` / `new_value` decodes to `nil`. -/
structure Fields where
  Field : String := ""
  OldValue : Value := Value.null
  NewValue : Value := Value.null

/-- Go `type ColumnInfo struct`; pointer fields are options. -/
structure ColumnInfo where
  Dimension : Int := 0
  DisableJSONSupport : Bool := false
  DisableArraySupport : Bool := false
  DeserializeArrayColumnToArrayExpression : Bool := false
  SequenceName : Option String := none
  Name : String := ""
  AllowNull : Bool := false
  Type_ : String := ""
  PhpType : String := ""
  DbType : String := ""
  DefaultValue : Value := Value.null
  EnumValues : List String := []
  Size : Option Int := none
  Precision : Option Int := none
  Scale : Option Int := none
  IsPrimaryKey : Bool := false
  AutoIncrement : Bool := false
  Unsigned : Bool := false
  Comment : Option String := none

/-- Go `type Schema struct`. -/
structure Schema where
  TableName : String := ""
  Columns : List (String × ColumnInfo) := []
  PrimaryKey : List String := []

/-- Go `type Message struct`. -/
structure Message where
  EventType : EventTypeEnum := ""
  Data : List Fields := []
  Schema : Schema := {}

/-- Go `func (m *Message) ValidateMessage() (bool, error)`. -/
def ValidateMessage (m : Message) : Bool × Option String :=
  if m.Schema.TableName = "" then (false, none)
  else if m.Schema.Columns.length = 0 then (false, none)
  else (true, none)

end domain

/-! ## The database handle -/

namespace sql

/-- One call on the database handle, with its statement text and bound arguments. -/
inductive Call where
  | exec (query : String) (args : List Value)
  | query (query : String) (args : List Value)
  | queryRow (query : String) (args : List Value)

/-- Go `sql.Result`, of which only `RowsAffected()` is used. -/
structure Result where
  RowsAffected : Except String Int

/-- One row of the column catalogue as `rows.Scan` fills it in. -/
structure ColumnRow where
  columnName : String
  dataType : String
  isNullable : String
  colDefault : Option String
  maxLength : Option Int

/-- Go `*sql.Rows`: the outcome of `Scan` on each row that `Next` yields, and
the final `rows.Err()`. -/
structure Rows where
  scans : List (Except String ColumnRow)
  Err : Option String

/-- Go `*sql.DB` as an oracle. The first argument of each field is the list of
calls made so far. `QueryRow` is the outcome of `QueryRow(...).Scan(&b)` for a
boolean `b`. -/
structure DB where
  Exec : List Call → String → List Value → Except String Result
  Query : List Call → String → List Value → Except String Rows
  QueryRow : List Call → String → List Value → Except String Bool

end sql

/-! ## Package `schema_database` -/

namespace schema_database

open domain

/-- Go `func (s *SchemaService) mapTypeToPostgres(column domain.ColumnInfo) string`. -/
def mapTypeToPostgres (column : ColumnInfo) : String :=
  if column.Type_ = "bigint" then "BIGINT"
  else if column.Type_ = "integer" ∨ column.Type_ = "smallint" then strings.ToUpper column.Type_
  else if column.Type_ = "string" then
    match column.Size with
    | some size => "VARCHAR(" ++ fmt.verbDInt size ++ ")"
    | none => "TEXT"
  else if column.Type_ = "text" then "TEXT"
  else if column.Type_ = "boolean" then "BOOLEAN"
  else if column.Type_ = "date" then "DATE"
  else if column.Type_ = "timestamp" then "TIMESTAMPTZ"
  else if column.Type_ = "double" then "DOUBLE PRECISION"
  else if column.DbType ≠ "" then strings.ToUpper column.DbType
  else "TEXT"

/-- Go `func formatDefaultValue(value interface{}) string`. -/
def formatDefaultValue : Value → String
  | .null => ""
  | .object m =>
      match mapGet m "expression" with
      | some expr => fmt.verbV expr
      | none => ""
  | .str v => "'" ++ strings.doubleQuotes v ++ "'"
  | .bool v => if v then "true" else "false"
  | .number t => fmt.verbV (.number t)
  | .array xs => fmt.verbV (.array xs)

/-- Go `func getDefaultForType(columnType string) string`. -/
def getDefaultForType (columnType : String) : String :=
  let upperType := strings.ToUpper columnType
  if strings.Contains upperType "INT" then " DEFAULT 0"
  else if strings.Contains upperType "BOOL" then " DEFAULT false"
  else if strings.Contains upperType "NUMERIC" || strings.Contains upperType "DECIMAL"
      || strings.Contains upperType "DOUBLE" || strings.Contains upperType "FLOAT" then " DEFAULT 0"
  else if strings.Contains upperType "VARCHAR" || strings.Contains upperType "TEXT"
      || strings.Contains upperType "CHAR" then " DEFAULT ''"
  else if strings.Contains upperType "TIMESTAMP" then " DEFAULT CURRENT_TIMESTAMP"
  else ""

/-- The statement text of `TableExists`. -/
def tableExistsQuery : String :=
  "\n\t\tSELECT EXISTS (\n\t\t\tSELECT FROM information_schema.tables \n\t\t\tWHERE table_name = $1\n\t\t)\n\t"

/-- Go `func (s *SchemaService) TableExists(tableName string) (bool, error)`. -/
def TableExists (conn : sql.DB) (tableName : String) (log : List sql.Call) :
    Except String Bool × List sql.Call :=
  let log1 := log ++ [sql.Call.queryRow tableExistsQuery [Value.str tableName]]
  match conn.QueryRow log tableExistsQuery [Value.str tableName] with
  | .error err => (.error ("failed to check table existence: " ++ err), log1)
  | .ok found => (.ok found, log1)

/-- The statement text of `GetTableColumns`. -/
def tableColumnsQuery : String :=
  "\n\t\tSELECT \n\t\t\tcolumn_name,\n\t\t\tdata_type,\n\t\t\tis_nullable,\n\t\t\tcolumn_default,\n\t\t\tcharacter_maximum_length\n\t\tFROM information_schema.columns\n\t\tWHERE table_name = $1\n\t\tORDER BY ordinal_position\n\t"

/-- The `for rows.Next()` loop of `GetTableColumns`: each scanned row is stored
under its column name; a failing `Scan` ends the function with an error. -/
def scanColumns : List (Except String sql.ColumnRow) → List (String × ColumnInfo) →
    Except String (List (String × ColumnInfo))
  | [], columns => .ok columns
  | .error err :: _, _ => .error ("failed to scan column: " ++ err)
  | .ok r :: rest, columns =>
      scanColumns rest (mapSet columns r.columnName
        { Name := r.columnName, DbType := r.dataType,
          AllowNull := r.isNullable == "YES", Size := r.maxLength })

/-- Go `func (s *SchemaService) GetTableColumns(tableName string) (map[string]domain.ColumnInfo, error)`. -/
def GetTableColumns (conn : sql.DB) (tableName : String) (log : List sql.Call) :
    Except String (List (String × ColumnInfo)) × List sql.Call :=
  let log1 := log ++ [sql.Call.query tableColumnsQuery [Value.str tableName]]
  match conn.Query log tableColumnsQuery [Value.str tableName] with
  | .error err => (.error ("failed to query columns: " ++ err), log1)
  | .ok rows =>
      match scanColumns rows.scans [] with
      | .error err => (.error err, log1)
      | .ok columns =>
          match rows.Err with
          | some err => (.error ("rows iteration error: " ++ err), log1)
          | none => (.ok columns, log1)

/-- The loop of `CompareSchemas` that collects the declared names absent from `dbColumns`. -/
def missingColumnsLoop (dbColumns : List (String × ColumnInfo)) :
    List (String × ColumnInfo) → List String → List String
  | [], missingColumns => missingColumns
  | (columnName, _) :: rest, missingColumns =>
      match mapGet dbColumns columnName with
      | none => missingColumnsLoop dbColumns rest (missingColumns ++ [columnName])
      | some _ => missingColumnsLoop dbColumns rest missingColumns

/-- Go `func (s *SchemaService) CompareSchemas(messageSchema domain.Schema) (bool, []string, error)`. -/
def CompareSchemas (conn : sql.DB) (messageSchema : Schema) (log : List sql.Call) :
    Except String (Bool × List String) × List sql.Call :=
  let tableName := messageSchema.TableName
  match TableExists conn tableName log with
  | (.error err, log1) => (.error err, log1)
  | (.ok false, log1) => (.ok (false, []), log1)
  | (.ok true, log1) =>
      match GetTableColumns conn tableName log1 with
      | (.error err, log2) => (.error err, log2)
      | (.ok dbColumns, log2) =>
          let missingColumns := missingColumnsLoop dbColumns messageSchema.Columns []
          (.ok (missingColumns.length == 0, missingColumns), log2)

/-- The `NULL` / `NOT NULL` keyword of a column. -/
def nullableKeyword (column : ColumnInfo) : String :=
  if !column.AllowNull then "NOT NULL" else "NULL"

/-- Go `func (s *SchemaService) AddColumns(tableName string, columns map[string]domain.ColumnInfo, missingColumns []string) error`. -/
def AddColumns (conn : sql.DB) (tableName : String) (columns : List (String × ColumnInfo)) :
    List String → List sql.Call → Option String × List sql.Call
  | [], log => (none, log)
  | columnName :: rest, log =>
      match mapGet columns columnName with
      | none => AddColumns conn tableName columns rest log
      | some column =>
          let columnType := mapTypeToPostgres column
          let nullable := nullableKeyword column
          let query := "ALTER TABLE \"" ++ tableName ++ "\" ADD COLUMN IF NOT EXISTS \""
            ++ columnName ++ "\" " ++ columnType ++ " " ++ nullable
          match conn.Exec log query [] with
          | .error err =>
              (some ("failed to add column " ++ columnName ++ ": " ++ err),
                log ++ [sql.Call.exec query []])
          | .ok _ => AddColumns conn tableName columns rest (log ++ [sql.Call.exec query []])

/-- The column definition that the loop body of `CreateTable` builds for one column. -/
def columnDef (columnName : String) (column : ColumnInfo) : String :=
  let columnType := mapTypeToPostgres column
  let nullable := nullableKeyword column
  let def0 := "\"" ++ columnName ++ "\" " ++ columnType ++ " " ++ nullable
  if !column.DefaultValue.isNil then
    let defaultVal := formatDefaultValue column.DefaultValue
    if defaultVal ≠ "" then def0 ++ " DEFAULT " ++ defaultVal else def0
  else if !column.AllowNull then def0 ++ getDefaultForType columnType
  else def0

/-- The statement text that `CreateTable` builds. -/
def createTableQuery (schema : Schema) : String :=
  let columnDefs := schema.Columns.map (fun e => columnDef e.1 e.2)
  let columnDefs :=
    if schema.PrimaryKey.length > 0 then
      let quotedPK := schema.PrimaryKey.map (fun pk => "\"" ++ pk ++ "\"")
      columnDefs ++ ["PRIMARY KEY (" ++ strings.Join quotedPK ", " ++ ")"]
    else columnDefs
  "CREATE TABLE IF NOT EXISTS \"" ++ schema.TableName ++ "\" (" ++ strings.Join columnDefs ", " ++ ")"

/-- Go `func (s *SchemaService) CreateTable(schema domain.Schema) error`. -/
def CreateTable (conn : sql.DB) (schema : Schema) (log : List sql.Call) :
    Option String × List sql.Call :=
  let query := createTableQuery schema
  match conn.Exec log query [] with
  | .error err => (some ("failed to create table: " ++ err), log ++ [sql.Call.exec query []])
  | .ok _ => (none, log ++ [sql.Call.exec query []])

end schema_database

/-! ## Package `db` (storage) -/

namespace db

open domain

/-- Go `func (s *Storage) CheckAndUpdateSchema(schema domain.Schema) error`. -/
def CheckAndUpdateSchema (conn : sql.DB) (schema : Schema) (log : List sql.Call) :
    Option String × List sql.Call :=
  let tableName := schema.TableName
  match schema_database.TableExists conn tableName log with
  | (.error err, log1) => (some err, log1)
  | (.ok false, log1) => schema_database.CreateTable conn schema log1
  | (.ok true, log1) =>
      match schema_database.CompareSchemas conn schema log1 with
      | (.error err, log2) => (some err, log2)
      | (.ok (isEqual, missingColumns), log2) =>
          if !isEqual then
            schema_database.AddColumns conn tableName schema.Columns missingColumns log2
          else (none, log2)

/-- Accumulators of the loop of `InsertData`. -/
structure InsertAcc where
  columns : List String := []
  values : List Value := []
  placeholders : List String := []
  paramIndex : Nat := 1

/-- One iteration of the loop of `InsertData`. -/
def insertStep (acc : InsertAcc) (field : Fields) : InsertAcc :=
  if field.NewValue.isNil then acc
  else
    { columns := acc.columns ++ ["\"" ++ field.Field ++ "\""]
      values := acc.values ++ [field.NewValue]
      placeholders := acc.placeholders ++ ["$" ++ fmt.verbD acc.paramIndex]
      paramIndex := acc.paramIndex + 1 }

/-- Go `func (s *Storage) InsertData(tableName string, data []domain.Fields) error`. -/
def InsertData (conn : sql.DB) (tableName : String) (data : List Fields) (log : List sql.Call) :
    Option String × List sql.Call :=
  if data.length = 0 then (none, log)
  else
    let acc := data.foldl insertStep {}
    if acc.columns.length = 0 then (none, log)
    else
      let query := "INSERT INTO \"" ++ tableName ++ "\" (" ++ strings.Join acc.columns ", "
        ++ ") VALUES (" ++ strings.Join acc.placeholders ", " ++ ") ON CONFLICT DO NOTHING"
      match conn.Exec log query acc.values with
      | .error err => (some ("failed to insert data: " ++ err), log ++ [sql.Call.exec query acc.values])
      | .ok _ => (none, log ++ [sql.Call.exec query acc.values])

/-- The inner loop of the first loop of `UpdateData`: `pkValues[pk] = field.NewValue`
for every primary-key name equal to the field name. -/
def pkValuesInner (field : Fields) : List String → List (String × Value) → List (String × Value)
  | [], pkValues => pkValues
  | pk :: rest, pkValues =>
      pkValuesInner field rest (if field.Field = pk then mapSet pkValues pk field.NewValue else pkValues)

/-- The inner loop of the second loop of `UpdateData`, which sets `isPrimaryKey`
and breaks at the first primary-key name equal to the field name. -/
def isPrimaryKey (field : Fields) : List String → Bool
  | [] => false
  | pk :: rest => if field.Field = pk then true else isPrimaryKey field rest

/-- Accumulators of the loops of `UpdateData`. -/
structure UpdateAcc where
  setClauses : List String := []
  whereClause : List String := []
  values : List Value := []
  valueIndex : Nat := 1

/-- One iteration of the loop of `UpdateData` that builds the SET part. -/
def setStep (primaryKeys : List String) (acc : UpdateAcc) (field : Fields) : UpdateAcc :=
  if !(isPrimaryKey field primaryKeys) && !field.NewValue.isNil then
    { acc with
      setClauses := acc.setClauses ++ ["\"" ++ field.Field ++ "\" = $" ++ fmt.verbD acc.valueIndex]
      values := acc.values ++ [field.NewValue]
      valueIndex := acc.valueIndex + 1 }
  else acc

/-- One iteration of the loop of `UpdateData` that builds the WHERE part. -/
def whereStep (pkValues : List (String × Value)) (acc : UpdateAcc) (pk : String) : UpdateAcc :=
  match mapGet pkValues pk with
  | some val =>
      { acc with
        whereClause := acc.whereClause ++ ["\"" ++ pk ++ "\" = $" ++ fmt.verbD acc.valueIndex]
        values := acc.values ++ [val]
        valueIndex := acc.valueIndex + 1 }
  | none => acc

/-- The three loops of `UpdateData`: key values, SET part, WHERE part. -/
def buildUpdate (data : List Fields) (primaryKeys : List String) : UpdateAcc :=
  let pkValues := data.foldl (fun m field => pkValuesInner field primaryKeys m) []
  let acc := data.foldl (setStep primaryKeys) {}
  primaryKeys.foldl (whereStep pkValues) acc

/-- The statement text that `UpdateData` builds from its clauses. -/
def updateQuery (tableName : String) (acc : UpdateAcc) : String :=
  "UPDATE \"" ++ tableName ++ "\" SET " ++ strings.Join acc.setClauses ", "
    ++ " WHERE " ++ strings.Join acc.whereClause " AND "

/-- Go `func (s *Storage) UpdateData(tableName string, data []domain.Fields, primaryKeys []string) error`. -/
def UpdateData (conn : sql.DB) (tableName : String) (data : List Fields)
    (primaryKeys : List String) (log : List sql.Call) : Option String × List sql.Call :=
  if data.length = 0 then (none, log)
  else
    let acc := buildUpdate data primaryKeys
    if acc.setClauses.length = 0 then (some "no fields to update", log)
    else if acc.whereClause.length = 0 then (some "no primary key values found", log)
    else
      let query := updateQuery tableName acc
      let log1 := log ++ [sql.Call.exec query acc.values]
      match conn.Exec log query acc.values with
      | .error err => (some ("failed to update data: " ++ err), log1)
      | .ok result =>
          match result.RowsAffected with
          | .error err => (some ("failed to get rows affected: " ++ err), log1)
          | .ok rowsAffected =>
              if rowsAffected = 0 then InsertData conn tableName data log1
              else (none, log1)

/-- Go `func (s *Storage) SaveMessage(message *domain.Message) error`. -/
def SaveMessage (conn : sql.DB) (message : Message) (log : List sql.Call) :
    Option String × List sql.Call :=
  let tableName := message.Schema.TableName
  match CheckAndUpdateSchema conn message.Schema log with
  | (some err, log1) => (some ("failed to check/update schema: " ++ err), log1)
  | (none, log1) =>
      if message.EventType = EventTypeInsert then InsertData conn tableName message.Data log1
      else if message.EventType = EventTypeUpdate then
        UpdateData conn tableName message.Data message.Schema.PrimaryKey log1
      else (some ("unknown event type: " ++ message.EventType), log1)

end db

/-! ## Package `consumer_rabbitmq` -/

namespace amqp

/-- Go `amqp.Delivery`, of which only the payload is read. -/
structure Delivery where
  Body : List UInt8

/-- The acknowledgement calls made on a delivery: `msg.Ack(multiple)` and
`msg.Nack(multiple, requeue)`. -/
inductive Signal where
  | Ack (multiple : Bool)
  | Nack (multiple : Bool) (requeue : Bool)
deriving DecidableEq

end amqp

namespace consumer_rabbitmq

open domain

/-- The body of the `for msg := range msgs` loop of `Listener`. `unmarshal` is
`json.Unmarshal` into a `domain.Message`. The result is the list of
acknowledgement calls made on the delivery and the new database log. -/
def handleDelivery (unmarshal : List UInt8 → Except String Message) (conn : sql.DB)
    (msg : amqp.Delivery) (log : List sql.Call) : List amqp.Signal × List sql.Call :=
  match unmarshal msg.Body with
  | .error _ => ([amqp.Signal.Nack false true], log)
  | .ok message =>
      match ValidateMessage message with
      | (isValid, err) =>
          if err.isSome || !isValid then ([amqp.Signal.Nack false true], log)
          else
            match db.SaveMessage conn message log with
            | (some _, log1) => ([amqp.Signal.Nack false true], log1)
            | (none, log1) => ([amqp.Signal.Ack false], log1)

/-- The `for msg := range msgs` loop of `Listener` over the deliveries that the
channel yields: the acknowledgement calls per delivery, and the database log. -/
def deliveryLoop (unmarshal : List UInt8 → Except String Message) (conn : sql.DB) :
    List amqp.Delivery → List sql.Call → List (List amqp.Signal) × List sql.Call
  | [], log => ([], log)
  | msg :: rest, log =>
      let r := handleDelivery unmarshal conn msg log
      let rs := deliveryLoop unmarshal conn rest r.2
      (r.1 :: rs.1, rs.2)

/-- Go `func Listener(c *rabbitmq.Client, storage *storageDb.Storage, queueName string) error`.
`consume` is the outcome of `c.RabbitmqChannel.Consume`: an error, or the
deliveries that the channel yields until it is closed. -/
def Listener (consume : Except String (List amqp.Delivery))
    (unmarshal : List UInt8 → Except String Message) (conn : sql.DB) (log : List sql.Call) :
    Option String × List (List amqp.Signal) × List sql.Call :=
  match consume with
  | .error err => (some ("failed to register a consumer: " ++ err), [], log)
  | .ok msgs =>
      let r := deliveryLoop unmarshal conn msgs log
      (none, r.1, r.2)

end consumer_rabbitmq

/-! ## Concrete stores and inputs used in examples -/

namespace examples

open domain

/-- A store in which every statement succeeds and affects one row, every table
exists and the column catalogue is empty. -/
def okStore : sql.DB where
  Exec := fun _ _ _ => .ok { RowsAffected := .ok 1 }
  Query := fun _ _ _ => .ok { scans := [], Err := none }
  QueryRow := fun _ _ _ => .ok true

/-- A store in which every statement succeeds and affects no row, and no table exists. -/
def emptyStore : sql.DB where
  Exec := fun _ _ _ => .ok { RowsAffected := .ok 0 }
  Query := fun _ _ _ => .ok { scans := [], Err := none }
  QueryRow := fun _ _ _ => .ok false

/-- A store that cannot be reached: every call fails. -/
def downStore : sql.DB where
  Exec := fun _ _ _ => .error "connection refused"
  Query := fun _ _ _ => .error "connection refused"
  QueryRow := fun _ _ _ => .error "connection refused"

/-- A decoder that agrees with `json.Unmarshal` on two payloads: the empty
payload is rejected, and the payload `{}` decodes to the zero message. -/
def decodeSample (body : List UInt8) : Except String Message :=
  if body = [] then .error "unexpected end of JSON input"
  else if body = [123, 125] then .ok {}
  else .error "invalid character"

/-- A decoder under which every payload decodes to the given message. -/
def decodeTo (m : Message) (_ : List UInt8) : Except String Message := .ok m

/-- The fields `id = 1`, `name = "Janet"`. -/
def janet : List Fields :=
  [{ Field := "id", NewValue := Value.number "1" }, { Field := "name", NewValue := Value.str "Janet" }]

/-- A schema `leads` with columns `id` and `name` and primary key `id`. -/
def leads : Schema :=
  { TableName := "leads"
    Columns := [("id", { Type_ := "bigint" }), ("name", { Type_ := "string", Size := some 50 })]
    PrimaryKey := ["id"] }

end examples

/-! ## Specification-side descriptions of the generated statements -/

namespace spec

open domain

/-- The fields that take part in an insert: those with a non-null `newValue`,
in their original order. -/
def insertFields (data : List Fields) : List Fields :=
  data.filter (fun f => !f.NewValue.isNil)

/-- The placeholders `$s, $(s+1), ..., $(s+n-1)`. -/
def placeholders (s n : Nat) : List String :=
  (List.range' s n).map (fun i => "$" ++ toString i)

/-- The text `INSERT INTO "t" (c1, ..., cn) VALUES ($1, ..., $n) ON CONFLICT DO NOTHING`
over the double-quoted names of the given fields. -/
def insertText (t : String) (fields : List Fields) : String :=
  "INSERT INTO \"" ++ t ++ "\" ("
    ++ ", ".intercalate (fields.map (fun f => "\"" ++ f.Field ++ "\""))
    ++ ") VALUES (" ++ ", ".intercalate (placeholders 1 fields.length)
    ++ ") ON CONFLICT DO NOTHING"

/-- The store call of an insert as the specification describes it. -/
def insertCall (t : String) (data : List Fields) : sql.Call :=
  sql.Call.exec (insertText t (insertFields data)) ((insertFields data).map (fun f => f.NewValue))

/-- Whether a store call executes an insert or an update statement. -/
def isWrite : sql.Call → Bool
  | .exec q _ => "INSERT INTO ".data.isPrefixOf q.data || "UPDATE ".data.isPrefixOf q.data
  | _ => false

/-- The log `log2` extends `log1` by calls none of which is an insert or update statement. -/
def ExtendsWithoutWrite (log1 log2 : List sql.Call) : Prop :=
  ∃ extra, log2 = log1 ++ extra ∧ ∀ c ∈ extra, isWrite c = false

/-- The fields that make up the SET clause of an update: those not named in
`primaryKeyColumns` whose `newValue` is non-null, in field-list order. -/
def setFields (data : List Fields) (pks : List String) : List Fields :=
  data.filter (fun f => !(decide (f.Field ∈ pks)) && !f.NewValue.isNil)

/-- The key columns of the WHERE clause of an update: the `primaryKeyColumns`
entries that occur as a field name, in `primaryKeyColumns` order. -/
def keyColumns (data : List Fields) (pks : List String) : List String :=
  pks.filter (fun pk => data.any (fun f => decide (f.Field = pk)))

/-- The `newValue` of the last field of the list named `pk`, if there is one. -/
def lastValue (data : List Fields) (pk : String) : Option Value :=
  ((data.filter (fun f => decide (f.Field = pk))).getLast?).map (fun f => f.NewValue)

/-- The value bound for a key column: the `newValue` of the last field named `pk`. -/
def keyValue (data : List Fields) (pk : String) : Value :=
  (lastValue data pk).getD Value.null

/-- The conditions `"n1" = $s`, `"n2" = $(s+1)`, ... over the given names. -/
def numbered (s : Nat) (names : List String) : List String :=
  List.zipWith (fun name p => "\"" ++ name ++ "\" = " ++ p) names (placeholders s names.length)

/-- The text `UPDATE "t" SET s1, ..., sk WHERE w1 AND ... AND wm`. -/
def updateText (t : String) (data : List Fields) (pks : List String) : String :=
  "UPDATE \"" ++ t ++ "\" SET "
    ++ ", ".intercalate (numbered 1 ((setFields data pks).map (fun f => f.Field)))
    ++ " WHERE "
    ++ " AND ".intercalate (numbered ((setFields data pks).length + 1) (keyColumns data pks))

/-- The bound parameters of an update: the SET values, then the key values. -/
def updateArgs (data : List Fields) (pks : List String) : List Value :=
  (setFields data pks).map (fun f => f.NewValue) ++ (keyColumns data pks).map (keyValue data)

/-- The store call of an update as the specification describes it. -/
def updateCall (t : String) (data : List Fields) (pks : List String) : sql.Call :=
  sql.Call.exec (updateText t data pks) (updateArgs data pks)

end spec

/-! ## Specification-side descriptions of schema synchronisation -/

namespace spec

open domain

/-- The declared column names that are not keys of the introspected column map,
in the order in which the declared columns are visited. -/
def missingNames (dbColumns declared : List (String × ColumnInfo)) : List String :=
  (declared.map Prod.fst).filter (fun n => decide (n ∉ dbColumns.map Prod.fst))

/-- The logical type tags that the type mapping recognises. -/
def knownTags : List String :=
  ["bigint", "integer", "smallint", "string", "text", "boolean", "date", "timestamp", "double"]

/-- A column definition: the double-quoted name, the native type, `NULL` or
`NOT NULL` according to `allowNull`, and a default clause (possibly empty). -/
def columnItem (name nativeType : String) (allowNull : Bool) (clause : String) : String :=
  "\"" ++ name ++ "\" " ++ nativeType ++ " " ++ (if allowNull then "NULL" else "NOT NULL") ++ clause

/-- The item `PRIMARY KEY ("k1", ..., "kn")`. -/
def primaryKeyItem (primaryKey : List String) : String :=
  "PRIMARY KEY (" ++ ", ".intercalate (primaryKey.map (fun pk => "\"" ++ pk ++ "\"")) ++ ")"

end spec

namespace examples

open domain

/-- A store in which table `leads` exists with the single column `id`, and every
statement succeeds. -/
def leadsStore : sql.DB where
  Exec := fun _ _ _ => .ok { RowsAffected := .ok 1 }
  Query := fun _ _ _ =>
    .ok { scans := [.ok { columnName := "id", dataType := "bigint", isNullable := "NO",
                          colDefault := none, maxLength := none }],
          Err := none }
  QueryRow := fun _ _ _ => .ok true

end examples

namespace spec

open domain

/-- The characters of a decimal numeral: the ten digits and the minus sign. -/
def numeralChars : List Char := "0123456789-".data

/-- Reading a quoted SQL literal body back: every pair of single quotes stands
for one single quote, and a single quote that is not followed by a second one
is an error. -/
def undouble : List Char → Option (List Char)
  | [] => some []
  | c :: rest =>
      if c = Char.ofNat 39 then
        match rest with
        | [] => none
        | d :: rest2 =>
            if d = Char.ofNat 39 then (undouble rest2).map (fun r => c :: r) else none
      else (undouble rest).map (fun r => c :: r)

end spec

namespace spec

open domain schema_database

/-- The text `ALTER TABLE "t" ADD COLUMN IF NOT EXISTS "c" <type> <NULL | NOT NULL>`. -/
def addColumnText (t name : String) (column : ColumnInfo) : String :=
  "ALTER TABLE \"" ++ t ++ "\" ADD COLUMN IF NOT EXISTS \"" ++ name ++ "\" "
    ++ mapTypeToPostgres column ++ " " ++ (if column.AllowNull then "NULL" else "NOT NULL")

/-- The store calls that add the given names to table `t`: one exec per name that
is a key of the column map, in the order of the names; other names are skipped. -/
def addColumnCalls (t : String) (columns : List (String × ColumnInfo)) (names : List String) :
    List sql.Call :=
  names.filterMap (fun name =>
    (mapGet columns name).map (fun column => sql.Call.exec (addColumnText t name column) []))

/-- The state of a destination store: for each table, its column names. -/
abbrev Catalog := List (String × List String)

/-- The effect of one store call on the catalogue, for the statements that schema
synchronisation issues for the schema `s`: its CREATE TABLE statement creates
the table with the declared columns unless the table exists, and an ADD COLUMN
statement for one of its columns adds that column to the existing table unless
the column exists. Queries and other statements leave the catalogue as it is. -/
def applyCall (s : Schema) (cat : Catalog) : sql.Call → Catalog
  | .exec q _ =>
      if q = createTableQuery s then
        match mapGet cat s.TableName with
        | some _ => cat
        | none => mapSet cat s.TableName (s.Columns.map Prod.fst)
      else
        match mapGet cat s.TableName with
        | none => cat
        | some cols =>
            mapSet cat s.TableName
              (cols ++ ((s.Columns.filter
                  (fun e => decide (q = addColumnText s.TableName e.1 e.2))).map Prod.fst).filter
                (fun n => decide (n ∉ cols)))
  | _ => cat

/-- The catalogue after the calls of a log, starting from `cat0`. -/
def catalogAfter (s : Schema) (cat0 : Catalog) (log : List sql.Call) : Catalog :=
  log.foldl (applyCall s) cat0

/-- The catalogue row that introspection returns for a column name. -/
def catalogRow (name : String) : sql.ColumnRow :=
  { columnName := name, dataType := "text", isNullable := "YES", colDefault := none,
    maxLength := none }

/-- A store in which every statement succeeds and takes effect on the catalogue:
the table-existence query and the column query answer from the catalogue as
the calls made so far have left it. -/
def modelStore (s : Schema) (cat0 : Catalog) : sql.DB where
  Exec := fun _ _ _ => .ok { RowsAffected := .ok 0 }
  Query := fun history _ args =>
    match args with
    | [Value.str t] =>
        .ok { scans := ((mapGet (catalogAfter s cat0 history) t).getD []).map
                (fun n => .ok (catalogRow n)),
              Err := none }
    | _ => .error "unsupported arguments"
  QueryRow := fun history _ args =>
    match args with
    | [Value.str t] => .ok (mapGet (catalogAfter s cat0 history) t).isSome
    | _ => .error "unsupported arguments"

end spec

namespace examples

open domain

/-- The schema `leads` with its columns visited in the order `name`, `id`. -/
def leadsNameFirst : Schema :=
  { TableName := "leads"
    Columns := [("name", { Type_ := "string", Size := some 50 }), ("id", { Type_ := "bigint" })]
    PrimaryKey := ["id"] }

/-- A store in which the first statement succeeds and every later one fails. -/
def failsAfterFirst : sql.DB where
  Exec := fun history _ _ =>
    match history with
    | [] => .ok { RowsAffected := .ok 0 }
    | _ :: _ => .error "deadlock detected"
  Query := fun _ _ _ => .ok { scans := [], Err := none }
  QueryRow := fun _ _ _ => .ok true

end examples

/-! ## Specification-side vocabulary for failures, statement texts and scenarios -/

namespace spec

open domain

/-- Whether a fallible result is an error. -/
def isError {α : Type} : Except String α → Bool
  | .error _ => true
  | .ok _ => false

/-- Whether the store answers a call, made after the calls of `history`, with a
failure: a failing exec, a failing existence query, or a column query that
fails, yields a row that cannot be scanned, or ends with an iteration error. -/
def callFails (conn : sql.DB) (history : List sql.Call) : sql.Call → Bool
  | .exec q args =>
      match conn.Exec history q args with
      | .error _ => true
      | .ok _ => false
  | .queryRow q args =>
      match conn.QueryRow history q args with
      | .error _ => true
      | .ok _ => false
  | .query q args =>
      match conn.Query history q args with
      | .error _ => true
      | .ok rows => rows.scans.any isError || rows.Err.isSome

/-- Every call of the list, made in order after the calls of `history`, succeeds. -/
def allOk (conn : sql.DB) (history : List sql.Call) : List sql.Call → Bool
  | [] => true
  | c :: rest => !callFails conn history c && allOk conn (history ++ [c]) rest

/-- The calls of the list succeed one after the other up to the last one, which
fails: no call follows the first failing call. -/
def stopsAtFailure (conn : sql.DB) (history : List sql.Call) : List sql.Call → Bool
  | [] => false
  | c :: rest =>
      if callFails conn history c then rest.isEmpty
      else stopsAtFailure conn (history ++ [c]) rest

/-- A run that started with the log `before` and ended with the log `after`
made its calls one after the other, each answered with success, except that
when the run failed its last call was answered with a failure. -/
def SucceedsOrStops (conn : sql.DB) (before : List sql.Call) (failed : Bool)
    (after : List sql.Call) : Prop :=
  ∃ extra, after = before ++ extra
    ∧ (failed = false → allOk conn before extra = true)
    ∧ (failed = true → stopsAtFailure conn before extra = true)

/-- The calls that a run has added to the log `before`. -/
def issued (before after : List sql.Call) : List sql.Call := after.drop before.length

/-- The statement text of a store call. -/
def callText : sql.Call → String
  | .exec q _ => q
  | .query q _ => q
  | .queryRow q _ => q

/-- The part of a field list that does not depend on the non-null values: the
field names in order, each with the mark whether its `newValue` is null. -/
def shape (data : List Fields) : List (String × Bool) :=
  data.map (fun f => (f.Field, f.NewValue.isNil))

end spec

namespace examples

open domain

/-- The event of Scenario A: an insert into `leads` of `id = 1`, `name = "Jane"`,
with the declared columns `id` (bigint, NOT NULL, primary key) and `name`
(string of size 50, NOT NULL), neither with a declared default. -/
def scenarioA : Message :=
  { EventType := "insert"
    Data := [{ Field := "id", NewValue := Value.number "1" },
             { Field := "name", NewValue := Value.str "Jane" }]
    Schema :=
      { TableName := "leads"
        Columns := [("id", { Name := "id", Type_ := "bigint", DbType := "int8",
                             IsPrimaryKey := true }),
                    ("name", { Name := "name", Type_ := "string", DbType := "varchar",
                               Size := some 50 })]
        PrimaryKey := ["id"] } }

/-- An event of kind `delete` on the schema `leads`. -/
def deleteEvent : Message :=
  { EventType := "delete", Data := janet, Schema := leads }

end examples

/-! ## The library function `strings.ToUpper` as a parameter -/

namespace strings

/-- A text of ASCII characters only. -/
def IsASCII (s : String) : Prop := ∀ c ∈ s.data, c.toNat < 128

/-- What is assumed of a function `toUpper` that stands for Go's
`strings.ToUpper`: on a text of ASCII characters it replaces every lower-case
letter by its upper-case letter, as `strings.ToUpper` above does. Nothing is
assumed of it on other texts, where Go's function also maps the non-ASCII
letters. -/
def AgreesOnASCII (toUpper : String → String) : Prop :=
  ∀ s, IsASCII s → toUpper s = ToUpper s

end strings

namespace schema_database

open domain

/-- Go `func (s *SchemaService) mapTypeToPostgres(column domain.ColumnInfo) string`,
with the library function `strings.ToUpper` that it calls taken as the
parameter `toUpper`. -/
def mapTypeToPostgresWith (toUpper : String → String) (column : ColumnInfo) : String :=
  if column.Type_ = "bigint" then "BIGINT"
  else if column.Type_ = "integer" ∨ column.Type_ = "smallint" then toUpper column.Type_
  else if column.Type_ = "string" then
    match column.Size with
    | some size => "VARCHAR(" ++ fmt.verbDInt size ++ ")"
    | none => "TEXT"
  else if column.Type_ = "text" then "TEXT"
  else if column.Type_ = "boolean" then "BOOLEAN"
  else if column.Type_ = "date" then "DATE"
  else if column.Type_ = "timestamp" then "TIMESTAMPTZ"
  else if column.Type_ = "double" then "DOUBLE PRECISION"
  else if column.DbType ≠ "" then toUpper column.DbType
  else "TEXT"

end schema_database

namespace examples

open domain

/-- The event of Scenario A with its column map visited in the given order: the
same event kind, data, table name and primary key, and the given list of
columns. -/
def scenarioAWith (columns : List (String × ColumnInfo)) : Message :=
  { scenarioA with Schema := { scenarioA.Schema with Columns := columns } }

end examples

/-! ## Lemmas on the loops of the write engine -/

namespace db

open domain

theorem foldl_insertStep (data : List Fields) (acc : InsertAcc) :
    data.foldl insertStep acc =
      { columns := acc.columns ++ (spec.insertFields data).map (fun f => "\"" ++ f.Field ++ "\"")
        values := acc.values ++ (spec.insertFields data).map (fun f => f.NewValue)
        placeholders := acc.placeholders
          ++ spec.placeholders acc.paramIndex (spec.insertFields data).length
        paramIndex := acc.paramIndex + (spec.insertFields data).length } := by
  induction data generalizing acc with
  | nil => simp [spec.insertFields, spec.placeholders]
  | cons f rest ih =>
      rw [List.foldl_cons, ih]
      by_cases hf : f.NewValue.isNil = true
      · simp [insertStep, hf, spec.insertFields]
      · simp only [Bool.not_eq_true] at hf
        simp [insertStep, hf, spec.insertFields, spec.placeholders, List.range'_succ, fmt.verbD,
          Nat.add_assoc, Nat.add_comm 1]

theorem insertFields_eq_nil_iff (data : List Fields) :
    spec.insertFields data = [] ↔ ∀ f ∈ data, f.NewValue.isNil = true := by
  simp [spec.insertFields, List.filter_eq_nil_iff]

/-- What `InsertData` does when some field has a non-null value. -/
theorem InsertData_of_nonNull (conn : sql.DB) (t : String) (data : List Fields)
    (log : List sql.Call) (h : spec.insertFields data ≠ []) :
    InsertData conn t data log =
      ((match conn.Exec log (spec.insertText t (spec.insertFields data))
            ((spec.insertFields data).map (fun f => f.NewValue)) with
        | .error err => some ("failed to insert data: " ++ err)
        | .ok _ => none),
       log ++ [spec.insertCall t data]) := by
  have hd : data.length ≠ 0 := by
    intro h0
    have : data = [] := List.length_eq_zero.mp h0
    subst this
    exact h rfl
  have hc : ((spec.insertFields data).map (fun f => "\"" ++ f.Field ++ "\"")).length ≠ 0 := by
    simpa using h
  unfold InsertData
  rw [if_neg hd, foldl_insertStep]
  simp only [List.nil_append]
  rw [if_neg hc]
  simp only [strings.Join, spec.insertText, spec.insertCall]
  cases conn.Exec log _ _ <;> rfl

/-- What `InsertData` does when no field has a non-null value. -/
theorem InsertData_of_allNull (conn : sql.DB) (t : String) (data : List Fields)
    (log : List sql.Call) (h : spec.insertFields data = []) :
    InsertData conn t data log = (none, log) := by
  unfold InsertData
  split
  · rfl
  · rw [foldl_insertStep, h]
    simp

end db

namespace db

open domain

theorem isPrimaryKey_eq (field : Fields) (pks : List String) :
    isPrimaryKey field pks = decide (field.Field ∈ pks) := by
  induction pks with
  | nil => simp [isPrimaryKey]
  | cons pk rest ih =>
      by_cases h : field.Field = pk
      · simp [isPrimaryKey, h]
      · simp [isPrimaryKey, h, ih]

theorem placeholders_length (s n : Nat) : (spec.placeholders s n).length = n := by
  simp [spec.placeholders]

theorem clause_text (n : String) (s : Nat) :
    "\"" ++ n ++ "\" = " ++ ("$" ++ toString s) = "\"" ++ n ++ "\" = $" ++ toString s := by
  have h : "\" = " ++ ("$" ++ toString s) = "\" = $" ++ toString s := by
    rw [← String.append_assoc]
    rfl
  rw [String.append_assoc, String.append_assoc, h, ← String.append_assoc, ← String.append_assoc]

theorem numbered_cons (s : Nat) (n : String) (ns : List String) :
    spec.numbered s (n :: ns) = ("\"" ++ n ++ "\" = $" ++ toString s) :: spec.numbered (s + 1) ns := by
  simp [spec.numbered, spec.placeholders, List.range'_succ, clause_text]

theorem numbered_length (s : Nat) (ns : List String) : (spec.numbered s ns).length = ns.length := by
  simp [spec.numbered, placeholders_length]

theorem foldl_setStep (pks : List String) (data : List Fields) (acc : UpdateAcc) :
    data.foldl (setStep pks) acc =
      { acc with
        setClauses := acc.setClauses
          ++ spec.numbered acc.valueIndex ((spec.setFields data pks).map (fun f => f.Field))
        values := acc.values ++ (spec.setFields data pks).map (fun f => f.NewValue)
        valueIndex := acc.valueIndex + (spec.setFields data pks).length } := by
  induction data generalizing acc with
  | nil => simp [spec.setFields, spec.numbered]
  | cons f rest ih =>
      rw [List.foldl_cons, ih]
      by_cases hf : (!(decide (f.Field ∈ pks)) && !f.NewValue.isNil) = true
      · have hs : spec.setFields (f :: rest) pks = f :: spec.setFields rest pks := by
          simp only [spec.setFields, List.filter_cons, hf, if_true]
        simp [setStep, isPrimaryKey_eq, hf, hs, numbered_cons, fmt.verbD, Nat.add_assoc,
          Nat.add_comm 1]
      · have hs : spec.setFields (f :: rest) pks = spec.setFields rest pks := by
          simp only [spec.setFields, List.filter_cons, hf]
          simp
        simp [setStep, isPrimaryKey_eq, hf, hs]

theorem mapGet_mapSet {β : Type} (m : List (String × β)) (k k' : String) (v : β) :
    mapGet (mapSet m k v) k' = if k = k' then some v else mapGet m k' := by
  induction m with
  | nil => simp [mapSet, mapGet]
  | cons e rest ih =>
      obtain ⟨k0, v0⟩ := e
      by_cases h0 : k0 = k
      · subst h0
        by_cases h1 : k0 = k' <;> simp [mapSet, mapGet, h1]
      · by_cases h1 : k0 = k'
        · subst h1
          have : ¬ k = k0 := fun h => h0 h.symm
          simp [mapSet, mapGet, h0, this]
        · simp [mapSet, mapGet, h0, h1, ih]

theorem mapGet_pkValuesInner (field : Fields) (pks : List String) (m : List (String × Value))
    (k : String) :
    mapGet (pkValuesInner field pks m) k =
      if field.Field = k ∧ k ∈ pks then some field.NewValue else mapGet m k := by
  induction pks generalizing m with
  | nil => simp [pkValuesInner]
  | cons pk rest ih =>
      rw [pkValuesInner, ih]
      by_cases hk : field.Field = k
      · subst hk
        by_cases hr : field.Field ∈ rest
        · simp [hr]
        · by_cases hp : field.Field = pk
          · simp [hp, mapGet_mapSet]
          · have hp2 : ¬ pk = field.Field := fun h => hp h.symm
            simp [hr, hp, hp2]
      · by_cases hp : field.Field = pk
        · have : ¬ pk = k := fun h => hk (hp.trans h)
          simp [hk, hp, mapGet_mapSet, this]
        · simp [hk, hp]

theorem lastValue_cons (f : Fields) (rest : List Fields) (pk : String) :
    spec.lastValue (f :: rest) pk =
      match spec.lastValue rest pk with
      | some v => some v
      | none => if f.Field = pk then some f.NewValue else none := by
  unfold spec.lastValue
  by_cases hf : f.Field = pk
  · simp only [List.filter_cons, hf, decide_True, if_true]
    cases hr : rest.filter (fun f => decide (f.Field = pk)) with
    | nil => simp
    | cons g gs =>
        rw [List.getLast?_cons_cons, List.getLast?_eq_getLast _ (List.cons_ne_nil g gs)]
        rfl
  · have hfil : (f :: rest).filter (fun f => decide (f.Field = pk))
        = rest.filter (fun f => decide (f.Field = pk)) := by
      simp [List.filter_cons, hf]
    rw [hfil]
    generalize (rest.filter (fun f => decide (f.Field = pk))).getLast? = o
    cases o <;> simp [hf]

theorem mapGet_pkValues (pks : List String) (data : List Fields) (m : List (String × Value))
    (pk : String) (hpk : pk ∈ pks) :
    mapGet (data.foldl (fun m field => pkValuesInner field pks m) m) pk =
      match spec.lastValue data pk with
      | some v => some v
      | none => mapGet m pk := by
  induction data generalizing m with
  | nil => simp [spec.lastValue]
  | cons f rest ih =>
      rw [List.foldl_cons, ih, lastValue_cons, mapGet_pkValuesInner]
      cases spec.lastValue rest pk with
      | some v => rfl
      | none =>
          by_cases hf : f.Field = pk
          · simp [hf, hpk]
          · simp [hf]

theorem lastValue_isSome (data : List Fields) (pk : String) :
    (spec.lastValue data pk).isSome = data.any (fun f => decide (f.Field = pk)) := by
  induction data with
  | nil => simp [spec.lastValue]
  | cons f rest ih =>
      rw [lastValue_cons, List.any_cons, ← ih]
      cases spec.lastValue rest pk with
      | some v => simp
      | none => by_cases hf : f.Field = pk <;> simp [hf]

theorem foldl_whereStep (data : List Fields) (m : List (String × Value)) (l : List String)
    (hm : ∀ pk ∈ l, mapGet m pk = spec.lastValue data pk) (acc : UpdateAcc) :
    l.foldl (whereStep m) acc =
      { acc with
        whereClause := acc.whereClause ++ spec.numbered acc.valueIndex (spec.keyColumns data l)
        values := acc.values ++ (spec.keyColumns data l).map (spec.keyValue data)
        valueIndex := acc.valueIndex + (spec.keyColumns data l).length } := by
  induction l generalizing acc with
  | nil => simp [spec.keyColumns, spec.numbered]
  | cons pk rest ih =>
      have hrest : ∀ p ∈ rest, mapGet m p = spec.lastValue data p :=
        fun p hp => hm p (List.mem_cons_of_mem _ hp)
      have hpk := hm pk (List.mem_cons_self _ _)
      rw [List.foldl_cons, ih hrest]
      have hany := lastValue_isSome data pk
      cases hl : spec.lastValue data pk with
      | some v =>
          rw [hl] at hany hpk
          have hk : spec.keyColumns data (pk :: rest) = pk :: spec.keyColumns data rest := by
            simp only [spec.keyColumns, List.filter_cons, ← hany, Option.isSome_some, if_true]
          simp [whereStep, hpk, hk, numbered_cons, fmt.verbD, spec.keyValue, hl, Nat.add_assoc,
            Nat.add_comm 1]
      | none =>
          rw [hl] at hany hpk
          have hk : spec.keyColumns data (pk :: rest) = spec.keyColumns data rest := by
            simp only [spec.keyColumns, List.filter_cons, ← hany, Option.isSome_none]
            simp
          simp [whereStep, hpk, hk]

/-- The clauses and parameters that the loops of `UpdateData` build, in closed form. -/
theorem buildUpdate_eq (data : List Fields) (pks : List String) :
    buildUpdate data pks =
      { setClauses := spec.numbered 1 ((spec.setFields data pks).map (fun f => f.Field))
        whereClause := spec.numbered ((spec.setFields data pks).length + 1) (spec.keyColumns data pks)
        values := spec.updateArgs data pks
        valueIndex := 1 + (spec.setFields data pks).length + (spec.keyColumns data pks).length } := by
  unfold buildUpdate
  simp only []
  rw [foldl_setStep, foldl_whereStep data]
  · simp [spec.updateArgs, Nat.add_comm]
  · intro pk hpk
    rw [mapGet_pkValues pks data [] pk hpk]
    cases spec.lastValue data pk <;> simp [mapGet]

theorem updateQuery_buildUpdate (t : String) (data : List Fields) (pks : List String) :
    updateQuery t (buildUpdate data pks) = spec.updateText t data pks := by
  rw [buildUpdate_eq]
  rfl

end db

namespace db

open domain

theorem setClauses_eq_nil_iff (data : List Fields) (pks : List String) :
    (buildUpdate data pks).setClauses.length = 0 ↔ spec.setFields data pks = [] := by
  rw [buildUpdate_eq]
  simp [numbered_length]

theorem whereClause_eq_nil_iff (data : List Fields) (pks : List String) :
    (buildUpdate data pks).whereClause.length = 0 ↔ spec.keyColumns data pks = [] := by
  rw [buildUpdate_eq]
  simp [numbered_length]

/-- `UpdateData` in closed form, once its guards are passed. -/
theorem UpdateData_of_reach (conn : sql.DB) (t : String) (data : List Fields)
    (pks : List String) (log : List sql.Call)
    (hset : spec.setFields data pks ≠ []) (hkey : spec.keyColumns data pks ≠ []) :
    UpdateData conn t data pks log =
      match conn.Exec log (spec.updateText t data pks) (spec.updateArgs data pks) with
      | .error err => (some ("failed to update data: " ++ err), log ++ [spec.updateCall t data pks])
      | .ok result =>
          match result.RowsAffected with
          | .error err =>
              (some ("failed to get rows affected: " ++ err), log ++ [spec.updateCall t data pks])
          | .ok rowsAffected =>
              if rowsAffected = 0 then InsertData conn t data (log ++ [spec.updateCall t data pks])
              else (none, log ++ [spec.updateCall t data pks]) := by
  have hd : data.length ≠ 0 := by
    intro h0
    have : data = [] := List.length_eq_zero.mp h0
    subst this
    exact hset rfl
  have h1 : ¬ (buildUpdate data pks).setClauses.length = 0 :=
    fun h => hset ((setClauses_eq_nil_iff data pks).mp h)
  have h2 : ¬ (buildUpdate data pks).whereClause.length = 0 :=
    fun h => hkey ((whereClause_eq_nil_iff data pks).mp h)
  unfold UpdateData
  rw [if_neg hd]
  simp only []
  rw [if_neg h1, if_neg h2, updateQuery_buildUpdate]
  have hv : (buildUpdate data pks).values = spec.updateArgs data pks := by
    rw [buildUpdate_eq]
  rw [hv]
  rfl

/-- `UpdateData` makes no store call unless both clauses are non-empty. -/
theorem UpdateData_log_of_no_reach (conn : sql.DB) (t : String) (data : List Fields)
    (pks : List String) (log : List sql.Call)
    (h : spec.setFields data pks = [] ∨ spec.keyColumns data pks = []) :
    (UpdateData conn t data pks log).2 = log := by
  unfold UpdateData
  split
  · rfl
  · simp only []
    split
    · rfl
    · split
      · rfl
      · rename_i h1 h2
        rcases h with h | h
        · exact absurd ((setClauses_eq_nil_iff data pks).mpr h) h1
        · exact absurd ((whereClause_eq_nil_iff data pks).mpr h) h2

theorem setFields_subset_insertFields (data : List Fields) (pks : List String)
    (h : spec.setFields data pks ≠ []) : spec.insertFields data ≠ [] := by
  intro hnil
  apply h
  rw [insertFields_eq_nil_iff] at hnil
  simp only [spec.setFields, List.filter_eq_nil_iff]
  intro f hf
  simp [hnil f hf]

end db

/-! ## Lemmas on the store calls of schema synchronisation -/

namespace schema_database

open domain

theorem ExtendsWithoutWrite_refl (log : List sql.Call) : spec.ExtendsWithoutWrite log log :=
  ⟨[], by simp, by simp⟩

theorem ExtendsWithoutWrite_trans {a b c : List sql.Call} (h1 : spec.ExtendsWithoutWrite a b)
    (h2 : spec.ExtendsWithoutWrite b c) : spec.ExtendsWithoutWrite a c := by
  obtain ⟨e1, rfl, p1⟩ := h1
  obtain ⟨e2, rfl, p2⟩ := h2
  refine ⟨e1 ++ e2, by simp, ?_⟩
  intro x hx
  rcases List.mem_append.mp hx with h | h
  · exact p1 x h
  · exact p2 x h

theorem ExtendsWithoutWrite_single (log : List sql.Call) (c : sql.Call)
    (h : spec.isWrite c = false) : spec.ExtendsWithoutWrite log (log ++ [c]) :=
  ⟨[c], rfl, by simpa using h⟩

theorem isWrite_exec_of_head (q : String) (args : List Value) (c : Char) (cs : List Char)
    (h : q.data = c :: cs) (hI : c ≠ 'I') (hU : c ≠ 'U') :
    spec.isWrite (sql.Call.exec q args) = false := by
  have h1 : "INSERT INTO ".data = 'I' :: "NSERT INTO ".data := rfl
  have h2 : "UPDATE ".data = 'U' :: "PDATE ".data := rfl
  have hI2 : ¬ 'I' = c := fun e => hI e.symm
  have hU2 : ¬ 'U' = c := fun e => hU e.symm
  simp [spec.isWrite, h, h1, h2, List.isPrefixOf, hI2, hU2]

theorem TableExists_log (conn : sql.DB) (t : String) (log : List sql.Call) :
    (TableExists conn t log).2 = log ++ [sql.Call.queryRow tableExistsQuery [Value.str t]] := by
  unfold TableExists
  simp only []
  split <;> rfl

theorem GetTableColumns_log (conn : sql.DB) (t : String) (log : List sql.Call) :
    (GetTableColumns conn t log).2 = log ++ [sql.Call.query tableColumnsQuery [Value.str t]] := by
  unfold GetTableColumns
  simp only []
  split
  · rfl
  · split
    · rfl
    · split <;> rfl

theorem CreateTable_log (conn : sql.DB) (s : Schema) (log : List sql.Call) :
    (CreateTable conn s log).2 = log ++ [sql.Call.exec (createTableQuery s) []] := by
  unfold CreateTable
  simp only []
  split <;> rfl

theorem CreateTable_noWrite (conn : sql.DB) (s : Schema) (log : List sql.Call) :
    spec.ExtendsWithoutWrite log (CreateTable conn s log).2 := by
  rw [CreateTable_log]
  apply ExtendsWithoutWrite_single
  apply isWrite_exec_of_head _ _ 'C'
    ("REATE TABLE IF NOT EXISTS \"".data ++ (s.TableName ++ "\" (" ++ strings.Join
      (if s.PrimaryKey.length > 0 then
        s.Columns.map (fun e => columnDef e.1 e.2) ++
          ["PRIMARY KEY (" ++ strings.Join (s.PrimaryKey.map (fun pk => "\"" ++ pk ++ "\"")) ", " ++ ")"]
       else s.Columns.map (fun e => columnDef e.1 e.2)) ", " ++ ")").data)
  · simp only [createTableQuery, String.append_assoc, String.data_append]
    rfl
  · decide
  · decide

theorem TableExists_noWrite (conn : sql.DB) (t : String) (log : List sql.Call) :
    spec.ExtendsWithoutWrite log (TableExists conn t log).2 := by
  rw [TableExists_log]
  exact ExtendsWithoutWrite_single _ _ rfl

theorem GetTableColumns_noWrite (conn : sql.DB) (t : String) (log : List sql.Call) :
    spec.ExtendsWithoutWrite log (GetTableColumns conn t log).2 := by
  rw [GetTableColumns_log]
  exact ExtendsWithoutWrite_single _ _ rfl

theorem CompareSchemas_noWrite (conn : sql.DB) (s : Schema) (log : List sql.Call) :
    spec.ExtendsWithoutWrite log (CompareSchemas conn s log).2 := by
  have h1 := TableExists_noWrite conn s.TableName log
  unfold CompareSchemas
  simp only []
  split
  · rename_i err log1 heq
    rw [heq] at h1
    exact h1
  · rename_i log1 heq
    rw [heq] at h1
    exact h1
  · rename_i log1 heq
    rw [heq] at h1
    have h2 := GetTableColumns_noWrite conn s.TableName log1
    split
    · rename_i err log2 heq2
      rw [heq2] at h2
      exact ExtendsWithoutWrite_trans h1 h2
    · rename_i cols log2 heq2
      rw [heq2] at h2
      exact ExtendsWithoutWrite_trans h1 h2

theorem AddColumns_noWrite (conn : sql.DB) (t : String) (columns : List (String × ColumnInfo))
    (missing : List String) (log : List sql.Call) :
    spec.ExtendsWithoutWrite log (AddColumns conn t columns missing log).2 := by
  induction missing generalizing log with
  | nil => exact ExtendsWithoutWrite_refl log
  | cons name rest ih =>
      unfold AddColumns
      split
      · exact ih log
      · rename_i column hget
        simp only []
        have hq : ∀ args, spec.isWrite (sql.Call.exec
            ("ALTER TABLE \"" ++ t ++ "\" ADD COLUMN IF NOT EXISTS \"" ++ name ++ "\" "
              ++ mapTypeToPostgres column ++ " " ++ nullableKeyword column) args) = false := by
          intro args
          apply isWrite_exec_of_head _ _ 'A'
            ("LTER TABLE \"".data ++ (t ++ "\" ADD COLUMN IF NOT EXISTS \"" ++ name ++ "\" "
              ++ mapTypeToPostgres column ++ " " ++ nullableKeyword column).data)
          · simp only [String.append_assoc, String.data_append]
            rfl
          · decide
          · decide
        split
        · exact ExtendsWithoutWrite_single _ _ (hq [])
        · exact ExtendsWithoutWrite_trans (ExtendsWithoutWrite_single _ _ (hq [])) (ih _)

end schema_database

namespace db

open domain schema_database

theorem CheckAndUpdateSchema_noWrite (conn : sql.DB) (s : Schema) (log : List sql.Call) :
    spec.ExtendsWithoutWrite log (CheckAndUpdateSchema conn s log).2 := by
  have h1 := TableExists_noWrite conn s.TableName log
  unfold CheckAndUpdateSchema
  simp only []
  split
  · rename_i err log1 heq
    rw [heq] at h1
    exact h1
  · rename_i log1 heq
    rw [heq] at h1
    exact ExtendsWithoutWrite_trans h1 (CreateTable_noWrite conn s log1)
  · rename_i log1 heq
    rw [heq] at h1
    have h2 := CompareSchemas_noWrite conn s log1
    split
    · rename_i err log2 heq2
      rw [heq2] at h2
      exact ExtendsWithoutWrite_trans h1 h2
    · rename_i isEqual missing log2 heq2
      rw [heq2] at h2
      split
      · exact ExtendsWithoutWrite_trans (ExtendsWithoutWrite_trans h1 h2) (AddColumns_noWrite conn _ _ _ log2)
      · exact ExtendsWithoutWrite_trans h1 h2

theorem isWrite_insertCall (t : String) (data : List Fields) :
    spec.isWrite (spec.insertCall t data) = true := by
  have h : (spec.insertText t (spec.insertFields data)).data
      = "INSERT INTO ".data ++ ("\"" ++ t ++ "\" ("
        ++ ", ".intercalate ((spec.insertFields data).map (fun f => "\"" ++ f.Field ++ "\""))
        ++ ") VALUES (" ++ ", ".intercalate (spec.placeholders 1 (spec.insertFields data).length)
        ++ ") ON CONFLICT DO NOTHING").data := by
    simp only [spec.insertText, String.append_assoc, String.data_append]
    rfl
  simp only [spec.isWrite, spec.insertCall, h, Bool.or_eq_true]
  left
  simp

theorem isWrite_updateCall (t : String) (data : List Fields) (pks : List String) :
    spec.isWrite (spec.updateCall t data pks) = true := by
  have h : (spec.updateText t data pks).data
      = "UPDATE ".data ++ ("\"" ++ t ++ "\" SET "
        ++ ", ".intercalate (spec.numbered 1 ((spec.setFields data pks).map (fun f => f.Field)))
        ++ " WHERE "
        ++ " AND ".intercalate
            (spec.numbered ((spec.setFields data pks).length + 1) (spec.keyColumns data pks))).data := by
    simp only [spec.updateText, String.append_assoc, String.data_append]
    rfl
  simp only [spec.isWrite, spec.updateCall, h, Bool.or_eq_true]
  right
  simp

end db

/-! ## Delivery loop: lemmas -/

namespace consumer_rabbitmq

open domain

/-- A message that fails to decode, or decodes to an invalid message, gets
`Nack(false, true)` and causes no store call. -/
theorem handleDelivery_rejected (unmarshal : List UInt8 → Except String Message)
    (conn : sql.DB) (msg : amqp.Delivery) (log : List sql.Call)
    (h : (∃ e, unmarshal msg.Body = .error e) ∨
      (∃ m, unmarshal msg.Body = .ok m ∧ (ValidateMessage m).1 = false)) :
    handleDelivery unmarshal conn msg log = ([amqp.Signal.Nack false true], log) := by
  unfold handleDelivery
  rcases h with ⟨e, he⟩ | ⟨m, hm, hv⟩
  · rw [he]
  · rw [hm]
    simp [hv]

/-- A message that decodes to a valid message is saved, and the outcome of
`SaveMessage` alone decides the acknowledgement. -/
theorem handleDelivery_accepted (unmarshal : List UInt8 → Except String Message)
    (conn : sql.DB) (msg : amqp.Delivery) (log : List sql.Call) (m : Message)
    (hdec : unmarshal msg.Body = .ok m) (hval : (ValidateMessage m).1 = true) :
    handleDelivery unmarshal conn msg log =
      (if (db.SaveMessage conn m log).1 = none then [amqp.Signal.Ack false]
        else [amqp.Signal.Nack false true],
       (db.SaveMessage conn m log).2) := by
  have herr : (ValidateMessage m).2 = none := by
    unfold ValidateMessage
    split
    · rfl
    · split <;> rfl
  unfold handleDelivery
  rw [hdec]
  simp only [hval, herr, Option.isSome_none, Bool.not_true, Bool.or_self, Bool.false_eq_true,
    if_false]
  split
  · rename_i e log1 heq
    simp [heq]
  · rename_i log1 heq
    simp [heq]

end consumer_rabbitmq

/-! ## The claims -/

open domain db consumer_rabbitmq examples

/-- C1 (the code diverges from the claim). On the empty payload, which fails to
decode, and on the payload `{}`, which decodes to a message that
`ValidateMessage` reports invalid, the delivery loop makes no store call, but
it calls `Nack(false, true)`: the message is requeued, where the claim (and the
comment in the decode-failure branch) says it is dropped with requeue = false. -/
theorem C1_rejected_message_is_requeued :
    decodeSample [] = .error "unexpected end of JSON input"
    ∧ handleDelivery decodeSample okStore { Body := [] } []
        = ([amqp.Signal.Nack false true], [])
    ∧ decodeSample [123, 125] = .ok {}
    ∧ (ValidateMessage {}).1 = false
    ∧ handleDelivery decodeSample okStore { Body := [123, 125] } []
        = ([amqp.Signal.Nack false true], [])
    ∧ amqp.Signal.Nack false true ≠ amqp.Signal.Nack false false :=
  ⟨rfl,
   handleDelivery_rejected decodeSample okStore { Body := [] } [] (Or.inl ⟨_, rfl⟩),
   rfl, rfl,
   handleDelivery_rejected decodeSample okStore { Body := [123, 125] } []
     (Or.inr ⟨{}, rfl, rfl⟩),
   by decide⟩

/-- C2. `ValidateMessage` returns true exactly when the table name is non-empty
and the column map has at least one entry; it never returns an error; and its
result is the same whatever the event type, the data and the primary key are. -/
theorem C2_validate_iff_table_and_columns (m : Message) :
    ((ValidateMessage m).1 = true ↔ (m.Schema.TableName ≠ "" ∧ 1 ≤ m.Schema.Columns.length))
    ∧ (ValidateMessage m).2 = none
    ∧ ∀ (eventType : EventTypeEnum) (data : List Fields) (primaryKey : List String),
        ValidateMessage
          { EventType := eventType, Data := data,
            Schema := { m.Schema with PrimaryKey := primaryKey } } = ValidateMessage m := by
  refine ⟨?_, ?_, ?_⟩
  · unfold ValidateMessage
    by_cases h1 : m.Schema.TableName = ""
    · simp [h1]
    · by_cases h2 : m.Schema.Columns.length = 0
      · simp [h1, h2]
      · simp [h1, h2]
        omega
  · unfold ValidateMessage
    split
    · rfl
    · split <;> rfl
  · intro eventType data primaryKey
    rfl

/-- C3. When at least one field has a non-null `newValue`, `InsertData` makes
exactly one store call: an exec of `INSERT INTO "t" (c1, ..., cn) VALUES ($1, ..., $n)
ON CONFLICT DO NOTHING` over the double-quoted names of the fields with a
non-null `newValue`, in their original order, bound to those fields' values in
the same order. The fields used are exactly the fields of the list whose
`newValue` is non-null. -/
theorem C3_insert_one_statement (conn : sql.DB) (t : String) (data : List Fields)
    (log : List sql.Call) (h : ∃ f ∈ data, f.NewValue.isNil = false) :
    (InsertData conn t data log).2 =
        log ++ [sql.Call.exec
          ("INSERT INTO \"" ++ t ++ "\" ("
            ++ ", ".intercalate ((spec.insertFields data).map (fun f => "\"" ++ f.Field ++ "\""))
            ++ ") VALUES (" ++ ", ".intercalate (spec.placeholders 1 (spec.insertFields data).length)
            ++ ") ON CONFLICT DO NOTHING")
          ((spec.insertFields data).map (fun f => f.NewValue))]
    ∧ (spec.insertFields data).Sublist data
    ∧ (∀ f, f ∈ spec.insertFields data ↔ (f ∈ data ∧ f.NewValue.isNil = false))
    ∧ spec.placeholders 1 (spec.insertFields data).length
        = (List.range' 1 (spec.insertFields data).length).map (fun i => "$" ++ toString i) := by
  have hne : spec.insertFields data ≠ [] := by
    intro hnil
    obtain ⟨f, hf, hv⟩ := h
    have := (insertFields_eq_nil_iff data).mp hnil f hf
    rw [hv] at this
    exact Bool.noConfusion this
  refine ⟨?_, ?_, ?_, rfl⟩
  · rw [InsertData_of_nonNull conn t data log hne]
    rfl
  · exact List.filter_sublist data
  · intro f
    simp [spec.insertFields, List.mem_filter]

/-- C3, at the fields `id = 1`, `name = "Janet"` of table `leads`. -/
theorem C3_insert_one_statement_witness :
    (InsertData okStore "leads" janet []).2 =
      [sql.Call.exec
        "INSERT INTO \"leads\" (\"id\", \"name\") VALUES ($1, $2) ON CONFLICT DO NOTHING"
        [Value.number "1", Value.str "Janet"]] :=
  (C3_insert_one_statement okStore "leads" janet []
    ⟨{ Field := "id", NewValue := Value.number "1" }, by simp [janet], rfl⟩).1

/-- C4. When the field list is empty, or every field has a null `newValue`,
`InsertData` makes no store call and returns no error. -/
theorem C4_insert_nothing_to_write (conn : sql.DB) (t : String) (data : List Fields)
    (log : List sql.Call) (h : ∀ f ∈ data, f.NewValue.isNil = true) :
    InsertData conn t data log = (none, log) :=
  InsertData_of_allNull conn t data log ((insertFields_eq_nil_iff data).mpr h)

/-- C4, at the empty field list and at a list of two null-valued fields, on a store
in which every call would fail. -/
theorem C4_insert_nothing_to_write_witness :
    InsertData downStore "leads" [] [] = (none, [])
    ∧ InsertData downStore "leads" [{ Field := "id" }, { Field := "name" }] [] = (none, []) :=
  ⟨C4_insert_nothing_to_write downStore "leads" [] [] (by simp),
   C4_insert_nothing_to_write downStore "leads" [{ Field := "id" }, { Field := "name" }] []
     (by simp [Value.isNil])⟩

/-- C5. Let the SET clause and the WHERE clause of an update be non-empty, and
let the store answer the UPDATE statement with success and an affected-row
count `n`. If `n` is zero, `UpdateData` continues exactly as a direct
`InsertData` call on the same table and the full field list would after the
UPDATE: same result, same store calls; that insert is one statement over every
field with a non-null `newValue`, key fields included. If `n` is greater than
zero, the UPDATE is the only store call and the result is success. -/
theorem C5_update_falls_back_to_insert (conn : sql.DB) (t : String) (data : List Fields)
    (pks : List String) (log : List sql.Call) (result : sql.Result) (n : Int)
    (hset : spec.setFields data pks ≠ []) (hkey : spec.keyColumns data pks ≠ [])
    (hexec : conn.Exec log (spec.updateText t data pks) (spec.updateArgs data pks) = .ok result)
    (hrows : result.RowsAffected = .ok n) :
    (n = 0 →
      UpdateData conn t data pks log
          = InsertData conn t data (log ++ [spec.updateCall t data pks])
      ∧ (UpdateData conn t data pks log).2
          = log ++ [spec.updateCall t data pks, spec.insertCall t data])
    ∧ (0 < n → UpdateData conn t data pks log = (none, log ++ [spec.updateCall t data pks])) := by
  have hU := UpdateData_of_reach conn t data pks log hset hkey
  rw [hexec] at hU
  simp only [hrows] at hU
  constructor
  · intro h0
    rw [if_pos h0] at hU
    refine ⟨hU, ?_⟩
    rw [hU, InsertData_of_nonNull conn t data _ (setFields_subset_insertFields data pks hset)]
    simp
  · intro hpos
    rw [if_neg (by omega)] at hU
    exact hU

/-- C5, at the update of `id = 1`, `name = "Janet"` in `leads` with key `id`, on a
store where every statement affects no row: the UPDATE is followed by the insert
of both fields. -/
theorem C5_update_falls_back_to_insert_witness :
    (UpdateData emptyStore "leads" janet ["id"] []).2 =
      [sql.Call.exec "UPDATE \"leads\" SET \"name\" = $1 WHERE \"id\" = $2"
          [Value.str "Janet", Value.number "1"],
       sql.Call.exec
          "INSERT INTO \"leads\" (\"id\", \"name\") VALUES ($1, $2) ON CONFLICT DO NOTHING"
          [Value.number "1", Value.str "Janet"]] :=
  ((C5_update_falls_back_to_insert emptyStore "leads" janet ["id"] []
    { RowsAffected := .ok 0 } 0 (fun h => List.noConfusion h) (by decide) rfl rfl).1 rfl).2

/-- C6, as stated, fails. With an empty field list `UpdateData` returns success,
and with a field list whose only field is null-valued it fails with the
no-fields error; in both cases no key value can be resolved, yet the result is
not the no-primary-key error. -/
theorem C6_no_key_counterexample :
    UpdateData okStore "leads" [] ["id"] [] = (none, [])
    ∧ (∀ f ∈ [({ Field := "name" } : Fields)], f.Field ∉ ["id"])
    ∧ UpdateData okStore "leads" [{ Field := "name" }] ["id"] []
        = (some "no fields to update", [])
    ∧ (none : Option String) ≠ some "no primary key values found"
    ∧ (some "no fields to update" : Option String) ≠ some "no primary key values found" :=
  ⟨rfl, by simp, rfl, by decide, by decide⟩

/-- C6, amended. When the SET clause is non-empty (some field has a non-null
`newValue`) and no field of the list has a name in `primaryKeyColumns`,
`UpdateData` fails with the no-primary-key error and makes no store call. -/
theorem C6_no_key_error (conn : sql.DB) (t : String) (data : List Fields)
    (pks : List String) (log : List sql.Call)
    (hset : ∃ f ∈ data, f.NewValue.isNil = false)
    (hkey : ∀ f ∈ data, f.Field ∉ pks) :
    UpdateData conn t data pks log = (some "no primary key values found", log) := by
  have hd : data.length ≠ 0 := by
    obtain ⟨f, hf, _⟩ := hset
    intro h0
    rw [List.length_eq_zero.mp h0] at hf
    exact absurd hf (List.not_mem_nil f)
  have h1 : ¬ (buildUpdate data pks).setClauses.length = 0 := by
    rw [setClauses_eq_nil_iff]
    obtain ⟨f, hf, hv⟩ := hset
    intro hnil
    have := List.filter_eq_nil_iff.mp hnil f hf
    simp [hkey f hf, hv] at this
  have h2 : (buildUpdate data pks).whereClause.length = 0 := by
    rw [whereClause_eq_nil_iff]
    simp only [spec.keyColumns, List.filter_eq_nil_iff]
    intro pk hpk
    simp only [List.any_eq_true, decide_eq_true_eq, not_exists, not_and]
    intro f hf hfp
    exact hkey f hf (hfp ▸ hpk)
  unfold UpdateData
  rw [if_neg hd]
  simp only []
  rw [if_neg h1, if_pos h2]

/-- C6 amended, at the field `name = "Janet"` with key `id`, which is not in the list. -/
theorem C6_no_key_error_witness :
    UpdateData okStore "leads" [{ Field := "name", NewValue := Value.str "Janet" }] ["id"] []
      = (some "no primary key values found", []) :=
  C6_no_key_error okStore "leads" [{ Field := "name", NewValue := Value.str "Janet" }] ["id"] []
    ⟨_, List.mem_singleton.mpr rfl, rfl⟩ (by simp)

/-- C7, as stated, fails. With an empty field list the SET clause would be empty,
yet `UpdateData` returns success and not the no-fields error. -/
theorem C7_no_fields_counterexample :
    spec.setFields [] [] = []
    ∧ UpdateData emptyStore "orders" [] [] [] = (none, [])
    ∧ (none : Option String) ≠ some "no fields to update" :=
  ⟨rfl, rfl, by decide⟩

/-- C7, amended. When the field list is non-empty and no field outside
`primaryKeyColumns` has a non-null `newValue`, `UpdateData` fails with the
no-fields error and makes no store call. -/
theorem C7_no_fields_error (conn : sql.DB) (t : String) (data : List Fields)
    (pks : List String) (log : List sql.Call)
    (hne : data ≠ [])
    (hset : ∀ f ∈ data, f.Field ∈ pks ∨ f.NewValue.isNil = true) :
    UpdateData conn t data pks log = (some "no fields to update", log) := by
  have hd : data.length ≠ 0 := fun h0 => hne (List.length_eq_zero.mp h0)
  have h1 : (buildUpdate data pks).setClauses.length = 0 := by
    rw [setClauses_eq_nil_iff]
    simp only [spec.setFields, List.filter_eq_nil_iff]
    intro f hf
    rcases hset f hf with h | h <;> simp [h]
  unfold UpdateData
  rw [if_neg hd]
  simp only []
  rw [if_pos h1]

/-- C7 amended, at the fields `id = 1` (a key) and `name = null`. -/
theorem C7_no_fields_error_witness :
    UpdateData okStore "leads"
        [{ Field := "id", NewValue := Value.number "1" }, { Field := "name" }] ["id"] []
      = (some "no fields to update", []) :=
  C7_no_fields_error okStore "leads"
    [{ Field := "id", NewValue := Value.number "1" }, { Field := "name" }] ["id"] []
    (by simp) (by simp [Value.isNil])

/-- C8. Whenever `UpdateData` reaches the store, its first store call is an exec
of `UPDATE "t" SET s1, ..., sk WHERE w1 AND ... AND wm`, where the `si` are
`"name" = $i` over the fields not named in `primaryKeyColumns` with a non-null
`newValue`, in field-list order, and the `wj` are `"pk" = $(k+j)` over the
`primaryKeyColumns` entries that occur as a field name, in `primaryKeyColumns`
order; the bound parameters are the `k` SET values followed by the `m` key
values (for each key, the `newValue` of the last field of that name); the
placeholders are `$1 .. $(k+m)`, as many as the parameters; and no field named
in `primaryKeyColumns` is in the SET clause. -/
theorem C8_update_statement_shape (conn : sql.DB) (t : String) (data : List Fields)
    (pks : List String) (log : List sql.Call)
    (hreach : (UpdateData conn t data pks log).2 ≠ log) :
    (∃ rest, (UpdateData conn t data pks log).2 =
        log ++ sql.Call.exec
          ("UPDATE \"" ++ t ++ "\" SET "
            ++ ", ".intercalate (spec.numbered 1 ((spec.setFields data pks).map (fun f => f.Field)))
            ++ " WHERE "
            ++ " AND ".intercalate
                (spec.numbered ((spec.setFields data pks).length + 1) (spec.keyColumns data pks)))
          ((spec.setFields data pks).map (fun f => f.NewValue)
            ++ (spec.keyColumns data pks).map (spec.keyValue data)) :: rest)
    ∧ (∀ f, f ∈ spec.setFields data pks ↔ (f ∈ data ∧ f.Field ∉ pks ∧ f.NewValue.isNil = false))
    ∧ (spec.setFields data pks).Sublist data
    ∧ (∀ pk, pk ∈ spec.keyColumns data pks ↔ (pk ∈ pks ∧ ∃ f ∈ data, f.Field = pk))
    ∧ (spec.keyColumns data pks).Sublist pks
    ∧ spec.placeholders 1 (spec.setFields data pks).length
          ++ spec.placeholders ((spec.setFields data pks).length + 1) (spec.keyColumns data pks).length
        = spec.placeholders 1 (spec.updateArgs data pks).length
    ∧ (spec.updateArgs data pks).length
        = (spec.setFields data pks).length + (spec.keyColumns data pks).length := by
  have hset : spec.setFields data pks ≠ [] := by
    intro h
    exact hreach (UpdateData_log_of_no_reach conn t data pks log (Or.inl h))
  have hkey : spec.keyColumns data pks ≠ [] := by
    intro h
    exact hreach (UpdateData_log_of_no_reach conn t data pks log (Or.inr h))
  have hlen : (spec.updateArgs data pks).length
      = (spec.setFields data pks).length + (spec.keyColumns data pks).length := by
    simp [spec.updateArgs]
  refine ⟨?_, ?_, List.filter_sublist data, ?_, List.filter_sublist pks, ?_, hlen⟩
  · have hU := UpdateData_of_reach conn t data pks log hset hkey
    have hcall : spec.updateCall t data pks = sql.Call.exec
          ("UPDATE \"" ++ t ++ "\" SET "
            ++ ", ".intercalate (spec.numbered 1 ((spec.setFields data pks).map (fun f => f.Field)))
            ++ " WHERE "
            ++ " AND ".intercalate
                (spec.numbered ((spec.setFields data pks).length + 1) (spec.keyColumns data pks)))
          ((spec.setFields data pks).map (fun f => f.NewValue)
            ++ (spec.keyColumns data pks).map (spec.keyValue data)) := rfl
    rw [← hcall, hU]
    cases conn.Exec log (spec.updateText t data pks) (spec.updateArgs data pks) with
    | error err => exact ⟨[], by simp⟩
    | ok result =>
        cases hr : result.RowsAffected with
        | error err => exact ⟨[], by simp [hr]⟩
        | ok k =>
            by_cases hk : k = 0
            · subst hk
              refine ⟨[spec.insertCall t data], ?_⟩
              simp only [hr, if_true]
              rw [InsertData_of_nonNull conn t data _
                (setFields_subset_insertFields data pks hset)]
              simp
            · exact ⟨[], by simp [hr, hk]⟩
  · intro f
    simp [spec.setFields, List.mem_filter]
  · intro pk
    simp [spec.keyColumns, List.mem_filter]
  · have hr := List.range'_append_1 1 (spec.setFields data pks).length
      (spec.keyColumns data pks).length
    rw [hlen]
    simp only [spec.placeholders]
    rw [← List.map_append, Nat.add_comm (spec.setFields data pks).length 1, hr,
      Nat.add_comm (spec.keyColumns data pks).length]

/-- C8, at the update of `id = 1`, `name = "Janet"` in `leads` with key `id`. -/
theorem C8_update_statement_shape_witness :
    ∃ rest, (UpdateData okStore "leads" janet ["id"] []).2 =
      [] ++ sql.Call.exec "UPDATE \"leads\" SET \"name\" = $1 WHERE \"id\" = $2"
        [Value.str "Janet", Value.number "1"] :: rest :=
  (C8_update_statement_shape okStore "leads" janet ["id"] []
    (fun h => List.noConfusion h)).1

/-- C10, as stated, fails. For the validated event of kind `delete` on table
`leads`, on a store that cannot be reached, `SaveMessage` returns the
schema-synchronisation error and not the unknown-event-kind error. -/
theorem C10_unknown_kind_counterexample :
    (ValidateMessage { EventType := "delete", Data := janet, Schema := leads }).1 = true
    ∧ (SaveMessage downStore { EventType := "delete", Data := janet, Schema := leads } []).1
        = some ("failed to check/update schema: "
            ++ "failed to check table existence: connection refused")
    ∧ (some ("failed to check/update schema: "
            ++ "failed to check table existence: connection refused") : Option String)
        ≠ some ("unknown event type: " ++ "delete") :=
  ⟨rfl, rfl, by decide⟩

/-- C10, amended. For a validated message whose event type is neither `insert`
nor `update`, `SaveMessage` returns an error: the unknown-event-kind error when
schema synchronisation succeeds, and the schema-synchronisation error otherwise.
Its store calls are those of schema synchronisation, none of which is an insert
or update statement, and the delivery loop answers with `Nack(false, true)`. -/
theorem C10_unknown_kind_is_requeued (unmarshal : List UInt8 → Except String Message)
    (conn : sql.DB) (msg : amqp.Delivery) (log : List sql.Call) (m : Message)
    (hdec : unmarshal msg.Body = .ok m) (hval : (ValidateMessage m).1 = true)
    (hins : m.EventType ≠ EventTypeInsert) (hupd : m.EventType ≠ EventTypeUpdate) :
    (SaveMessage conn m log).1 =
        some (match (CheckAndUpdateSchema conn m.Schema log).1 with
          | none => "unknown event type: " ++ m.EventType
          | some err => "failed to check/update schema: " ++ err)
    ∧ (SaveMessage conn m log).2 = (CheckAndUpdateSchema conn m.Schema log).2
    ∧ spec.ExtendsWithoutWrite log (SaveMessage conn m log).2
    ∧ handleDelivery unmarshal conn msg log
        = ([amqp.Signal.Nack false true], (SaveMessage conn m log).2) := by
  have h1 : (SaveMessage conn m log).1 =
        some (match (CheckAndUpdateSchema conn m.Schema log).1 with
          | none => "unknown event type: " ++ m.EventType
          | some err => "failed to check/update schema: " ++ err)
      ∧ (SaveMessage conn m log).2 = (CheckAndUpdateSchema conn m.Schema log).2 := by
    unfold SaveMessage
    simp only []
    split
    · rename_i e log1 heq
      simp [heq]
    · rename_i log1 heq
      simp [heq, hins, hupd]
  refine ⟨h1.1, h1.2, ?_, ?_⟩
  · rw [h1.2]
    exact CheckAndUpdateSchema_noWrite conn m.Schema log
  · rw [handleDelivery_accepted unmarshal conn msg log m hdec hval, h1.1]
    simp

/-- C10 amended, at the event of kind `delete` on table `leads`, on a store where
the table is absent: the table is created, nothing is written, the error is the
unknown-event-kind error and the message is requeued. -/
theorem C10_unknown_kind_is_requeued_witness :
    (SaveMessage emptyStore { EventType := "delete", Data := janet, Schema := leads } []).1
        = some "unknown event type: delete"
    ∧ handleDelivery (decodeTo { EventType := "delete", Data := janet, Schema := leads })
        emptyStore { Body := [] } []
        = ([amqp.Signal.Nack false true],
           (SaveMessage emptyStore { EventType := "delete", Data := janet, Schema := leads } []).2) :=
  ⟨(C10_unknown_kind_is_requeued
      (decodeTo { EventType := "delete", Data := janet, Schema := leads })
      emptyStore { Body := [] } [] { EventType := "delete", Data := janet, Schema := leads }
      rfl rfl (by decide) (by decide)).1,
   (C10_unknown_kind_is_requeued
      (decodeTo { EventType := "delete", Data := janet, Schema := leads })
      emptyStore { Body := [] } [] { EventType := "delete", Data := janet, Schema := leads }
      rfl rfl (by decide) (by decide)).2.2.2⟩

/-! ## Schema comparison and table creation: lemmas -/

namespace schema_database

open domain

theorem mapGet_eq_none_iff {β : Type} (m : List (String × β)) (k : String) :
    mapGet m k = none ↔ k ∉ m.map Prod.fst := by
  induction m with
  | nil => simp [mapGet]
  | cons e rest ih =>
      obtain ⟨k0, v0⟩ := e
      by_cases h : k0 = k
      · simp [mapGet, h]
      · have h2 : ¬ k = k0 := fun e => h e.symm
        simp [mapGet, h, h2, ih]

theorem mapGet_isSome_iff {β : Type} (m : List (String × β)) (k : String) :
    (mapGet m k).isSome = true ↔ k ∈ m.map Prod.fst := by
  rw [← not_iff_not, ← mapGet_eq_none_iff]
  cases mapGet m k <;> simp

theorem missingColumnsLoop_eq (dbColumns : List (String × ColumnInfo))
    (declared : List (String × ColumnInfo)) (acc : List String) :
    missingColumnsLoop dbColumns declared acc = acc ++ spec.missingNames dbColumns declared := by
  induction declared generalizing acc with
  | nil => simp [missingColumnsLoop, spec.missingNames]
  | cons e rest ih =>
      obtain ⟨name, col⟩ := e
      unfold missingColumnsLoop
      split
      · rename_i hnone
        have hn : name ∉ dbColumns.map Prod.fst := (mapGet_eq_none_iff dbColumns name).mp hnone
        rw [ih]
        have : spec.missingNames dbColumns ((name, col) :: rest)
            = name :: spec.missingNames dbColumns rest := by
          simp only [spec.missingNames, List.map_cons, List.filter_cons, hn, not_false_eq_true,
            decide_True, if_true]
        rw [this]
        simp
      · rename_i v hsome
        have hn : name ∈ dbColumns.map Prod.fst := by
          rw [← mapGet_isSome_iff, hsome]
          rfl
        rw [ih]
        have : spec.missingNames dbColumns ((name, col) :: rest)
            = spec.missingNames dbColumns rest := by
          simp only [spec.missingNames, List.map_cons, List.filter_cons, hn, not_true_eq_false,
            decide_False]
          simp
        rw [this]

theorem mem_missingNames (dbColumns declared : List (String × ColumnInfo)) (n : String) :
    n ∈ spec.missingNames dbColumns declared
      ↔ (n ∈ declared.map Prod.fst ∧ n ∉ dbColumns.map Prod.fst) := by
  simp [spec.missingNames, List.mem_filter]

theorem defaultClause_shape (column : ColumnInfo) :
    ∃ clause, (clause = "" ∨ ∃ d, clause = " DEFAULT " ++ d)
      ∧ ∀ name, columnDef name column
          = spec.columnItem name (mapTypeToPostgres column) column.AllowNull clause := by
  have hkw : nullableKeyword column = (if column.AllowNull then "NULL" else "NOT NULL") := by
    unfold nullableKeyword
    cases column.AllowNull <;> rfl
  by_cases hnil : column.DefaultValue.isNil = true
  · by_cases hnull : column.AllowNull = true
    · refine ⟨"", Or.inl rfl, ?_⟩
      intro name
      simp [columnDef, spec.columnItem, hnil, hnull, hkw]
    · have hnull2 : column.AllowNull = false := by simpa using hnull
      have hg : getDefaultForType (mapTypeToPostgres column) = ""
          ∨ ∃ d, getDefaultForType (mapTypeToPostgres column) = " DEFAULT " ++ d := by
        unfold getDefaultForType
        simp only []
        split
        · exact Or.inr ⟨"0", rfl⟩
        · split
          · exact Or.inr ⟨"false", rfl⟩
          · split
            · exact Or.inr ⟨"0", rfl⟩
            · split
              · exact Or.inr ⟨"''", rfl⟩
              · split
                · exact Or.inr ⟨"CURRENT_TIMESTAMP", rfl⟩
                · exact Or.inl rfl
      refine ⟨getDefaultForType (mapTypeToPostgres column), hg, ?_⟩
      intro name
      simp [columnDef, spec.columnItem, hnil, hnull2, hkw]
  · have hnil2 : column.DefaultValue.isNil = false := by simpa using hnil
    by_cases hd : formatDefaultValue column.DefaultValue = ""
    · refine ⟨"", Or.inl rfl, ?_⟩
      intro name
      simp [columnDef, spec.columnItem, hnil2, hd, hkw]
    · refine ⟨" DEFAULT " ++ formatDefaultValue column.DefaultValue, Or.inr ⟨_, rfl⟩, ?_⟩
      intro name
      simp [columnDef, spec.columnItem, hnil2, hd, hkw, String.append_assoc]

end schema_database

open schema_database

/-- C11. When the destination table exists and its columns are introspected as
`dbColumns`, `CompareSchemas` returns as missing exactly the declared column
names that are not keys of `dbColumns`, each once (the declared names, being
the keys of a map, are distinct); the list is empty, and `isEqual` is true,
exactly when every declared name is a key of `dbColumns`. The result depends
only on the key set of `dbColumns`: extra destination columns and the type,
nullability and size stored under the keys play no part. -/
theorem C11_missing_columns_by_name (conn : sql.DB) (s : Schema)
    (log log1 log2 : List sql.Call) (dbColumns : List (String × ColumnInfo))
    (hexists : TableExists conn s.TableName log = (.ok true, log1))
    (hcolumns : GetTableColumns conn s.TableName log1 = (.ok dbColumns, log2))
    (hkeys : (s.Columns.map Prod.fst).Nodup) :
    ∃ isEqual missing,
      CompareSchemas conn s log = (.ok (isEqual, missing), log2)
      ∧ missing.Nodup
      ∧ (∀ n, n ∈ missing ↔ (n ∈ s.Columns.map Prod.fst ∧ n ∉ dbColumns.map Prod.fst))
      ∧ (missing = [] ↔ ∀ n ∈ s.Columns.map Prod.fst, n ∈ dbColumns.map Prod.fst)
      ∧ (isEqual = true ↔ missing = [])
      ∧ (∀ other : List (String × ColumnInfo),
          (∀ n, n ∈ other.map Prod.fst ↔ n ∈ dbColumns.map Prod.fst) →
          missingColumnsLoop other s.Columns [] = missing) := by
  refine ⟨(spec.missingNames dbColumns s.Columns).length == 0,
    spec.missingNames dbColumns s.Columns, ?_, ?_, ?_, ?_, ?_, ?_⟩
  · unfold CompareSchemas
    simp only [hexists, hcolumns, missingColumnsLoop_eq, List.nil_append]
  · exact hkeys.filter _
  · exact mem_missingNames dbColumns s.Columns
  · rw [List.eq_nil_iff_forall_not_mem]
    constructor
    · intro h n hn
      by_contra hc
      exact h n ((mem_missingNames dbColumns s.Columns n).mpr ⟨hn, hc⟩)
    · intro h n hn
      obtain ⟨h1, h2⟩ := (mem_missingNames dbColumns s.Columns n).mp hn
      exact h2 (h n h1)
  · simp
  · intro other hother
    rw [missingColumnsLoop_eq, List.nil_append]
    unfold spec.missingNames
    apply List.filter_congr
    intro n _
    simp [hother n]

/-- C11, at the schema `leads` (columns `id`, `name`) against a table that has
only the column `id`: the missing list is `name`. -/
theorem C11_missing_columns_by_name_witness :
    ∃ isEqual missing,
      CompareSchemas leadsStore leads [] = (.ok (isEqual, missing),
        [sql.Call.queryRow tableExistsQuery [Value.str "leads"],
         sql.Call.query tableColumnsQuery [Value.str "leads"]])
      ∧ missing.Nodup
      ∧ (∀ n, n ∈ missing ↔ (n ∈ leads.Columns.map Prod.fst ∧
            n ∉ [("id", ({ Name := "id", DbType := "bigint" } : ColumnInfo))].map Prod.fst))
      ∧ (missing = [] ↔ ∀ n ∈ leads.Columns.map Prod.fst,
            n ∈ [("id", ({ Name := "id", DbType := "bigint" } : ColumnInfo))].map Prod.fst)
      ∧ (isEqual = true ↔ missing = [])
      ∧ (∀ other : List (String × ColumnInfo),
          (∀ n, n ∈ other.map Prod.fst ↔
            n ∈ [("id", ({ Name := "id", DbType := "bigint" } : ColumnInfo))].map Prod.fst) →
          missingColumnsLoop other leads.Columns [] = missing) :=
  C11_missing_columns_by_name leadsStore leads [] _ _ _ rfl rfl (by decide)

/-- C12. `CreateTable` makes exactly one store call: an exec, without
parameters, of `CREATE TABLE IF NOT EXISTS "<tableName>" (<items>)`, the items
joined by `, `. The items are one column definition per declared column, in
the order the columns are visited, followed by the single item
`PRIMARY KEY ("k1", ..., "kn")` over the primary-key entries in their order if
the primary key is non-empty, and by nothing otherwise. Each column definition
is the double-quoted column name, the mapped native type, `NULL` or `NOT NULL`
according to `allowNull`, and then either nothing or a clause ` DEFAULT <d>`. -/
theorem C12_create_table_statement (conn : sql.DB) (s : Schema) (log : List sql.Call) :
    (CreateTable conn s log).2 =
        log ++ [sql.Call.exec
          ("CREATE TABLE IF NOT EXISTS \"" ++ s.TableName ++ "\" ("
            ++ ", ".intercalate
                (s.Columns.map (fun e => columnDef e.1 e.2)
                  ++ (if s.PrimaryKey = [] then [] else [spec.primaryKeyItem s.PrimaryKey]))
            ++ ")") []]
    ∧ (s.Columns.map (fun e => columnDef e.1 e.2)).length = s.Columns.length
    ∧ ∀ e ∈ s.Columns, ∃ clause, (clause = "" ∨ ∃ d, clause = " DEFAULT " ++ d)
        ∧ columnDef e.1 e.2
            = "\"" ++ e.1 ++ "\" " ++ mapTypeToPostgres e.2 ++ " "
                ++ (if e.2.AllowNull then "NULL" else "NOT NULL") ++ clause := by
  refine ⟨?_, by simp, ?_⟩
  · rw [CreateTable_log]
    have hq : createTableQuery s = "CREATE TABLE IF NOT EXISTS \"" ++ s.TableName ++ "\" ("
            ++ ", ".intercalate
                (s.Columns.map (fun e => columnDef e.1 e.2)
                  ++ (if s.PrimaryKey = [] then [] else [spec.primaryKeyItem s.PrimaryKey]))
            ++ ")" := by
      unfold createTableQuery
      by_cases hpk : s.PrimaryKey = []
      · simp [hpk, strings.Join]
      · have hlen : s.PrimaryKey.length > 0 := List.length_pos.mpr hpk
        simp [hpk, hlen, strings.Join, spec.primaryKeyItem]
    rw [hq]
  · intro e _
    obtain ⟨clause, hshape, hdef⟩ := defaultClause_shape e.2
    exact ⟨clause, hshape, hdef e.1⟩

/-- The type mapping of the model is the type mapping of the source at the
ASCII upper-casing. -/
theorem mapTypeToPostgres_eq_with (column : ColumnInfo) :
    mapTypeToPostgres column = mapTypeToPostgresWith strings.ToUpper column := rfl

theorem agreesOnASCII_ToUpper : strings.AgreesOnASCII strings.ToUpper := fun _ _ => rfl

theorem mapTypeToPostgresWith_of_unknown (toUpper : String → String) (column : ColumnInfo)
    (h : column.Type_ ∉ spec.knownTags) :
    mapTypeToPostgresWith toUpper column
      = (if column.DbType ≠ "" then toUpper column.DbType else "TEXT") := by
  simp only [spec.knownTags, List.mem_cons, List.mem_singleton, List.not_mem_nil, or_false,
    not_or] at h
  obtain ⟨h1, h2, h3, h4, h5, h6, h7, h8, h9⟩ := h
  simp [mapTypeToPostgresWith, h1, h2, h3, h4, h5, h6, h7, h8, h9]

/-- C13. For every function `toUpper` that upper-cases ASCII text as Go's
`strings.ToUpper` does, `mapTypeToPostgres` (the source function, calling
`toUpper`) returns `BIGINT` for the tag `bigint`, `INTEGER` for `integer`,
`SMALLINT` for `smallint`, `VARCHAR(n)` for `string` with size `n` and `TEXT`
for `string` without size, `TEXT` for `text`, `BOOLEAN` for `boolean`, `DATE`
for `date`, `TIMESTAMPTZ` for `timestamp`, `DOUBLE PRECISION` for `double`, and
for every other tag the hint `dbType` upper-cased by `toUpper` if the hint is
non-empty and `TEXT` otherwise. -/
theorem C13_type_mapping (toUpper : String → String) (hupper : strings.AgreesOnASCII toUpper)
    (column : ColumnInfo) :
    (column.Type_ = "bigint" → mapTypeToPostgresWith toUpper column = "BIGINT")
    ∧ (column.Type_ = "integer" → mapTypeToPostgresWith toUpper column = "INTEGER")
    ∧ (column.Type_ = "smallint" → mapTypeToPostgresWith toUpper column = "SMALLINT")
    ∧ (∀ n : Int, column.Type_ = "string" → column.Size = some n →
        mapTypeToPostgresWith toUpper column = "VARCHAR(" ++ toString n ++ ")")
    ∧ (column.Type_ = "string" → column.Size = none →
        mapTypeToPostgresWith toUpper column = "TEXT")
    ∧ (column.Type_ = "text" → mapTypeToPostgresWith toUpper column = "TEXT")
    ∧ (column.Type_ = "boolean" → mapTypeToPostgresWith toUpper column = "BOOLEAN")
    ∧ (column.Type_ = "date" → mapTypeToPostgresWith toUpper column = "DATE")
    ∧ (column.Type_ = "timestamp" → mapTypeToPostgresWith toUpper column = "TIMESTAMPTZ")
    ∧ (column.Type_ = "double" → mapTypeToPostgresWith toUpper column = "DOUBLE PRECISION")
    ∧ (column.Type_ ∉ spec.knownTags → column.DbType ≠ "" →
        mapTypeToPostgresWith toUpper column = toUpper column.DbType)
    ∧ (column.Type_ ∉ spec.knownTags → column.DbType = "" →
        mapTypeToPostgresWith toUpper column = "TEXT") := by
  have hint : toUpper "integer" = "INTEGER" := by
    rw [hupper "integer" (by unfold strings.IsASCII; decide)]
    rfl
  have hsmall : toUpper "smallint" = "SMALLINT" := by
    rw [hupper "smallint" (by unfold strings.IsASCII; decide)]
    rfl
  refine ⟨?_, ?_, ?_, ?_, ?_, ?_, ?_, ?_, ?_, ?_, ?_, ?_⟩
  · intro h
    simp [mapTypeToPostgresWith, h]
  · intro h
    simp only [mapTypeToPostgresWith, h, hint]
    rfl
  · intro h
    simp only [mapTypeToPostgresWith, h, hsmall]
    rfl
  · intro n h hs
    simp only [mapTypeToPostgresWith, h, hs, fmt.verbDInt]
    rfl
  · intro h hs
    simp only [mapTypeToPostgresWith, h, hs]
    rfl
  · intro h
    simp only [mapTypeToPostgresWith, h]
    rfl
  · intro h
    simp only [mapTypeToPostgresWith, h]
    rfl
  · intro h
    simp only [mapTypeToPostgresWith, h]
    rfl
  · intro h
    simp only [mapTypeToPostgresWith, h]
    rfl
  · intro h
    simp only [mapTypeToPostgresWith, h]
    rfl
  · intro h hd
    rw [mapTypeToPostgresWith_of_unknown toUpper column h, if_pos hd]
  · intro h hd
    rw [mapTypeToPostgresWith_of_unknown toUpper column h]
    simp [hd]

/-- C13, at the ASCII upper-casing: a `string` column of size 50, an `integer`
column and a `uuid` column with the hint `uuid`. -/
theorem C13_type_mapping_witness :
    mapTypeToPostgresWith strings.ToUpper { Type_ := "string", Size := some 50 } = "VARCHAR(50)"
    ∧ mapTypeToPostgresWith strings.ToUpper { Type_ := "integer" } = "INTEGER"
    ∧ mapTypeToPostgresWith strings.ToUpper { Type_ := "uuid", DbType := "uuid" } = "UUID" :=
  ⟨(C13_type_mapping strings.ToUpper (fun _ _ => rfl)
      { Type_ := "string", Size := some 50 }).2.2.2.1 50 rfl rfl,
   (C13_type_mapping strings.ToUpper (fun _ _ => rfl) { Type_ := "integer" }).2.1 rfl,
   (C13_type_mapping strings.ToUpper (fun _ _ => rfl)
      { Type_ := "uuid", DbType := "uuid" }).2.2.2.2.2.2.2.2.2.2.1 (by decide) (by decide)⟩

/-- C14, as stated, fails. The tags `bigint` and `BIGINT`, and `string` and
`String`, differ only in letter case, yet the columns are mapped to different
native types: the upper-case spellings are not recognised and take the
fallback. -/
theorem C14_case_counterexample :
    mapTypeToPostgres { Type_ := "bigint" } = "BIGINT"
    ∧ mapTypeToPostgres { Type_ := "BIGINT" } = "TEXT"
    ∧ mapTypeToPostgres { Type_ := "string", Size := some 50 } = "VARCHAR(50)"
    ∧ mapTypeToPostgres { Type_ := "String", Size := some 50 } = "TEXT"
    ∧ mapTypeToPostgres { Type_ := "boolean", DbType := "bool" } = "BOOLEAN"
    ∧ mapTypeToPostgres { Type_ := "Boolean", DbType := "bool" } = "BOOL" := by
  decide

/-- C14, amended. The type mapping compares the logical tag exactly with the
nine lower-case tags. For every tag that is not one of them, the column is
mapped through the fallback alone, whatever the tag: the hint `dbType`
upper-cased by Go's `strings.ToUpper` (the parameter `toUpper`, of which
nothing is assumed) if the hint is non-empty, otherwise `TEXT`. A tag that
contains an upper-case letter, and a tag that differs from one of the nine
only in letter case, is not one of the nine. -/
theorem C14_tag_is_case_sensitive (toUpper : String → String) (column : ColumnInfo)
    (tag : String) :
    (tag ∉ spec.knownTags →
      mapTypeToPostgresWith toUpper { column with Type_ := tag }
        = (if column.DbType ≠ "" then toUpper column.DbType else "TEXT"))
    ∧ ((∃ ch ∈ tag.data, ch.isUpper = true) → tag ∉ spec.knownTags)
    ∧ (∀ k ∈ spec.knownTags, tag ≠ k → tag.data.map Char.toLower = k.data →
        tag ∉ spec.knownTags) := by
  have hlower : ∀ t ∈ spec.knownTags, t.data.map Char.toLower = t.data := by decide
  refine ⟨?_, ?_, ?_⟩
  · intro hnot
    exact mapTypeToPostgresWith_of_unknown toUpper { column with Type_ := tag } hnot
  · intro hupper hmem
    obtain ⟨ch, hch, hup⟩ := hupper
    have hall : ∀ t ∈ spec.knownTags, ∀ c ∈ t.data, c.isUpper = false := by decide
    have := hall tag hmem ch hch
    rw [hup] at this
    exact Bool.noConfusion this
  · intro k _ hne hcase hmem
    apply hne
    have h1 := hlower tag hmem
    rw [hcase] at h1
    cases tag
    cases k
    simp only at h1
    rw [h1]

/-- C14 amended, at the ASCII upper-casing and the tag `BIGINT`, with the hint
`bigint` and without a hint. -/
theorem C14_tag_is_case_sensitive_witness :
    mapTypeToPostgresWith strings.ToUpper { Type_ := "BIGINT", DbType := "bigint" } = "BIGINT"
    ∧ mapTypeToPostgresWith strings.ToUpper { Type_ := "BIGINT" } = "TEXT"
    ∧ "BIGINT" ∉ spec.knownTags :=
  ⟨(C14_tag_is_case_sensitive strings.ToUpper { DbType := "bigint" } "BIGINT").1 (by decide),
   (C14_tag_is_case_sensitive strings.ToUpper {} "BIGINT").1 (by decide),
   (C14_tag_is_case_sensitive strings.ToUpper {} "BIGINT").2.1 ⟨'B', by decide, by decide⟩⟩

/-! ## Synthesized and declared defaults: lemmas -/

namespace schema_database

open domain

theorem digitChar_mem (d : Nat) (h : d < 10) : Nat.digitChar d ∈ spec.numeralChars := by
  interval_cases d <;> decide

theorem toDigitsCore_mem (fuel n : Nat) (ds : List Char)
    (hds : ∀ c ∈ ds, c ∈ spec.numeralChars) :
    ∀ c ∈ Nat.toDigitsCore 10 fuel n ds, c ∈ spec.numeralChars := by
  induction fuel generalizing n ds with
  | zero => simpa [Nat.toDigitsCore] using hds
  | succ f ih =>
      have hd : ∀ c ∈ Nat.digitChar (n % 10) :: ds, c ∈ spec.numeralChars := by
        intro c hc
        rcases List.mem_cons.mp hc with h | h
        · rw [h]
          exact digitChar_mem _ (Nat.mod_lt _ (by decide))
        · exact hds c h
      unfold Nat.toDigitsCore
      simp only []
      split
      · exact hd
      · exact ih _ _ hd

theorem natRepr_mem (n : Nat) : ∀ c ∈ (toString n).data, c ∈ spec.numeralChars := by
  have h : (toString n).data = Nat.toDigits 10 n := rfl
  rw [h]
  exact toDigitsCore_mem _ _ [] (by simp)

theorem intRepr_mem (n : Int) : ∀ c ∈ (toString n).data, c ∈ spec.numeralChars := by
  cases n with
  | ofNat m => exact natRepr_mem m
  | negSucc m =>
      have h : (toString (Int.negSucc m)).data = '-' :: (toString (m + 1)).data := rfl
      rw [h]
      intro c hc
      rcases List.mem_cons.mp hc with h1 | h1
      · rw [h1]
        decide
      · exact natRepr_mem _ c h1

theorem containsChars_of_head_not_mem (c : Char) (sub l : List Char) (h : c ∉ l) :
    strings.containsChars (c :: sub) l = false := by
  induction l with
  | nil => simp [strings.containsChars]
  | cons x xs ih =>
      have hx : ¬ c = x := fun e => h (e ▸ List.mem_cons_self _ _)
      have hxs : c ∉ xs := fun e => h (List.mem_cons_of_mem _ e)
      simp [strings.containsChars, List.isPrefixOf, hx, ih hxs]

theorem containsChars_of_isPrefix (sub l : List Char) (h : sub.isPrefixOf l = true) :
    strings.containsChars sub l = true := by
  cases l with
  | nil =>
      cases sub with
      | nil => rfl
      | cons c cs => simp [List.isPrefixOf] at h
  | cons x xs => simp [strings.containsChars, h]

/-- The characters of the upper-cased text `VARCHAR(n)`. -/
theorem varchar_upper_data (n : Int) :
    (strings.ToUpper ("VARCHAR(" ++ fmt.verbDInt n ++ ")")).data
      = "VARCHAR(".data ++ ((toString n).data.map Char.toUpper ++ [')']) := by
  simp only [strings.ToUpper, fmt.verbDInt, String.data_append, List.map_append]
  rfl

theorem varchar_upper_not_mem (n : Int) (c : Char)
    (h1 : c ∉ "VARCHAR()".data) (h2 : c ∉ spec.numeralChars) :
    c ∉ (strings.ToUpper ("VARCHAR(" ++ fmt.verbDInt n ++ ")")).data := by
  rw [varchar_upper_data]
  intro hc
  rcases List.mem_append.mp hc with h | h
  · apply h1
    have hsub : ∀ x ∈ "VARCHAR(".data, x ∈ "VARCHAR()".data := by decide
    exact hsub c h
  · rcases List.mem_append.mp h with h | h
    · obtain ⟨d, hd, hdc⟩ := List.mem_map.mp h
      have hup : ∀ x ∈ spec.numeralChars, x.toUpper ∈ spec.numeralChars := by decide
      exact h2 (hdc ▸ hup d (intRepr_mem n d hd))
    · apply h1
      rw [List.mem_singleton.mp h]
      decide

theorem getDefaultForType_varchar (n : Int) :
    getDefaultForType ("VARCHAR(" ++ fmt.verbDInt n ++ ")") = " DEFAULT ''" := by
  have hI : strings.Contains (strings.ToUpper ("VARCHAR(" ++ fmt.verbDInt n ++ ")")) "INT" = false :=
    containsChars_of_head_not_mem 'I' _ _ (varchar_upper_not_mem n 'I' (by decide) (by decide))
  have hB : strings.Contains (strings.ToUpper ("VARCHAR(" ++ fmt.verbDInt n ++ ")")) "BOOL" = false :=
    containsChars_of_head_not_mem 'B' _ _ (varchar_upper_not_mem n 'B' (by decide) (by decide))
  have hN : strings.Contains (strings.ToUpper ("VARCHAR(" ++ fmt.verbDInt n ++ ")")) "NUMERIC" = false :=
    containsChars_of_head_not_mem 'N' _ _ (varchar_upper_not_mem n 'N' (by decide) (by decide))
  have hD : strings.Contains (strings.ToUpper ("VARCHAR(" ++ fmt.verbDInt n ++ ")")) "DECIMAL" = false :=
    containsChars_of_head_not_mem 'D' _ _ (varchar_upper_not_mem n 'D' (by decide) (by decide))
  have hD2 : strings.Contains (strings.ToUpper ("VARCHAR(" ++ fmt.verbDInt n ++ ")")) "DOUBLE" = false :=
    containsChars_of_head_not_mem 'D' _ _ (varchar_upper_not_mem n 'D' (by decide) (by decide))
  have hF : strings.Contains (strings.ToUpper ("VARCHAR(" ++ fmt.verbDInt n ++ ")")) "FLOAT" = false :=
    containsChars_of_head_not_mem 'F' _ _ (varchar_upper_not_mem n 'F' (by decide) (by decide))
  have hV : strings.Contains (strings.ToUpper ("VARCHAR(" ++ fmt.verbDInt n ++ ")")) "VARCHAR" = true := by
    apply containsChars_of_isPrefix
    rw [varchar_upper_data]
    rfl
  simp [getDefaultForType, hI, hB, hN, hD, hD2, hF, hV]

/-- The column definition of a column without a declared default. -/
theorem columnDef_of_absent_default (name : String) (column : ColumnInfo)
    (hnil : column.DefaultValue.isNil = true) :
    columnDef name column =
      spec.columnItem name (mapTypeToPostgres column) column.AllowNull
        (if column.AllowNull then "" else getDefaultForType (mapTypeToPostgres column)) := by
  cases hnull : column.AllowNull
  · simp [columnDef, spec.columnItem, hnil, hnull, nullableKeyword]
  · simp [columnDef, spec.columnItem, hnil, hnull, nullableKeyword]

/-- The column definition of a column with a declared default that renders to a
non-empty text. -/
theorem columnDef_of_declared_default (name : String) (column : ColumnInfo)
    (hnil : column.DefaultValue.isNil = false)
    (hne : formatDefaultValue column.DefaultValue ≠ "") :
    columnDef name column =
      spec.columnItem name (mapTypeToPostgres column) column.AllowNull
        (" DEFAULT " ++ formatDefaultValue column.DefaultValue) := by
  cases hnull : column.AllowNull
  · simp only [columnDef, spec.columnItem, hnil, hnull, hne, nullableKeyword, Bool.not_false,
      Bool.not_true, if_true, if_false, ne_eq, not_false_eq_true, Bool.false_eq_true]
    simp only [String.append_assoc]
  · simp only [columnDef, spec.columnItem, hnil, hnull, hne, nullableKeyword, Bool.not_false,
      Bool.not_true, if_true, if_false, ne_eq, not_false_eq_true, Bool.false_eq_true]
    simp only [String.append_assoc]

theorem quoted_ne_empty (x : String) : "'" ++ x ++ "'" ≠ "" := by
  intro h
  have hd := congrArg String.data h
  rw [String.data_append, String.data_append] at hd
  exact List.noConfusion hd

theorem undouble_doubleQuotes (l : List Char) :
    spec.undouble (l.flatMap (fun c => if c = Char.ofNat 39 then [c, c] else [c])) = some l := by
  induction l with
  | nil => rfl
  | cons c rest ih =>
      by_cases hc : c = Char.ofNat 39
      · subst hc
        rw [List.flatMap_cons, if_pos rfl]
        show spec.undouble (Char.ofNat 39 :: Char.ofNat 39 :: rest.flatMap _)
          = some (Char.ofNat 39 :: rest)
        rw [spec.undouble.eq_def]
        simp only [if_true]
        rw [ih]
        rfl
      · rw [List.flatMap_cons, if_neg hc]
        show spec.undouble (c :: rest.flatMap _) = some (c :: rest)
        rw [spec.undouble.eq_def]
        simp only [hc, if_false]
        rw [ih]
        rfl

end schema_database

/-- C15. In the column definition that `CreateTable` builds for a column without
a declared default: when the column is NOT NULL, the definition ends in
`DEFAULT 0` for the types `bigint`, `integer` and `smallint`, in
`DEFAULT false` for `boolean`, in `DEFAULT 0` for `double`, in `DEFAULT ''` for
`string` (with or without size) and `text`, and in `DEFAULT CURRENT_TIMESTAMP`
for `timestamp`; when the column allows NULL, the definition has no DEFAULT
clause. -/
theorem C15_synthesized_default_by_type (name : String) (column : ColumnInfo)
    (hnil : column.DefaultValue.isNil = true) :
    (column.AllowNull = false →
      (column.Type_ = "bigint" →
        columnDef name column = spec.columnItem name "BIGINT" false " DEFAULT 0")
      ∧ (column.Type_ = "integer" →
        columnDef name column = spec.columnItem name "INTEGER" false " DEFAULT 0")
      ∧ (column.Type_ = "smallint" →
        columnDef name column = spec.columnItem name "SMALLINT" false " DEFAULT 0")
      ∧ (column.Type_ = "boolean" →
        columnDef name column = spec.columnItem name "BOOLEAN" false " DEFAULT false")
      ∧ (column.Type_ = "double" →
        columnDef name column = spec.columnItem name "DOUBLE PRECISION" false " DEFAULT 0")
      ∧ (∀ n : Int, column.Type_ = "string" → column.Size = some n →
        columnDef name column
          = spec.columnItem name ("VARCHAR(" ++ toString n ++ ")") false " DEFAULT ''")
      ∧ (column.Type_ = "string" → column.Size = none →
        columnDef name column = spec.columnItem name "TEXT" false " DEFAULT ''")
      ∧ (column.Type_ = "text" →
        columnDef name column = spec.columnItem name "TEXT" false " DEFAULT ''")
      ∧ (column.Type_ = "timestamp" →
        columnDef name column
          = spec.columnItem name "TIMESTAMPTZ" false " DEFAULT CURRENT_TIMESTAMP"))
    ∧ (column.AllowNull = true →
        columnDef name column = spec.columnItem name (mapTypeToPostgres column) true "") := by
  have hdef := columnDef_of_absent_default name column hnil
  constructor
  · intro hnull
    rw [hnull] at hdef
    simp only [Bool.false_eq_true, if_false] at hdef
    refine ⟨?_, ?_, ?_, ?_, ?_, ?_, ?_, ?_, ?_⟩
    · intro h
      have hT : mapTypeToPostgres column = "BIGINT" := by
        simp only [mapTypeToPostgres, h]
        rfl
      rw [hdef, hT]
      rfl
    · intro h
      have hT : mapTypeToPostgres column = "INTEGER" := by
        simp only [mapTypeToPostgres, h]
        rfl
      rw [hdef, hT]
      rfl
    · intro h
      have hT : mapTypeToPostgres column = "SMALLINT" := by
        simp only [mapTypeToPostgres, h]
        rfl
      rw [hdef, hT]
      rfl
    · intro h
      have hT : mapTypeToPostgres column = "BOOLEAN" := by
        simp only [mapTypeToPostgres, h]
        rfl
      rw [hdef, hT]
      rfl
    · intro h
      have hT : mapTypeToPostgres column = "DOUBLE PRECISION" := by
        simp only [mapTypeToPostgres, h]
        rfl
      rw [hdef, hT]
      rfl
    · intro n h hs
      have hT : mapTypeToPostgres column = "VARCHAR(" ++ fmt.verbDInt n ++ ")" := by
        simp only [mapTypeToPostgres, h, hs]
        rfl
      rw [hdef, hT, getDefaultForType_varchar]
      rfl
    · intro h hs
      have hT : mapTypeToPostgres column = "TEXT" := by
        simp only [mapTypeToPostgres, h, hs]
        rfl
      rw [hdef, hT]
      rfl
    · intro h
      have hT : mapTypeToPostgres column = "TEXT" := by
        simp only [mapTypeToPostgres, h]
        rfl
      rw [hdef, hT]
      rfl
    · intro h
      have hT : mapTypeToPostgres column = "TIMESTAMPTZ" := by
        simp only [mapTypeToPostgres, h]
        rfl
      rw [hdef, hT]
      rfl
  · intro hnull
    rw [hnull] at hdef
    simpa using hdef

/-- C15, at a NOT NULL `string` column of size 50, a NOT NULL `timestamp` column
and a nullable `bigint` column, none with a declared default. -/
theorem C15_synthesized_default_by_type_witness :
    columnDef "name" { Type_ := "string", Size := some 50 }
        = "\"name\" VARCHAR(50) NOT NULL DEFAULT ''"
    ∧ columnDef "created_at" { Type_ := "timestamp" }
        = "\"created_at\" TIMESTAMPTZ NOT NULL DEFAULT CURRENT_TIMESTAMP"
    ∧ columnDef "score" { Type_ := "bigint", AllowNull := true } = "\"score\" BIGINT NULL" :=
  ⟨((C15_synthesized_default_by_type "name" { Type_ := "string", Size := some 50 } rfl).1
      rfl).2.2.2.2.2.1 50 rfl rfl,
   ((C15_synthesized_default_by_type "created_at" { Type_ := "timestamp" } rfl).1
      rfl).2.2.2.2.2.2.2.2 rfl,
   (C15_synthesized_default_by_type "score" { Type_ := "bigint", AllowNull := true } rfl).2 rfl⟩

/-- C16 (the code diverges from the claim). For a NOT NULL column without a
declared default whose native type comes from the `dbType` hint `point` or
`interval`, the column definition carries `DEFAULT 0`: the test for the
integer family looks for the letters `INT` anywhere in the upper-cased type
name, and `POINT` and `INTERVAL` contain them. For `date`, `uuid` and `json`
no default is synthesized, as the claim says. -/
theorem C16_default_for_point_and_interval :
    columnDef "location" { Type_ := "point", DbType := "point" }
        = "\"location\" POINT NOT NULL DEFAULT 0"
    ∧ columnDef "ttl" { Type_ := "interval", DbType := "interval" }
        = "\"ttl\" INTERVAL NOT NULL DEFAULT 0"
    ∧ getDefaultForType "POINT" = " DEFAULT 0"
    ∧ getDefaultForType "INTERVAL" = " DEFAULT 0"
    ∧ columnDef "born" { Type_ := "date" } = "\"born\" DATE NOT NULL"
    ∧ columnDef "uid" { Type_ := "uuid", DbType := "uuid" } = "\"uid\" UUID NOT NULL"
    ∧ columnDef "doc" { Type_ := "json", DbType := "json" } = "\"doc\" JSON NOT NULL" :=
  ⟨rfl, rfl, rfl, rfl, rfl, rfl, rfl⟩

/-- C17, as stated, fails in its last sentence. For an expression marker whose
expression text is empty the rendering is the empty text, and `CreateTable`
appends no DEFAULT clause at all to the column definition. -/
theorem C17_empty_rendering_counterexample :
    formatDefaultValue (Value.object [("expression", Value.str "")]) = ""
    ∧ columnDef "note"
        { Type_ := "text", AllowNull := true,
          DefaultValue := Value.object [("expression", Value.str "")] }
        = "\"note\" TEXT NULL"
    ∧ "\"note\" TEXT NULL" ≠ "\"note\" TEXT NULL" ++ " DEFAULT " ++ "" :=
  ⟨rfl, rfl, by decide⟩

/-- The column definition of a column with a declared default that renders to
the empty text. -/
theorem columnDef_of_empty_rendering (name : String) (column : ColumnInfo)
    (hnil : column.DefaultValue.isNil = false)
    (hempty : formatDefaultValue column.DefaultValue = "") :
    columnDef name column
      = spec.columnItem name (mapTypeToPostgres column) column.AllowNull "" := by
  cases hnull : column.AllowNull
  · simp [columnDef, spec.columnItem, hnil, hnull, hempty, nullableKeyword]
  · simp [columnDef, spec.columnItem, hnil, hnull, hempty, nullableKeyword]

/-- C17, amended. `formatDefaultValue` renders a string `s` as a single quote, `s`
with every single quote doubled, and a single quote (reading the text between
the outer quotes back, pairing the quotes, recovers `s` and meets no unpaired
quote); a boolean as `true` or `false`; a number as its plain rendering; an
expression marker as its expression text, unquoted. `CreateTable` appends
` DEFAULT <rendering>` to the column definition whenever the rendering is
non-empty, which it always is for a string and a boolean; when the rendering
of a present default is empty, the column definition has no DEFAULT clause. -/
theorem C17_default_rendering (name : String) (column : ColumnInfo) :
    (∀ s : String,
        formatDefaultValue (Value.str s) = "'" ++ strings.doubleQuotes s ++ "'"
        ∧ spec.undouble (strings.doubleQuotes s).data = some s.data
        ∧ formatDefaultValue (Value.str s) ≠ "")
    ∧ (formatDefaultValue (Value.bool true) = "true"
        ∧ formatDefaultValue (Value.bool false) = "false")
    ∧ (∀ t : String, formatDefaultValue (Value.number t) = t)
    ∧ (∀ (m : List (String × Value)) (e : String),
        mapGet m "expression" = some (Value.str e) → formatDefaultValue (Value.object m) = e)
    ∧ (column.DefaultValue.isNil = false → formatDefaultValue column.DefaultValue ≠ "" →
        columnDef name column =
          spec.columnItem name (mapTypeToPostgres column) column.AllowNull
            (" DEFAULT " ++ formatDefaultValue column.DefaultValue))
    ∧ (column.DefaultValue.isNil = false → formatDefaultValue column.DefaultValue = "" →
        columnDef name column =
          spec.columnItem name (mapTypeToPostgres column) column.AllowNull "") := by
  refine ⟨?_, ⟨rfl, rfl⟩, ?_, ?_, ?_, ?_⟩
  · intro s
    exact ⟨rfl, undouble_doubleQuotes s.data, quoted_ne_empty _⟩
  · intro t
    rfl
  · intro m e h
    simp [formatDefaultValue, h, fmt.verbV]
  · intro hnil hne
    exact columnDef_of_declared_default name column hnil hne
  · intro hnil hempty
    exact columnDef_of_empty_rendering name column hnil hempty

/-- C17 amended, at the string default `it's`, the boolean default `true`, the
expression marker `CURRENT_TIMESTAMP` and the expression marker with empty
text. -/
theorem C17_default_rendering_witness :
    columnDef "note" { Type_ := "text", AllowNull := true, DefaultValue := Value.str "it's" }
        = "\"note\" TEXT NULL DEFAULT 'it''s'"
    ∧ columnDef "active" { Type_ := "boolean", DefaultValue := Value.bool true }
        = "\"active\" BOOLEAN NOT NULL DEFAULT true"
    ∧ columnDef "created_at"
        { Type_ := "timestamp",
          DefaultValue := Value.object [("expression", Value.str "CURRENT_TIMESTAMP")] }
        = "\"created_at\" TIMESTAMPTZ NOT NULL DEFAULT CURRENT_TIMESTAMP"
    ∧ columnDef "note"
        { Type_ := "text", DefaultValue := Value.object [("expression", Value.str "")] }
        = "\"note\" TEXT NOT NULL" :=
  ⟨(C17_default_rendering "note"
      { Type_ := "text", AllowNull := true, DefaultValue := Value.str "it's" }).2.2.2.2.1
      rfl (by decide),
   (C17_default_rendering "active"
      { Type_ := "boolean", DefaultValue := Value.bool true }).2.2.2.2.1 rfl (by decide),
   (C17_default_rendering "created_at"
      { Type_ := "timestamp",
        DefaultValue := Value.object [("expression", Value.str "CURRENT_TIMESTAMP")] }).2.2.2.2.1
      rfl (by decide),
   (C17_default_rendering "note"
      { Type_ := "text",
        DefaultValue := Value.object [("expression", Value.str "")] }).2.2.2.2.2 rfl rfl⟩

/-! ## Column addition: lemmas -/

namespace schema_database

open domain

theorem addColumnCalls_cons_none (t : String) (columns : List (String × ColumnInfo))
    (name : String) (rest : List String) (h : mapGet columns name = none) :
    spec.addColumnCalls t columns (name :: rest) = spec.addColumnCalls t columns rest := by
  simp [spec.addColumnCalls, List.filterMap_cons, h]

theorem addColumnCalls_cons_some (t : String) (columns : List (String × ColumnInfo))
    (name : String) (rest : List String) (column : ColumnInfo)
    (h : mapGet columns name = some column) :
    spec.addColumnCalls t columns (name :: rest)
      = sql.Call.exec (spec.addColumnText t name column) []
          :: spec.addColumnCalls t columns rest := by
  simp [spec.addColumnCalls, List.filterMap_cons, h]

theorem AddColumns_query_eq (t name : String) (column : ColumnInfo) :
    "ALTER TABLE \"" ++ t ++ "\" ADD COLUMN IF NOT EXISTS \"" ++ name ++ "\" "
        ++ mapTypeToPostgres column ++ " " ++ nullableKeyword column
      = spec.addColumnText t name column := by
  unfold spec.addColumnText nullableKeyword
  cases column.AllowNull <;> rfl

/-- The statements that `AddColumns` issues are an initial segment of the
statements for the missing names, and all of them when it returns success. -/
theorem AddColumns_issued (conn : sql.DB) (t : String) (columns : List (String × ColumnInfo))
    (missing : List String) (log : List sql.Call) :
    ∃ k, k ≤ (spec.addColumnCalls t columns missing).length
      ∧ (AddColumns conn t columns missing log).2
          = log ++ (spec.addColumnCalls t columns missing).take k
      ∧ ((AddColumns conn t columns missing log).1 = none →
          k = (spec.addColumnCalls t columns missing).length) := by
  induction missing generalizing log with
  | nil => exact ⟨0, by simp [spec.addColumnCalls], by simp [AddColumns], by
      simp [spec.addColumnCalls]⟩
  | cons name rest ih =>
      unfold AddColumns
      split
      · rename_i hnone
        rw [addColumnCalls_cons_none t columns name rest hnone]
        exact ih log
      · rename_i column hsome
        rw [addColumnCalls_cons_some t columns name rest column hsome]
        simp only [AddColumns_query_eq]
        split
        · refine ⟨1, by simp, by simp, ?_⟩
          intro h
          simp at h
        · obtain ⟨k, hk, hlog, hfull⟩ :=
            ih (log ++ [sql.Call.exec (spec.addColumnText t name column) []])
          refine ⟨k + 1, by simpa using hk, ?_, ?_⟩
          · rw [hlog]
            simp
          · intro h
            simp [hfull h]

/-- On a store whose statements never fail, `AddColumns` issues every statement
and returns success. -/
theorem AddColumns_of_no_failure (conn : sql.DB) (t : String)
    (columns : List (String × ColumnInfo)) (missing : List String) (log : List sql.Call)
    (hok : ∀ history q args, ∃ r, conn.Exec history q args = .ok r) :
    AddColumns conn t columns missing log = (none, log ++ spec.addColumnCalls t columns missing) := by
  induction missing generalizing log with
  | nil => simp [AddColumns, spec.addColumnCalls]
  | cons name rest ih =>
      unfold AddColumns
      split
      · rename_i hnone
        rw [addColumnCalls_cons_none t columns name rest hnone]
        exact ih log
      · rename_i column hsome
        rw [addColumnCalls_cons_some t columns name rest column hsome]
        simp only [AddColumns_query_eq]
        obtain ⟨r, hr⟩ := hok log (spec.addColumnText t name column) []
        rw [hr]
        simp only []
        rw [ih]
        simp

end schema_database

/-- C18, as stated, fails. On a store where the first statement succeeds and the
next one fails, `AddColumns` for the three missing names `id`, `name`, `email`,
all keys of the column map, issues two statements only: none for `email`. -/
theorem C18_add_columns_counterexample :
    AddColumns failsAfterFirst "leads"
        [("id", { Type_ := "bigint" }), ("name", { Type_ := "text" }),
         ("email", { Type_ := "text" })]
        ["id", "name", "email"] []
      = (some "failed to add column name: deadlock detected",
         [sql.Call.exec "ALTER TABLE \"leads\" ADD COLUMN IF NOT EXISTS \"id\" BIGINT NOT NULL" [],
          sql.Call.exec "ALTER TABLE \"leads\" ADD COLUMN IF NOT EXISTS \"name\" TEXT NOT NULL" []])
    ∧ (spec.addColumnCalls "leads"
        [("id", { Type_ := "bigint" }), ("name", { Type_ := "text" }),
         ("email", { Type_ := "text" })]
        ["id", "name", "email"]).length = 3 :=
  ⟨rfl, rfl⟩

/-- C18, amended. `AddColumns` issues, in the order of the missing list, an
initial segment of the statements
`ALTER TABLE "t" ADD COLUMN IF NOT EXISTS "c" <type> <NULL | NOT NULL>`, one per
missing name `c` that is a key of the column map (other names are skipped): all
of them when it returns success, which it does whenever no statement fails.
Each statement is the column definition of `CreateTable` with an empty default
clause: same type mapping, same nullability keyword, and nothing after it. -/
theorem C18_add_columns_statements (conn : sql.DB) (t : String)
    (columns : List (String × ColumnInfo)) (missing : List String) (log : List sql.Call) :
    (∃ k, k ≤ (spec.addColumnCalls t columns missing).length
      ∧ (AddColumns conn t columns missing log).2
          = log ++ (spec.addColumnCalls t columns missing).take k)
    ∧ ((AddColumns conn t columns missing log).1 = none →
        (AddColumns conn t columns missing log).2
          = log ++ spec.addColumnCalls t columns missing)
    ∧ ((∀ history q args, ∃ r, conn.Exec history q args = .ok r) →
        AddColumns conn t columns missing log
          = (none, log ++ spec.addColumnCalls t columns missing))
    ∧ spec.addColumnCalls t columns missing
        = missing.filterMap (fun name =>
            (mapGet columns name).map (fun column =>
              sql.Call.exec
                ("ALTER TABLE \"" ++ t ++ "\" ADD COLUMN IF NOT EXISTS "
                  ++ spec.columnItem name (mapTypeToPostgres column) column.AllowNull "") [])) := by
  obtain ⟨k, hk, hlog, hfull⟩ := AddColumns_issued conn t columns missing log
  refine ⟨⟨k, hk, hlog⟩, ?_, AddColumns_of_no_failure conn t columns missing log, ?_⟩
  · intro h
    rw [hlog, hfull h, List.take_length]
  · unfold spec.addColumnCalls
    congr 1
    funext name
    congr 1
    funext column
    simp only [spec.addColumnText, spec.columnItem, String.append_assoc, String.append_empty]
    rfl

/-- C18 amended, at the missing names `name`, `ghost` for the schema `leads`, of
which `ghost` is not a key: one statement, without the `DEFAULT ''` that
`CreateTable` gives the same column. -/
theorem C18_add_columns_statements_witness :
    AddColumns okStore "leads" leads.Columns ["name", "ghost"] []
      = (none,
         [sql.Call.exec
            "ALTER TABLE \"leads\" ADD COLUMN IF NOT EXISTS \"name\" VARCHAR(50) NOT NULL" []]) :=
  (C18_add_columns_statements okStore "leads" leads.Columns ["name", "ghost"] []).2.2.1
    (fun _ _ _ => ⟨_, rfl⟩)

/-- C19, as stated, fails. When the column map of `leads` is visited in the order
`name`, `id`, the CREATE TABLE statement lists `name` before `id`, which is not
the ascending order of the names; the statement differs from the one built
when the same columns are visited in the order `id`, `name`. -/
theorem C19_column_order_counterexample :
    createTableQuery leadsNameFirst
      = "CREATE TABLE IF NOT EXISTS \"leads\" (\"name\" VARCHAR(50) NOT NULL DEFAULT '', "
          ++ "\"id\" BIGINT NOT NULL DEFAULT 0, PRIMARY KEY (\"id\"))"
    ∧ leadsNameFirst.Columns.map Prod.fst = ["name", "id"]
    ∧ ("id" < "name")
    ∧ leadsNameFirst.Columns.Perm leads.Columns
    ∧ createTableQuery leadsNameFirst ≠ createTableQuery leads := by
  exact ⟨rfl, rfl, String.lt_iff_toList_lt.mpr (by decide), List.Perm.swap _ _ _, by decide⟩

/-- C19, amended. `CreateTable` emits its column definitions in the order in which
the column map is visited, which is not sorted: the sequence of column names in
the statement is the sequence of declared names in visiting order, each
definition beginning with its double-quoted name. Two visiting orders of the
same columns give the same column definitions up to order, and the identical
statement text when the orders coincide. -/
theorem C19_column_order_is_visiting_order (s s' : Schema)
    (hperm : s'.Columns.Perm s.Columns) :
    createTableQuery s =
        "CREATE TABLE IF NOT EXISTS \"" ++ s.TableName ++ "\" ("
          ++ ", ".intercalate
              (s.Columns.map (fun e => columnDef e.1 e.2)
                ++ (if s.PrimaryKey = [] then [] else [spec.primaryKeyItem s.PrimaryKey]))
          ++ ")"
    ∧ (∀ e ∈ s.Columns, ∃ rest, columnDef e.1 e.2 = "\"" ++ e.1 ++ "\" " ++ rest)
    ∧ (s'.Columns.map (fun e => columnDef e.1 e.2)).Perm
        (s.Columns.map (fun e => columnDef e.1 e.2))
    ∧ (s'.Columns = s.Columns → s'.TableName = s.TableName → s'.PrimaryKey = s.PrimaryKey →
        createTableQuery s' = createTableQuery s) := by
  refine ⟨?_, ?_, hperm.map _, ?_⟩
  · unfold createTableQuery
    by_cases hpk : s.PrimaryKey = []
    · simp [hpk, strings.Join]
    · have hlen : s.PrimaryKey.length > 0 := List.length_pos.mpr hpk
      simp [hpk, hlen, strings.Join, spec.primaryKeyItem]
  · intro e _
    obtain ⟨clause, _, hdef⟩ := defaultClause_shape e.2
    refine ⟨mapTypeToPostgres e.2 ++ " " ++ (if e.2.AllowNull then "NULL" else "NOT NULL")
      ++ clause, ?_⟩
    rw [hdef e.1]
    simp only [spec.columnItem, String.append_assoc]
  · intro h1 h2 h3
    unfold createTableQuery
    rw [h1, h2, h3]

/-- C19 amended, at the schema `leads` visited as `id`, `name` and as `name`, `id`. -/
theorem C19_column_order_is_visiting_order_witness :
    (leadsNameFirst.Columns.map (fun e => columnDef e.1 e.2)).Perm
      (leads.Columns.map (fun e => columnDef e.1 e.2)) :=
  (C19_column_order_is_visiting_order leads leadsNameFirst (List.Perm.swap _ _ _)).2.2.1

/-! ## Schema synchronisation on the catalogue store: lemmas -/

namespace schema_database

open domain

theorem catalogAfter_append (s : Schema) (cat0 : spec.Catalog) (log l : List sql.Call) :
    spec.catalogAfter s cat0 (log ++ l) = l.foldl (spec.applyCall s) (spec.catalogAfter s cat0 log) := by
  simp [spec.catalogAfter, List.foldl_append]

theorem mapGet_some_mem {β : Type} (m : List (String × β)) (k : String) (v : β)
    (h : mapGet m k = some v) : (k, v) ∈ m := by
  induction m with
  | nil => simp [mapGet] at h
  | cons e rest ih =>
      obtain ⟨k0, v0⟩ := e
      by_cases hk : k0 = k
      · simp only [mapGet, hk, if_true, Option.some.injEq] at h
        rw [hk, h]
        exact List.mem_cons_self _ _
      · simp only [mapGet, hk, if_false] at h
        exact List.mem_cons_of_mem _ (ih h)

theorem createTableQuery_head (s : Schema) : ∃ cs, (createTableQuery s).data = 'C' :: cs := by
  simp only [createTableQuery, String.append_assoc, String.data_append]
  exact ⟨_, rfl⟩

theorem addColumnText_head (t name : String) (column : ColumnInfo) :
    ∃ cs, (spec.addColumnText t name column).data = 'A' :: cs := by
  simp only [spec.addColumnText, String.append_assoc, String.data_append]
  exact ⟨_, rfl⟩

theorem addColumnText_ne_createTableQuery (s : Schema) (t name : String) (column : ColumnInfo) :
    spec.addColumnText t name column ≠ createTableQuery s := by
  intro h
  obtain ⟨cs1, h1⟩ := addColumnText_head t name column
  obtain ⟨cs2, h2⟩ := createTableQuery_head s
  rw [h, h2] at h1
  have := (List.cons.inj h1).1
  exact absurd this (by decide)

theorem TableExists_modelStore (s : Schema) (cat0 : spec.Catalog) (t : String)
    (log : List sql.Call) :
    TableExists (spec.modelStore s cat0) t log
      = (.ok (mapGet (spec.catalogAfter s cat0 log) t).isSome,
         log ++ [sql.Call.queryRow tableExistsQuery [Value.str t]]) := rfl

theorem scanColumns_catalogRows (cols : List String) (acc : List (String × ColumnInfo)) :
    ∃ dbColumns,
      scanColumns (cols.map (fun n => (Except.ok (spec.catalogRow n) : Except String sql.ColumnRow)))
        acc = .ok dbColumns
      ∧ ∀ n, n ∈ dbColumns.map Prod.fst ↔ (n ∈ acc.map Prod.fst ∨ n ∈ cols) := by
  induction cols generalizing acc with
  | nil => exact ⟨acc, rfl, by simp⟩
  | cons c rest ih =>
      obtain ⟨dbColumns, hscan, hkeys⟩ := ih (mapSet acc (spec.catalogRow c).columnName
        { Name := (spec.catalogRow c).columnName, DbType := (spec.catalogRow c).dataType,
          AllowNull := (spec.catalogRow c).isNullable == "YES",
          Size := (spec.catalogRow c).maxLength })
      refine ⟨dbColumns, ?_, ?_⟩
      · rw [List.map_cons, scanColumns]
        exact hscan
      · intro n
        rw [hkeys n, ← mapGet_isSome_iff, db.mapGet_mapSet]
        have hc : (spec.catalogRow c).columnName = c := rfl
        rw [hc]
        by_cases hn : c = n
        · simp [hn]
        · have hn2 : ¬ n = c := fun e => hn e.symm
          simp [hn, hn2, mapGet_isSome_iff]

theorem GetTableColumns_modelStore (s : Schema) (cat0 : spec.Catalog) (t : String)
    (log : List sql.Call) :
    ∃ dbColumns,
      GetTableColumns (spec.modelStore s cat0) t log
        = (.ok dbColumns, log ++ [sql.Call.query tableColumnsQuery [Value.str t]])
      ∧ ∀ n, n ∈ dbColumns.map Prod.fst
          ↔ n ∈ (mapGet (spec.catalogAfter s cat0 log) t).getD [] := by
  obtain ⟨dbColumns, hscan, hkeys⟩ :=
    scanColumns_catalogRows ((mapGet (spec.catalogAfter s cat0 log) t).getD []) []
  refine ⟨dbColumns, ?_, by simpa using hkeys⟩
  unfold GetTableColumns
  simp only [spec.modelStore, hscan]

theorem missingNames_congr (dbColumns declared : List (String × ColumnInfo)) (cols : List String)
    (h : ∀ n, n ∈ dbColumns.map Prod.fst ↔ n ∈ cols) :
    spec.missingNames dbColumns declared
      = (declared.map Prod.fst).filter (fun n => decide (n ∉ cols)) := by
  unfold spec.missingNames
  apply List.filter_congr
  intro n _
  simp [h n]

theorem catalogAfter_queryRow (s : Schema) (cat0 : spec.Catalog) (log : List sql.Call)
    (q : String) (args : List Value) :
    spec.catalogAfter s cat0 (log ++ [sql.Call.queryRow q args]) = spec.catalogAfter s cat0 log := by
  rw [catalogAfter_append]
  rfl

theorem catalogAfter_query (s : Schema) (cat0 : spec.Catalog) (log : List sql.Call)
    (q : String) (args : List Value) :
    spec.catalogAfter s cat0 (log ++ [sql.Call.query q args]) = spec.catalogAfter s cat0 log := by
  rw [catalogAfter_append]
  rfl

theorem CompareSchemas_modelStore (s : Schema) (cat0 : spec.Catalog) (log : List sql.Call)
    (cols : List String) (hcat : mapGet (spec.catalogAfter s cat0 log) s.TableName = some cols) :
    CompareSchemas (spec.modelStore s cat0) s log
      = (.ok (((s.Columns.map Prod.fst).filter (fun n => decide (n ∉ cols))).length == 0,
              (s.Columns.map Prod.fst).filter (fun n => decide (n ∉ cols))),
         log ++ [sql.Call.queryRow tableExistsQuery [Value.str s.TableName],
                 sql.Call.query tableColumnsQuery [Value.str s.TableName]]) := by
  obtain ⟨dbColumns, hget, hkeys⟩ := GetTableColumns_modelStore s cat0 s.TableName
    (log ++ [sql.Call.queryRow tableExistsQuery [Value.str s.TableName]])
  rw [catalogAfter_queryRow, hcat] at hkeys
  unfold CompareSchemas
  simp only [TableExists_modelStore, hcat, Option.isSome_some, hget, missingColumnsLoop_eq,
    List.nil_append]
  rw [missingNames_congr dbColumns s.Columns cols (by simpa using hkeys)]
  simp

theorem applyCall_addColumn (s : Schema) (cat : spec.Catalog) (cols : List String)
    (name : String) (column : ColumnInfo)
    (hcat : mapGet cat s.TableName = some cols)
    (hcol : mapGet s.Columns name = some column) :
    ∃ cols', mapGet (spec.applyCall s cat
        (sql.Call.exec (spec.addColumnText s.TableName name column) [])) s.TableName = some cols'
      ∧ (∀ n ∈ cols, n ∈ cols') ∧ name ∈ cols' := by
  have hne := addColumnText_ne_createTableQuery s s.TableName name column
  refine ⟨cols ++ ((s.Columns.filter (fun e => decide
      (spec.addColumnText s.TableName name column = spec.addColumnText s.TableName e.1 e.2))).map
      Prod.fst).filter (fun n => decide (n ∉ cols)), ?_, ?_, ?_⟩
  rotate_left
  · intro n hn
    exact List.mem_append_left _ hn
  · by_cases hmem : name ∈ cols
    · exact List.mem_append_left _ hmem
    · apply List.mem_append_right
      rw [List.mem_filter]
      refine ⟨?_, by simpa using hmem⟩
      rw [List.mem_map]
      refine ⟨(name, column), ?_, rfl⟩
      rw [List.mem_filter]
      exact ⟨mapGet_some_mem _ _ _ hcol, by simp⟩
  · simp only [spec.applyCall, hne, if_false, hcat]
    rw [db.mapGet_mapSet]
    simp

theorem foldl_applyCall_addColumns (s : Schema) (l : List String) (cat : spec.Catalog)
    (cols : List String) (hcat : mapGet cat s.TableName = some cols) :
    ∃ cols', mapGet ((spec.addColumnCalls s.TableName s.Columns l).foldl (spec.applyCall s) cat)
        s.TableName = some cols'
      ∧ (∀ n ∈ cols, n ∈ cols') ∧ (∀ n ∈ l, n ∈ s.Columns.map Prod.fst → n ∈ cols') := by
  induction l generalizing cat cols with
  | nil => exact ⟨cols, by simpa [spec.addColumnCalls] using hcat, fun _ h => h, by simp⟩
  | cons name rest ih =>
      cases hcol : mapGet s.Columns name with
      | none =>
          rw [addColumnCalls_cons_none _ _ _ _ hcol]
          obtain ⟨cols', h1, h2, h3⟩ := ih cat cols hcat
          refine ⟨cols', h1, h2, ?_⟩
          intro n hn hdecl
          rcases List.mem_cons.mp hn with h | h
          · rw [h] at hdecl
            exact absurd hdecl ((mapGet_eq_none_iff _ _).mp hcol)
          · exact h3 n h hdecl
      | some column =>
          rw [addColumnCalls_cons_some _ _ _ _ _ hcol, List.foldl_cons]
          obtain ⟨cols1, hc1, hsub1, hname⟩ := applyCall_addColumn s cat cols name column hcat hcol
          obtain ⟨cols', h1, h2, h3⟩ := ih _ cols1 hc1
          refine ⟨cols', h1, fun n hn => h2 n (hsub1 n hn), ?_⟩
          intro n hn hdecl
          rcases List.mem_cons.mp hn with h | h
          · rw [h]
            exact h2 name hname
          · exact h3 n h hdecl

theorem addColumnCalls_length_of_keys (t : String) (columns : List (String × ColumnInfo))
    (l : List String) (h : ∀ n ∈ l, n ∈ columns.map Prod.fst) :
    (spec.addColumnCalls t columns l).length = l.length := by
  induction l with
  | nil => rfl
  | cons name rest ih =>
      have hrest : ∀ n ∈ rest, n ∈ columns.map Prod.fst := fun n hn => h n (List.mem_cons_of_mem _ hn)
      cases hcol : mapGet columns name with
      | none =>
          exact absurd (h name (List.mem_cons_self _ _)) ((mapGet_eq_none_iff _ _).mp hcol)
      | some column =>
          rw [addColumnCalls_cons_some _ _ _ _ _ hcol]
          simp [ih hrest]

end schema_database

/-- C20. On the catalogue store, in which every statement succeeds and the
CREATE TABLE and ADD COLUMN statements of the schema take effect,
`CheckAndUpdateSchema` returns success, and afterwards the destination table
exists and its columns include every declared column name. When the table was
absent the only statement is the CREATE TABLE; when it existed the statements
are one ADD COLUMN per declared column that the table lacked, in visiting
order, and there is no statement at all when the table had every declared
column. The existence query and the column query are the only other calls. -/
theorem C20_sync_reaches_declared_schema (s : Schema) (cat0 : spec.Catalog)
    (log : List sql.Call) :
    (CheckAndUpdateSchema (spec.modelStore s cat0) s log).1 = none
    ∧ (∃ cols,
        mapGet (spec.catalogAfter s cat0 (CheckAndUpdateSchema (spec.modelStore s cat0) s log).2)
          s.TableName = some cols
        ∧ ∀ e ∈ s.Columns, e.1 ∈ cols)
    ∧ (mapGet (spec.catalogAfter s cat0 log) s.TableName = none →
        (CheckAndUpdateSchema (spec.modelStore s cat0) s log).2
          = log ++ [sql.Call.queryRow tableExistsQuery [Value.str s.TableName],
                    sql.Call.exec (createTableQuery s) []])
    ∧ (∀ cols, mapGet (spec.catalogAfter s cat0 log) s.TableName = some cols →
        (CheckAndUpdateSchema (spec.modelStore s cat0) s log).2
          = log ++ [sql.Call.queryRow tableExistsQuery [Value.str s.TableName],
                    sql.Call.queryRow tableExistsQuery [Value.str s.TableName],
                    sql.Call.query tableColumnsQuery [Value.str s.TableName]]
              ++ spec.addColumnCalls s.TableName s.Columns
                  ((s.Columns.map Prod.fst).filter (fun n => decide (n ∉ cols)))
        ∧ (spec.addColumnCalls s.TableName s.Columns
              ((s.Columns.map Prod.fst).filter (fun n => decide (n ∉ cols)))).length
            = ((s.Columns.map Prod.fst).filter (fun n => decide (n ∉ cols))).length
        ∧ ((∀ e ∈ s.Columns, e.1 ∈ cols) →
            (CheckAndUpdateSchema (spec.modelStore s cat0) s log).2
              = log ++ [sql.Call.queryRow tableExistsQuery [Value.str s.TableName],
                        sql.Call.queryRow tableExistsQuery [Value.str s.TableName],
                        sql.Call.query tableColumnsQuery [Value.str s.TableName]])) := by
  have hexec : ∀ history q args, ∃ r, (spec.modelStore s cat0).Exec history q args = .ok r :=
    fun _ _ _ => ⟨_, rfl⟩
  cases hcat : mapGet (spec.catalogAfter s cat0 log) s.TableName with
  | none =>
      have hrun : CheckAndUpdateSchema (spec.modelStore s cat0) s log
          = (none, log ++ [sql.Call.queryRow tableExistsQuery [Value.str s.TableName],
                           sql.Call.exec (createTableQuery s) []]) := by
        unfold CheckAndUpdateSchema
        simp only [TableExists_modelStore, hcat, Option.isSome_none]
        unfold CreateTable
        simp [spec.modelStore]
      rw [hrun]
      refine ⟨rfl, ?_, fun _ => rfl, ?_⟩
      · refine ⟨s.Columns.map Prod.fst, ?_, ?_⟩
        · rw [catalogAfter_append]
          simp only [List.foldl_cons, List.foldl_nil, spec.applyCall, if_true, hcat]
          rw [db.mapGet_mapSet]
          simp
        · intro e he
          exact List.mem_map_of_mem _ he
      · intro cols hc
        cases hc
  | some cols =>
      have hcmp := CompareSchemas_modelStore s cat0
        (log ++ [sql.Call.queryRow tableExistsQuery [Value.str s.TableName]]) cols
        (by rw [catalogAfter_queryRow]; exact hcat)
      have hdecl : ∀ n ∈ (s.Columns.map Prod.fst).filter (fun n => decide (n ∉ cols)),
          n ∈ s.Columns.map Prod.fst := fun n hn => (List.mem_filter.mp hn).1
      have hrun : CheckAndUpdateSchema (spec.modelStore s cat0) s log
          = (none, log ++ [sql.Call.queryRow tableExistsQuery [Value.str s.TableName],
                    sql.Call.queryRow tableExistsQuery [Value.str s.TableName],
                    sql.Call.query tableColumnsQuery [Value.str s.TableName]]
              ++ spec.addColumnCalls s.TableName s.Columns
                  ((s.Columns.map Prod.fst).filter (fun n => decide (n ∉ cols)))) := by
        unfold CheckAndUpdateSchema
        simp only [TableExists_modelStore, hcat, Option.isSome_some, hcmp]
        generalize (s.Columns.map Prod.fst).filter (fun n => decide (n ∉ cols)) = missing
        cases missing with
        | nil => simp [spec.addColumnCalls]
        | cons m ms =>
            rw [AddColumns_of_no_failure _ _ _ _ _ hexec]
            simp
      rw [hrun]
      refine ⟨rfl, ?_, ?_, ?_⟩
      · have hbefore : mapGet (spec.catalogAfter s cat0
            (log ++ [sql.Call.queryRow tableExistsQuery [Value.str s.TableName],
                    sql.Call.queryRow tableExistsQuery [Value.str s.TableName],
                    sql.Call.query tableColumnsQuery [Value.str s.TableName]])) s.TableName
            = some cols := by
          rw [catalogAfter_append]
          exact hcat
        obtain ⟨cols', h1, h2, h3⟩ := foldl_applyCall_addColumns s
          ((s.Columns.map Prod.fst).filter (fun n => decide (n ∉ cols))) _ cols hbefore
        refine ⟨cols', ?_, ?_⟩
        · rw [catalogAfter_append]
          exact h1
        · intro e he
          have hname : e.1 ∈ s.Columns.map Prod.fst := List.mem_map_of_mem _ he
          by_cases hin : e.1 ∈ cols
          · exact h2 _ hin
          · exact h3 _ (List.mem_filter.mpr ⟨hname, by simpa using hin⟩) hname
      · intro hc
        cases hc
      · intro cols2 hc
        cases hc
        refine ⟨rfl, addColumnCalls_length_of_keys _ _ _ hdecl, ?_⟩
        intro hall
        have hmiss : (s.Columns.map Prod.fst).filter (fun n => decide (n ∉ cols)) = [] := by
          rw [List.filter_eq_nil_iff]
          intro n hn
          obtain ⟨e, he, rfl⟩ := List.mem_map.mp hn
          simpa using hall e he
        rw [hmiss]
        simp [spec.addColumnCalls]

/-- C20, at the schema `leads` (columns `id`, `name`): against an empty catalogue
the table is created, and against a catalogue in which `leads` has only `id`
the column `name` is added. -/
theorem C20_sync_reaches_declared_schema_witness :
    (CheckAndUpdateSchema (spec.modelStore leads []) leads []).2
        = [sql.Call.queryRow tableExistsQuery [Value.str "leads"],
           sql.Call.exec (createTableQuery leads) []]
    ∧ (CheckAndUpdateSchema (spec.modelStore leads [("leads", ["id"])]) leads []).2
        = [sql.Call.queryRow tableExistsQuery [Value.str "leads"],
           sql.Call.queryRow tableExistsQuery [Value.str "leads"],
           sql.Call.query tableColumnsQuery [Value.str "leads"],
           sql.Call.exec
             "ALTER TABLE \"leads\" ADD COLUMN IF NOT EXISTS \"name\" VARCHAR(50) NOT NULL" []] :=
  ⟨(C20_sync_reaches_declared_schema leads [] []).2.2.1 rfl,
   ((C20_sync_reaches_declared_schema leads [("leads", ["id"])] []).2.2.2 ["id"] rfl).1⟩

/-! ## Key resolution and empty renderings: lemmas -/

namespace db

open domain

theorem append_ne_of_head (a b c : String) (x y : Char) (xs ys : List Char)
    (ha : a.data = x :: xs) (hc : c.data = y :: ys) (hxy : x ≠ y) : a ++ b ≠ c := by
  intro h
  have hd := congrArg String.data h
  rw [String.data_append, ha, hc] at hd
  exact hxy (List.cons.inj hd).1

theorem numbered_getElem? (s : Nat) (names : List String) (j : Nat) :
    (spec.numbered s names)[j]?
      = names[j]?.map (fun n => "\"" ++ n ++ "\" = $" ++ toString (s + j)) := by
  induction names generalizing s j with
  | nil => simp [spec.numbered]
  | cons n ns ih =>
      rw [numbered_cons]
      cases j with
      | zero => simp
      | succ i =>
          simp only [List.getElem?_cons_succ]
          rw [ih]
          have : s + 1 + i = s + (i + 1) := by omega
          rw [this]

theorem keyColumns_mem (data : List Fields) (pks : List String) (pk : String)
    (hpk : pk ∈ pks) (hocc : ∃ f ∈ data, f.Field = pk) : pk ∈ spec.keyColumns data pks := by
  obtain ⟨f, hf, hname⟩ := hocc
  simp only [spec.keyColumns, List.mem_filter, List.any_eq_true, decide_eq_true_eq]
  exact ⟨hpk, f, hf, hname⟩

/-- The error of `UpdateData`, once its guards are passed, is never the
no-primary-key error. -/
theorem UpdateData_error_of_reach (conn : sql.DB) (t : String) (data : List Fields)
    (pks : List String) (log : List sql.Call)
    (hset : spec.setFields data pks ≠ []) (hkey : spec.keyColumns data pks ≠ []) :
    (UpdateData conn t data pks log).1 ≠ some "no primary key values found" := by
  rw [UpdateData_of_reach conn t data pks log hset hkey]
  cases conn.Exec log (spec.updateText t data pks) (spec.updateArgs data pks) with
  | error err =>
      intro h
      exact append_ne_of_head "failed to update data: " err _ 'f' 'n' _ _ rfl rfl (by decide)
        (Option.some.inj h)
  | ok result =>
      cases hr : result.RowsAffected with
      | error err =>
          intro h
          simp only [hr] at h
          exact append_ne_of_head "failed to get rows affected: " err _ 'f' 'n' _ _ rfl rfl
            (by decide) (Option.some.inj h)
      | ok n =>
          simp only [hr]
          by_cases hn : n = 0
          · rw [if_pos hn, InsertData_of_nonNull conn t data _
              (setFields_subset_insertFields data pks hset)]
            cases conn.Exec (log ++ [spec.updateCall t data pks])
                (spec.insertText t (spec.insertFields data))
                ((spec.insertFields data).map (fun f => f.NewValue)) with
            | error err =>
                intro h
                exact append_ne_of_head "failed to insert data: " err _ 'f' 'n' _ _ rfl rfl
                  (by decide) (Option.some.inj h)
            | ok _ =>
                intro h
                cases h
          · rw [if_neg hn]
            intro h
            cases h

/-- The first store call of `UpdateData`, once its guards are passed. -/
theorem UpdateData_first_call (conn : sql.DB) (t : String) (data : List Fields)
    (pks : List String) (log : List sql.Call)
    (hset : spec.setFields data pks ≠ []) (hkey : spec.keyColumns data pks ≠ []) :
    ∃ rest, (UpdateData conn t data pks log).2 = log ++ spec.updateCall t data pks :: rest
      ∧ (rest = [] ∨ rest = [spec.insertCall t data]) := by
  rw [UpdateData_of_reach conn t data pks log hset hkey]
  cases conn.Exec log (spec.updateText t data pks) (spec.updateArgs data pks) with
  | error err => exact ⟨[], by simp, Or.inl rfl⟩
  | ok result =>
      cases hr : result.RowsAffected with
      | error err => exact ⟨[], by simp [hr], Or.inl rfl⟩
      | ok n =>
          by_cases hn : n = 0
          · refine ⟨[spec.insertCall t data], ?_, Or.inr rfl⟩
            simp only [hr, hn, if_true]
            rw [InsertData_of_nonNull conn t data _
              (setFields_subset_insertFields data pks hset)]
            simp
          · exact ⟨[], by simp [hr, hn], Or.inl rfl⟩

end db

/-- C24. When the SET clause is non-empty and a `primaryKeyColumns` entry `pk`
occurs as a field name, `UpdateData` does not fail with the no-primary-key
error, whatever the `newValue` of that field is, null included: it executes
the UPDATE, whose WHERE clause has the condition `"pk" = $n` for `pk` and whose
parameter for that condition is the `newValue` of the last field named `pk`
(null when that value is null). -/
theorem C24_key_resolved_by_presence (conn : sql.DB) (t : String) (data : List Fields)
    (pks : List String) (log : List sql.Call) (pk : String)
    (hset : spec.setFields data pks ≠ []) (hpk : pk ∈ pks)
    (hocc : ∃ f ∈ data, f.Field = pk) :
    (UpdateData conn t data pks log).1 ≠ some "no primary key values found"
    ∧ (∃ rest, (UpdateData conn t data pks log).2
        = log ++ sql.Call.exec (spec.updateText t data pks) (spec.updateArgs data pks) :: rest)
    ∧ pk ∈ spec.keyColumns data pks
    ∧ (∀ j, (spec.numbered ((spec.setFields data pks).length + 1) (spec.keyColumns data pks))[j]?
          = (spec.keyColumns data pks)[j]?.map
              (fun n => "\"" ++ n ++ "\" = $" ++ toString ((spec.setFields data pks).length + 1 + j))
        ∧ (spec.updateArgs data pks)[(spec.setFields data pks).length + j]?
          = (spec.keyColumns data pks)[j]?.map (spec.keyValue data))
    ∧ (∃ f, (data.filter (fun f => decide (f.Field = pk))).getLast? = some f
        ∧ f.Field = pk ∧ spec.keyValue data pk = f.NewValue) := by
  have hmem := keyColumns_mem data pks pk hpk hocc
  have hkey : spec.keyColumns data pks ≠ [] := List.ne_nil_of_mem hmem
  refine ⟨UpdateData_error_of_reach conn t data pks log hset hkey, ?_, hmem, ?_, ?_⟩
  · obtain ⟨rest, h, _⟩ := UpdateData_first_call conn t data pks log hset hkey
    exact ⟨rest, h⟩
  · intro j
    refine ⟨numbered_getElem? _ _ j, ?_⟩
    unfold spec.updateArgs
    rw [List.getElem?_append_right (by simp)]
    simp
  · obtain ⟨f, hf, hname⟩ := hocc
    have hne : data.filter (fun f => decide (f.Field = pk)) ≠ [] := by
      apply List.ne_nil_of_mem (a := f)
      simp [List.mem_filter, hf, hname]
    refine ⟨(data.filter (fun f => decide (f.Field = pk))).getLast hne,
      List.getLast?_eq_getLast _ hne, ?_, ?_⟩
    · have := List.getLast_mem hne
      simpa using (List.mem_filter.mp this).2
    · unfold spec.keyValue spec.lastValue
      rw [List.getLast?_eq_getLast _ hne]
      rfl

/-- C24, at the fields `id = null`, `name = "Janet"` with key `id`, and at the
fields `id = 1`, `id = 2`, `name = "Janet"` with key `id`. -/
theorem C24_key_resolved_by_presence_witness :
    (∃ rest, (UpdateData okStore "leads"
        [{ Field := "id" }, { Field := "name", NewValue := Value.str "Janet" }] ["id"] []).2
      = [] ++ sql.Call.exec "UPDATE \"leads\" SET \"name\" = $1 WHERE \"id\" = $2"
          [Value.str "Janet", Value.null] :: rest)
    ∧ (∃ rest, (UpdateData okStore "leads"
        [{ Field := "id", NewValue := Value.number "1" },
         { Field := "id", NewValue := Value.number "2" },
         { Field := "name", NewValue := Value.str "Janet" }] ["id"] []).2
      = [] ++ sql.Call.exec "UPDATE \"leads\" SET \"name\" = $1 WHERE \"id\" = $2"
          [Value.str "Janet", Value.number "2"] :: rest) :=
  ⟨(C24_key_resolved_by_presence okStore "leads"
      [{ Field := "id" }, { Field := "name", NewValue := Value.str "Janet" }] ["id"] [] "id"
      (fun h => List.noConfusion h) (by simp) ⟨{ Field := "id" }, by simp, rfl⟩).2.1,
   (C24_key_resolved_by_presence okStore "leads"
      [{ Field := "id", NewValue := Value.number "1" },
       { Field := "id", NewValue := Value.number "2" },
       { Field := "name", NewValue := Value.str "Janet" }] ["id"] [] "id"
      (fun h => List.noConfusion h) (by simp)
      ⟨{ Field := "id", NewValue := Value.number "1" }, by simp, rfl⟩).2.1⟩

/-- C26. In the column definition that `CreateTable` builds, a default is
synthesized only when the declared default is absent: for a column whose
declared default is present but renders to the empty text, as a map without an
`expression` entry and an expression marker with empty text do, the definition
has no DEFAULT clause at all, also when the column is NOT NULL. -/
theorem C26_empty_rendering_no_default (name : String) (column : ColumnInfo)
    (hpresent : column.DefaultValue.isNil = false)
    (hempty : formatDefaultValue column.DefaultValue = "") :
    columnDef name column
        = "\"" ++ name ++ "\" " ++ mapTypeToPostgres column ++ " "
            ++ (if column.AllowNull then "NULL" else "NOT NULL")
    ∧ (∀ m : List (String × Value), mapGet m "expression" = none →
        (Value.object m).isNil = false ∧ formatDefaultValue (Value.object m) = "")
    ∧ (∀ m : List (String × Value), mapGet m "expression" = some (Value.str "") →
        (Value.object m).isNil = false ∧ formatDefaultValue (Value.object m) = "") := by
  refine ⟨?_, ?_, ?_⟩
  · cases hnull : column.AllowNull
    · simp [columnDef, hpresent, hempty, hnull, nullableKeyword]
    · simp [columnDef, hpresent, hempty, hnull, nullableKeyword]
  · intro m h
    exact ⟨rfl, by simp [formatDefaultValue, h]⟩
  · intro m h
    exact ⟨rfl, by simp [formatDefaultValue, h, fmt.verbV]⟩

/-- C26, at a NOT NULL `bigint` column whose declared default is a map without an
`expression` entry, and at one whose default is an expression marker with empty
text: no DEFAULT clause, where an absent default would give `DEFAULT 0`. -/
theorem C26_empty_rendering_no_default_witness :
    columnDef "id" { Type_ := "bigint", DefaultValue := Value.object [("value", Value.number "7")] }
        = "\"id\" BIGINT NOT NULL"
    ∧ columnDef "id" { Type_ := "bigint", DefaultValue := Value.object [("expression", Value.str "")] }
        = "\"id\" BIGINT NOT NULL"
    ∧ columnDef "id" { Type_ := "bigint" } = "\"id\" BIGINT NOT NULL DEFAULT 0" :=
  ⟨(C26_empty_rendering_no_default "id"
      { Type_ := "bigint", DefaultValue := Value.object [("value", Value.number "7")] }
      rfl rfl).1,
   (C26_empty_rendering_no_default "id"
      { Type_ := "bigint", DefaultValue := Value.object [("expression", Value.str "")] }
      rfl rfl).1,
   rfl⟩

/-! ## Schema synchronisation before the write: lemmas -/

namespace db

open domain schema_database

/-- `SaveMessage` for an event kind that is neither `insert` nor `update`. -/
theorem SaveMessage_of_unknown_kind (conn : sql.DB) (m : Message) (log : List sql.Call)
    (hins : m.EventType ≠ EventTypeInsert) (hupd : m.EventType ≠ EventTypeUpdate) :
    SaveMessage conn m log =
      ((match (CheckAndUpdateSchema conn m.Schema log).1 with
        | none => some ("unknown event type: " ++ m.EventType)
        | some err => some ("failed to check/update schema: " ++ err)),
       (CheckAndUpdateSchema conn m.Schema log).2) := by
  unfold SaveMessage
  simp only []
  split
  · rename_i e log1 heq
    simp [heq]
  · rename_i log1 heq
    simp [heq, hins, hupd]

/-- Schema synchronisation against an absent table, when the CREATE TABLE succeeds. -/
theorem CheckAndUpdateSchema_of_absent (conn : sql.DB) (s : Schema) (log : List sql.Call)
    (r : sql.Result)
    (habsent : conn.QueryRow log tableExistsQuery [Value.str s.TableName] = .ok false)
    (hcreate : conn.Exec (log ++ [sql.Call.queryRow tableExistsQuery [Value.str s.TableName]])
      (createTableQuery s) [] = .ok r) :
    CheckAndUpdateSchema conn s log
      = (none, log ++ [sql.Call.queryRow tableExistsQuery [Value.str s.TableName],
                       sql.Call.exec (createTableQuery s) []]) := by
  unfold CheckAndUpdateSchema TableExists
  simp only [habsent]
  unfold CreateTable
  simp only [hcreate]
  simp

/-- Schema synchronisation against an absent table issues the CREATE TABLE,
whatever its outcome. -/
theorem CheckAndUpdateSchema_log_of_absent (conn : sql.DB) (s : Schema) (log : List sql.Call)
    (habsent : conn.QueryRow log tableExistsQuery [Value.str s.TableName] = .ok false) :
    (CheckAndUpdateSchema conn s log).2
      = log ++ [sql.Call.queryRow tableExistsQuery [Value.str s.TableName],
                sql.Call.exec (createTableQuery s) []] := by
  unfold CheckAndUpdateSchema TableExists
  simp only [habsent]
  rw [CreateTable_log]
  simp

/-- Schema synchronisation against an existing table with missing columns, on a
store whose statements never fail. -/
theorem CheckAndUpdateSchema_of_missing (conn : sql.DB) (s : Schema)
    (log log1 log2 : List sql.Call) (missing : List String)
    (hexists : TableExists conn s.TableName log = (.ok true, log1))
    (hcompare : CompareSchemas conn s log1 = (.ok (false, missing), log2))
    (hok : ∀ history q args, ∃ r, conn.Exec history q args = .ok r) :
    CheckAndUpdateSchema conn s log
      = (none, log2 ++ spec.addColumnCalls s.TableName s.Columns missing) := by
  unfold CheckAndUpdateSchema
  simp only [hexists, hcompare, Bool.not_false, if_true]
  exact AddColumns_of_no_failure conn _ _ _ _ hok

end db

/-- C25. `SaveMessage` synchronizes the schema before it looks at the event kind.
For an event whose kind is neither `insert` nor `update`, `SaveMessage` makes
every store call of the schema synchronisation and then returns an error. When
the store reports the table absent, the CREATE TABLE is issued; when it
succeeds, the error returned is the unknown-event-kind error. When the table
exists with missing columns and no statement fails, the ADD COLUMN statements
for the missing columns are issued and the error returned is the
unknown-event-kind error. -/
theorem C25_schema_synced_before_kind_check (conn : sql.DB) (m : Message)
    (log : List sql.Call)
    (hins : m.EventType ≠ EventTypeInsert) (hupd : m.EventType ≠ EventTypeUpdate) :
    (SaveMessage conn m log).1 ≠ none
    ∧ (SaveMessage conn m log).2 = (CheckAndUpdateSchema conn m.Schema log).2
    ∧ (conn.QueryRow log tableExistsQuery [Value.str m.Schema.TableName] = .ok false →
        (SaveMessage conn m log).2
          = log ++ [sql.Call.queryRow tableExistsQuery [Value.str m.Schema.TableName],
                    sql.Call.exec (createTableQuery m.Schema) []])
    ∧ (∀ r : sql.Result,
        conn.QueryRow log tableExistsQuery [Value.str m.Schema.TableName] = .ok false →
        conn.Exec (log ++ [sql.Call.queryRow tableExistsQuery [Value.str m.Schema.TableName]])
          (createTableQuery m.Schema) [] = .ok r →
        SaveMessage conn m log
          = (some ("unknown event type: " ++ m.EventType),
             log ++ [sql.Call.queryRow tableExistsQuery [Value.str m.Schema.TableName],
                     sql.Call.exec (createTableQuery m.Schema) []]))
    ∧ (∀ (log1 log2 : List sql.Call) (missing : List String),
        TableExists conn m.Schema.TableName log = (.ok true, log1) →
        CompareSchemas conn m.Schema log1 = (.ok (false, missing), log2) →
        (∀ history q args, ∃ r, conn.Exec history q args = .ok r) →
        SaveMessage conn m log
          = (some ("unknown event type: " ++ m.EventType),
             log2 ++ spec.addColumnCalls m.Schema.TableName m.Schema.Columns missing)) := by
  have hS := SaveMessage_of_unknown_kind conn m log hins hupd
  refine ⟨?_, by rw [hS], ?_, ?_, ?_⟩
  · rw [hS]
    cases (CheckAndUpdateSchema conn m.Schema log).1 <;> exact fun h => Option.noConfusion h
  · intro habsent
    rw [hS]
    exact CheckAndUpdateSchema_log_of_absent conn m.Schema log habsent
  · intro r habsent hcreate
    rw [hS, CheckAndUpdateSchema_of_absent conn m.Schema log r habsent hcreate]
  · intro log1 log2 missing hexists hcompare hok
    rw [hS, CheckAndUpdateSchema_of_missing conn m.Schema log log1 log2 missing hexists hcompare hok]

/-- C25, at the event of kind `delete` on `leads`: on a store where no table
exists the table is created, and on a store where `leads` has only the column
`id` the column `name` is added; both times the event is then rejected. -/
theorem C25_schema_synced_before_kind_check_witness :
    SaveMessage emptyStore deleteEvent []
        = (some "unknown event type: delete",
           [sql.Call.queryRow tableExistsQuery [Value.str "leads"],
            sql.Call.exec
              ("CREATE TABLE IF NOT EXISTS \"leads\" (\"id\" BIGINT NOT NULL DEFAULT 0, "
                ++ "\"name\" VARCHAR(50) NOT NULL DEFAULT '', PRIMARY KEY (\"id\"))") []])
    ∧ SaveMessage leadsStore deleteEvent []
        = (some "unknown event type: delete",
           [sql.Call.queryRow tableExistsQuery [Value.str "leads"],
            sql.Call.queryRow tableExistsQuery [Value.str "leads"],
            sql.Call.query tableColumnsQuery [Value.str "leads"],
            sql.Call.exec
              "ALTER TABLE \"leads\" ADD COLUMN IF NOT EXISTS \"name\" VARCHAR(50) NOT NULL" []]) :=
  ⟨(C25_schema_synced_before_kind_check emptyStore deleteEvent [] (by decide)
      (by decide)).2.2.2.1 { RowsAffected := .ok 0 } rfl rfl,
   (C25_schema_synced_before_kind_check leadsStore deleteEvent [] (by decide)
      (by decide)).2.2.2.2 _ _ ["name"] rfl rfl (fun _ _ _ => ⟨_, rfl⟩)⟩

/-- C22, as stated, fails. For the event of Scenario A against a store in which
`leads` is absent, the CREATE TABLE that the store receives defines the column
`id` as `"id" BIGINT NOT NULL DEFAULT 0`, not as `"id" BIGINT NOT NULL`: the
column is NOT NULL without a declared default, so the default of the integer
family is synthesized. The store also receives the table-existence query before
the two statements. -/
theorem C22_scenario_a_counterexample :
    (SaveMessage (spec.modelStore scenarioA.Schema []) scenarioA []).2
        = [sql.Call.queryRow tableExistsQuery [Value.str "leads"],
           sql.Call.exec
             ("CREATE TABLE IF NOT EXISTS \"leads\" (\"id\" BIGINT NOT NULL DEFAULT 0, "
               ++ "\"name\" VARCHAR(50) NOT NULL DEFAULT '', PRIMARY KEY (\"id\"))") [],
           sql.Call.exec
             "INSERT INTO \"leads\" (\"id\", \"name\") VALUES ($1, $2) ON CONFLICT DO NOTHING"
             [Value.number "1", Value.str "Jane"]]
    ∧ columnDef "id" { Name := "id", Type_ := "bigint", DbType := "int8", IsPrimaryKey := true }
        = "\"id\" BIGINT NOT NULL DEFAULT 0"
    ∧ "\"id\" BIGINT NOT NULL DEFAULT 0" ≠ "\"id\" BIGINT NOT NULL"
    ∧ createTableQuery scenarioA.Schema
        ≠ "CREATE TABLE IF NOT EXISTS \"leads\" (\"id\" BIGINT NOT NULL, "
            ++ "\"name\" VARCHAR(50) NOT NULL DEFAULT '', PRIMARY KEY (\"id\"))" :=
  ⟨rfl, rfl, by decide, by decide⟩

/-- A list with the same entries as a two-element list is that list or its reverse. -/
theorem perm_pair_cases {α : Type} (a b : α) (l : List α) (h : l.Perm [a, b]) :
    l = [a, b] ∨ l = [b, a] := by
  obtain ⟨x, y, rfl⟩ : ∃ x y, l = [x, y] := List.length_eq_two.mp h.length_eq
  have hx : x ∈ [a, b] := h.subset (List.mem_cons_self _ _)
  have hy : y ∈ [a, b] := h.subset (List.mem_cons_of_mem _ (List.mem_cons_self _ _))
  have ha : a ∈ [x, y] := h.symm.subset (List.mem_cons_self _ _)
  have hb : b ∈ [x, y] := h.symm.subset (List.mem_cons_of_mem _ (List.mem_cons_self _ _))
  simp only [List.mem_cons, List.mem_singleton, List.not_mem_nil, or_false] at hx hy ha hb
  rcases hx with rfl | rfl
  · rcases hy with rfl | rfl
    · rcases hb with rfl | rfl <;> exact Or.inl rfl
    · exact Or.inl rfl
  · rcases hy with rfl | rfl
    · exact Or.inr rfl
    · rcases ha with rfl | rfl <;> exact Or.inl rfl

/-- The run of the delivery loop for a valid insert event with a non-null value,
on a store that reports the table absent and accepts the CREATE TABLE and the
INSERT. -/
theorem handleDelivery_insert_into_absent (unmarshal : List UInt8 → Except String Message)
    (conn : sql.DB) (msg : amqp.Delivery) (log : List sql.Call) (r1 r2 : sql.Result)
    (m : Message) (hdec : unmarshal msg.Body = .ok m)
    (hval : (ValidateMessage m).1 = true) (hkind : m.EventType = EventTypeInsert)
    (hdata : spec.insertFields m.Data ≠ [])
    (habsent : conn.QueryRow log tableExistsQuery [Value.str m.Schema.TableName] = .ok false)
    (hcreate : conn.Exec (log ++ [sql.Call.queryRow tableExistsQuery [Value.str m.Schema.TableName]])
      (createTableQuery m.Schema) [] = .ok r1)
    (hinsert : conn.Exec
      (log ++ [sql.Call.queryRow tableExistsQuery [Value.str m.Schema.TableName],
               sql.Call.exec (createTableQuery m.Schema) []])
      (spec.insertText m.Schema.TableName (spec.insertFields m.Data))
      ((spec.insertFields m.Data).map (fun f => f.NewValue)) = .ok r2) :
    handleDelivery unmarshal conn msg log
      = ([amqp.Signal.Ack false],
         log ++ [sql.Call.queryRow tableExistsQuery [Value.str m.Schema.TableName],
                 sql.Call.exec (createTableQuery m.Schema) [],
                 spec.insertCall m.Schema.TableName m.Data]) := by
  have hsync := CheckAndUpdateSchema_of_absent conn m.Schema log r1 habsent hcreate
  have hsave : SaveMessage conn m log
      = (none,
         log ++ [sql.Call.queryRow tableExistsQuery [Value.str m.Schema.TableName],
                 sql.Call.exec (createTableQuery m.Schema) [],
                 spec.insertCall m.Schema.TableName m.Data]) := by
    unfold SaveMessage
    simp only [hsync]
    rw [if_pos hkind, InsertData_of_nonNull conn _ m.Data _ hdata, hinsert]
    simp
  rw [handleDelivery_accepted unmarshal conn msg log m hdec hval, hsave]
  rfl

/-- C22, amended. For the event of Scenario A, with its column map visited in
either order, processed against a store that reports `leads` absent and accepts
the two statements, the store receives the table-existence query and then
exactly two statements: the CREATE TABLE IF NOT EXISTS for `leads` whose column
definitions are `"id" BIGINT NOT NULL DEFAULT 0` and
`"name" VARCHAR(50) NOT NULL DEFAULT ''`, in the order visited, with the item
`PRIMARY KEY ("id")`, then the INSERT of the columns `"id"`, `"name"` with the
bound values 1 and `Jane` and ON CONFLICT DO NOTHING; the message is then
acknowledged. -/
theorem C22_scenario_a (unmarshal : List UInt8 → Except String Message) (conn : sql.DB)
    (msg : amqp.Delivery) (log : List sql.Call) (r1 r2 : sql.Result)
    (columns : List (String × ColumnInfo))
    (horder : columns.Perm scenarioA.Schema.Columns)
    (hdec : unmarshal msg.Body = .ok (scenarioAWith columns))
    (habsent : conn.QueryRow log tableExistsQuery [Value.str "leads"] = .ok false)
    (hcreate : conn.Exec (log ++ [sql.Call.queryRow tableExistsQuery [Value.str "leads"]])
      (createTableQuery (scenarioAWith columns).Schema) [] = .ok r1)
    (hinsert : conn.Exec
      (log ++ [sql.Call.queryRow tableExistsQuery [Value.str "leads"],
               sql.Call.exec (createTableQuery (scenarioAWith columns).Schema) []])
      "INSERT INTO \"leads\" (\"id\", \"name\") VALUES ($1, $2) ON CONFLICT DO NOTHING"
      [Value.number "1", Value.str "Jane"] = .ok r2) :
    handleDelivery unmarshal conn msg log
      = ([amqp.Signal.Ack false],
         log ++ [sql.Call.queryRow tableExistsQuery [Value.str "leads"],
           sql.Call.exec (createTableQuery (scenarioAWith columns).Schema) [],
           sql.Call.exec
             "INSERT INTO \"leads\" (\"id\", \"name\") VALUES ($1, $2) ON CONFLICT DO NOTHING"
             [Value.number "1", Value.str "Jane"]])
    ∧ ((columns = scenarioA.Schema.Columns
          ∧ createTableQuery (scenarioAWith columns).Schema
            = "CREATE TABLE IF NOT EXISTS \"leads\" (\"id\" BIGINT NOT NULL DEFAULT 0, "
                ++ "\"name\" VARCHAR(50) NOT NULL DEFAULT '', PRIMARY KEY (\"id\"))")
        ∨ (columns = scenarioA.Schema.Columns.reverse
          ∧ createTableQuery (scenarioAWith columns).Schema
            = "CREATE TABLE IF NOT EXISTS \"leads\" (\"name\" VARCHAR(50) NOT NULL DEFAULT '', "
                ++ "\"id\" BIGINT NOT NULL DEFAULT 0, PRIMARY KEY (\"id\"))")) := by
  have hval : (ValidateMessage (scenarioAWith columns)).1 = true := by
    have hlen : columns.length = 2 := horder.length_eq
    have hne : ¬ columns.length = 0 := by omega
    have ht : ¬ (scenarioAWith columns).Schema.TableName = "" := by
      show ¬ "leads" = ""
      decide
    unfold ValidateMessage
    rw [if_neg ht]
    have hc : (scenarioAWith columns).Schema.Columns = columns := rfl
    rw [hc, if_neg hne]
  constructor
  · exact handleDelivery_insert_into_absent unmarshal conn msg log r1 r2 (scenarioAWith columns)
      hdec hval rfl (fun h => List.noConfusion h) habsent hcreate hinsert
  · rcases perm_pair_cases _ _ columns horder with h | h
    · left
      subst h
      exact ⟨rfl, rfl⟩
    · right
      subst h
      exact ⟨rfl, rfl⟩

/-- C22 amended, on the catalogue store with an empty catalogue, for the column
map visited as `id`, `name` and as `name`, `id`. -/
theorem C22_scenario_a_witness :
    handleDelivery (decodeTo (scenarioAWith scenarioA.Schema.Columns))
        (spec.modelStore (scenarioAWith scenarioA.Schema.Columns).Schema []) { Body := [] } []
      = ([amqp.Signal.Ack false],
         [] ++ [sql.Call.queryRow tableExistsQuery [Value.str "leads"],
           sql.Call.exec
             ("CREATE TABLE IF NOT EXISTS \"leads\" (\"id\" BIGINT NOT NULL DEFAULT 0, "
               ++ "\"name\" VARCHAR(50) NOT NULL DEFAULT '', PRIMARY KEY (\"id\"))") [],
           sql.Call.exec
             "INSERT INTO \"leads\" (\"id\", \"name\") VALUES ($1, $2) ON CONFLICT DO NOTHING"
             [Value.number "1", Value.str "Jane"]])
    ∧ handleDelivery (decodeTo (scenarioAWith scenarioA.Schema.Columns.reverse))
        (spec.modelStore (scenarioAWith scenarioA.Schema.Columns.reverse).Schema [])
        { Body := [] } []
      = ([amqp.Signal.Ack false],
         [] ++ [sql.Call.queryRow tableExistsQuery [Value.str "leads"],
           sql.Call.exec
             ("CREATE TABLE IF NOT EXISTS \"leads\" (\"name\" VARCHAR(50) NOT NULL DEFAULT '', "
               ++ "\"id\" BIGINT NOT NULL DEFAULT 0, PRIMARY KEY (\"id\"))") [],
           sql.Call.exec
             "INSERT INTO \"leads\" (\"id\", \"name\") VALUES ($1, $2) ON CONFLICT DO NOTHING"
             [Value.number "1", Value.str "Jane"]]) :=
  ⟨(C22_scenario_a (decodeTo (scenarioAWith scenarioA.Schema.Columns))
      (spec.modelStore (scenarioAWith scenarioA.Schema.Columns).Schema []) { Body := [] } []
      { RowsAffected := .ok 0 } { RowsAffected := .ok 0 } scenarioA.Schema.Columns
      (List.Perm.refl _) rfl rfl rfl rfl).1,
   (C22_scenario_a (decodeTo (scenarioAWith scenarioA.Schema.Columns.reverse))
      (spec.modelStore (scenarioAWith scenarioA.Schema.Columns.reverse).Schema [])
      { Body := [] } []
      { RowsAffected := .ok 0 } { RowsAffected := .ok 0 } scenarioA.Schema.Columns.reverse
      (List.reverse_perm _) rfl rfl rfl rfl).1⟩

/-! ## Failures during schema synchronisation: lemmas -/

namespace schema_database

open domain

theorem issued_append (log extra : List sql.Call) : spec.issued log (log ++ extra) = extra := by
  simp [spec.issued]

theorem allOk_append (conn : sql.DB) (h a b : List sql.Call) :
    spec.allOk conn h (a ++ b) = (spec.allOk conn h a && spec.allOk conn (h ++ a) b) := by
  induction a generalizing h with
  | nil => simp [spec.allOk]
  | cons c rest ih =>
      have e : h ++ [c] ++ rest = h ++ c :: rest := by simp
      show (!spec.callFails conn h c && spec.allOk conn (h ++ [c]) (rest ++ b))
        = ((!spec.callFails conn h c && spec.allOk conn (h ++ [c]) rest)
            && spec.allOk conn (h ++ c :: rest) b)
      rw [ih, Bool.and_assoc, e]

theorem stopsAtFailure_append (conn : sql.DB) (h a b : List sql.Call)
    (ha : spec.allOk conn h a = true) :
    spec.stopsAtFailure conn h (a ++ b) = spec.stopsAtFailure conn (h ++ a) b := by
  induction a generalizing h with
  | nil => simp
  | cons c rest ih =>
      simp only [spec.allOk, Bool.and_eq_true, Bool.not_eq_true'] at ha
      have e : h ++ [c] ++ rest = h ++ c :: rest := by simp
      show spec.stopsAtFailure conn h (c :: (rest ++ b)) = _
      rw [spec.stopsAtFailure, ha.1]
      simp only [Bool.false_eq_true, if_false]
      rw [ih _ ha.2, e]

theorem stopsAtFailure_not_allOk (conn : sql.DB) (h a : List sql.Call)
    (hs : spec.stopsAtFailure conn h a = true) : spec.allOk conn h a = false := by
  induction a generalizing h with
  | nil => simp [spec.stopsAtFailure] at hs
  | cons c rest ih =>
      cases hc : spec.callFails conn h c
      · simp only [spec.stopsAtFailure, hc, Bool.false_eq_true, if_false] at hs
        simp [spec.allOk, hc, ih _ hs]
      · simp [spec.allOk, hc]

theorem SucceedsOrStops_single (conn : sql.DB) (log : List sql.Call) (c : sql.Call) :
    spec.SucceedsOrStops conn log (spec.callFails conn log c) (log ++ [c]) := by
  refine ⟨[c], rfl, ?_, ?_⟩
  · intro h
    simp [spec.allOk, h]
  · intro h
    simp [spec.stopsAtFailure, h]

theorem SucceedsOrStops_refl (conn : sql.DB) (log : List sql.Call) :
    spec.SucceedsOrStops conn log false log :=
  ⟨[], by simp, fun _ => rfl, fun h => Bool.noConfusion h⟩

theorem SucceedsOrStops_trans (conn : sql.DB) (a b c : List sql.Call) (failed : Bool)
    (h1 : spec.SucceedsOrStops conn a false b) (h2 : spec.SucceedsOrStops conn b failed c) :
    spec.SucceedsOrStops conn a failed c := by
  obtain ⟨e1, rfl, hok1, _⟩ := h1
  obtain ⟨e2, rfl, hok2, hstop2⟩ := h2
  refine ⟨e1 ++ e2, by simp, ?_, ?_⟩
  · intro hf
    rw [allOk_append, hok1 rfl, hok2 hf]
    rfl
  · intro hf
    rw [stopsAtFailure_append conn a e1 e2 (hok1 rfl)]
    exact hstop2 hf

theorem TableExists_outcome (conn : sql.DB) (t : String) (log : List sql.Call) :
    spec.SucceedsOrStops conn log (spec.isError (TableExists conn t log).1)
      (TableExists conn t log).2 := by
  have h := SucceedsOrStops_single conn log (sql.Call.queryRow tableExistsQuery [Value.str t])
  unfold TableExists
  simp only [spec.callFails] at h
  cases hq : conn.QueryRow log tableExistsQuery [Value.str t] with
  | error err =>
      rw [hq] at h
      exact h
  | ok b =>
      rw [hq] at h
      exact h

theorem scanColumns_isError (scans : List (Except String sql.ColumnRow))
    (acc : List (String × ColumnInfo)) :
    spec.isError (scanColumns scans acc) = scans.any spec.isError := by
  induction scans generalizing acc with
  | nil => rfl
  | cons r rest ih =>
      cases r with
      | error err => simp [scanColumns, spec.isError]
      | ok row =>
          rw [scanColumns, ih]
          simp [spec.isError]

theorem GetTableColumns_outcome (conn : sql.DB) (t : String) (log : List sql.Call) :
    spec.SucceedsOrStops conn log (spec.isError (GetTableColumns conn t log).1)
      (GetTableColumns conn t log).2 := by
  have h := SucceedsOrStops_single conn log (sql.Call.query tableColumnsQuery [Value.str t])
  have hfail : spec.isError (GetTableColumns conn t log).1
      = spec.callFails conn log (sql.Call.query tableColumnsQuery [Value.str t]) := by
    unfold GetTableColumns
    simp only [spec.callFails]
    cases hq : conn.Query log tableColumnsQuery [Value.str t] with
    | error err => rfl
    | ok rows =>
        simp only []
        rw [← scanColumns_isError rows.scans []]
        cases hs : scanColumns rows.scans [] with
        | error err => rfl
        | ok columns =>
            simp only [spec.isError, Bool.false_or]
            cases rows.Err <;> rfl
  rw [hfail, GetTableColumns_log]
  exact h

theorem CreateTable_outcome (conn : sql.DB) (s : Schema) (log : List sql.Call) :
    spec.SucceedsOrStops conn log (CreateTable conn s log).1.isSome (CreateTable conn s log).2 := by
  have h := SucceedsOrStops_single conn log (sql.Call.exec (createTableQuery s) [])
  unfold CreateTable
  simp only [spec.callFails] at h
  simp only []
  cases hq : conn.Exec log (createTableQuery s) [] with
  | error err =>
      rw [hq] at h
      exact h
  | ok b =>
      rw [hq] at h
      exact h

theorem AddColumns_outcome (conn : sql.DB) (t : String) (columns : List (String × ColumnInfo))
    (missing : List String) (log : List sql.Call) :
    spec.SucceedsOrStops conn log (AddColumns conn t columns missing log).1.isSome
      (AddColumns conn t columns missing log).2 := by
  induction missing generalizing log with
  | nil => exact SucceedsOrStops_refl conn log
  | cons name rest ih =>
      unfold AddColumns
      split
      · exact ih log
      · rename_i column hsome
        simp only [AddColumns_query_eq]
        have h := SucceedsOrStops_single conn log
          (sql.Call.exec (spec.addColumnText t name column) [])
        simp only [spec.callFails] at h
        cases hq : conn.Exec log (spec.addColumnText t name column) [] with
        | error err =>
            rw [hq] at h
            exact h
        | ok b =>
            rw [hq] at h
            exact SucceedsOrStops_trans conn _ _ _ _ h (ih _)

theorem CompareSchemas_outcome (conn : sql.DB) (s : Schema) (log : List sql.Call) :
    spec.SucceedsOrStops conn log (spec.isError (CompareSchemas conn s log).1)
      (CompareSchemas conn s log).2 := by
  have h1 := TableExists_outcome conn s.TableName log
  unfold CompareSchemas
  simp only []
  split
  · rename_i err log1 heq
    rw [heq] at h1
    exact h1
  · rename_i log1 heq
    rw [heq] at h1
    exact h1
  · rename_i log1 heq
    rw [heq] at h1
    have h2 := GetTableColumns_outcome conn s.TableName log1
    split
    · rename_i err log2 heq2
      rw [heq2] at h2
      exact SucceedsOrStops_trans conn _ _ _ _ h1 h2
    · rename_i cols log2 heq2
      rw [heq2] at h2
      exact SucceedsOrStops_trans conn _ _ _ _ h1 h2

end schema_database

namespace db

open domain schema_database

theorem CheckAndUpdateSchema_outcome (conn : sql.DB) (s : Schema) (log : List sql.Call) :
    spec.SucceedsOrStops conn log (CheckAndUpdateSchema conn s log).1.isSome
      (CheckAndUpdateSchema conn s log).2 := by
  have h1 := TableExists_outcome conn s.TableName log
  unfold CheckAndUpdateSchema
  simp only []
  split
  · rename_i err log1 heq
    rw [heq] at h1
    exact h1
  · rename_i log1 heq
    rw [heq] at h1
    exact SucceedsOrStops_trans conn _ _ _ _ h1 (CreateTable_outcome conn s log1)
  · rename_i log1 heq
    rw [heq] at h1
    have h2 := CompareSchemas_outcome conn s log1
    split
    · rename_i err log2 heq2
      rw [heq2] at h2
      exact SucceedsOrStops_trans conn _ _ _ _ h1 h2
    · rename_i isEqual missing log2 heq2
      rw [heq2] at h2
      split
      · exact SucceedsOrStops_trans conn _ _ _ _ (SucceedsOrStops_trans conn _ _ _ _ h1 h2)
          (AddColumns_outcome conn _ _ _ log2)
      · exact SucceedsOrStops_trans conn _ _ _ _ h1 h2

/-- `SaveMessage` when schema synchronisation fails. -/
theorem SaveMessage_of_sync_error (conn : sql.DB) (m : Message) (log : List sql.Call)
    (err : String) (h : (CheckAndUpdateSchema conn m.Schema log).1 = some err) :
    SaveMessage conn m log
      = (some ("failed to check/update schema: " ++ err),
         (CheckAndUpdateSchema conn m.Schema log).2) := by
  unfold SaveMessage
  simp only []
  split
  · rename_i e log1 heq
    rw [heq] at h
    cases h
    simp [heq]
  · rename_i log1 heq
    rw [heq] at h
    cases h

end db

/-- C21. If a call that schema synchronisation makes on the store is answered
with a failure (the existence query, the column query with its row scans, the
CREATE TABLE or an ADD COLUMN), then `SaveMessage` returns the
schema-synchronisation error, its store calls are those of the
synchronisation, none of them an insert or update statement, and the failing
call is the last call made. Likewise within `AddColumns`: if one of its
statements fails, `AddColumns` returns an error and the failing statement is
the last one issued. -/
theorem C21_sync_failure_blocks_write (conn : sql.DB) (m : Message) (log : List sql.Call)
    (hfail : spec.allOk conn log
      (spec.issued log (CheckAndUpdateSchema conn m.Schema log).2) = false) :
    (∃ err, (CheckAndUpdateSchema conn m.Schema log).1 = some err
      ∧ (SaveMessage conn m log).1 = some ("failed to check/update schema: " ++ err))
    ∧ (SaveMessage conn m log).2 = (CheckAndUpdateSchema conn m.Schema log).2
    ∧ spec.ExtendsWithoutWrite log (SaveMessage conn m log).2
    ∧ spec.stopsAtFailure conn log (spec.issued log (SaveMessage conn m log).2) = true
    ∧ (∀ (t : String) (columns : List (String × ColumnInfo)) (missing : List String)
        (log0 : List sql.Call),
        spec.allOk conn log0 (spec.issued log0 (AddColumns conn t columns missing log0).2) = false →
        (AddColumns conn t columns missing log0).1 ≠ none
        ∧ spec.stopsAtFailure conn log0
            (spec.issued log0 (AddColumns conn t columns missing log0).2) = true) := by
  obtain ⟨extra, hlog, hok, hstop⟩ := CheckAndUpdateSchema_outcome conn m.Schema log
  rw [hlog, issued_append] at hfail
  cases hres : (CheckAndUpdateSchema conn m.Schema log).1 with
  | none =>
      rw [hres] at hok
      rw [hok rfl] at hfail
      exact Bool.noConfusion hfail
  | some err =>
      rw [hres] at hstop
      have hS := SaveMessage_of_sync_error conn m log err hres
      refine ⟨⟨err, rfl, by rw [hS]⟩, by rw [hS], ?_, ?_, ?_⟩
      · rw [hS]
        exact CheckAndUpdateSchema_noWrite conn m.Schema log
      · rw [hS]
        simp only []
        rw [hlog, issued_append]
        exact hstop rfl
      · intro t columns missing log0 hf
        obtain ⟨extra0, hlog0, hok0, hstop0⟩ := AddColumns_outcome conn t columns missing log0
        rw [hlog0, issued_append] at hf ⊢
        cases hr : (AddColumns conn t columns missing log0).1 with
        | none =>
            rw [hr] at hok0
            rw [hok0 rfl] at hf
            exact Bool.noConfusion hf
        | some e =>
            rw [hr] at hstop0
            exact ⟨fun h => Option.noConfusion h, hstop0 rfl⟩

/-- C21, at the insert of Scenario A on a store where the table exists and lacks
both columns and every statement after the queries fails: the first ADD COLUMN
fails, no second one is issued, `SaveMessage` returns the synchronisation
error, and no insert follows. -/
theorem C21_sync_failure_blocks_write_witness :
    spec.allOk failsAfterFirst []
        (spec.issued [] (CheckAndUpdateSchema failsAfterFirst scenarioA.Schema []).2) = false
    ∧ SaveMessage failsAfterFirst scenarioA []
        = (some ("failed to check/update schema: "
              ++ "failed to add column id: deadlock detected"),
           [sql.Call.queryRow tableExistsQuery [Value.str "leads"],
            sql.Call.queryRow tableExistsQuery [Value.str "leads"],
            sql.Call.query tableColumnsQuery [Value.str "leads"],
            sql.Call.exec "ALTER TABLE \"leads\" ADD COLUMN IF NOT EXISTS \"id\" BIGINT NOT NULL" []])
    ∧ spec.stopsAtFailure failsAfterFirst []
        (spec.issued [] (SaveMessage failsAfterFirst scenarioA []).2) = true :=
  ⟨rfl, rfl, (C21_sync_failure_blocks_write failsAfterFirst scenarioA [] rfl).2.2.2.1⟩

/-! ## Statement texts do not depend on the values: lemmas -/

namespace db

open domain schema_database

theorem insertFields_names (data : List Fields) :
    (spec.insertFields data).map (fun f => f.Field)
      = (spec.shape data).filterMap (fun p => if p.2 then none else some p.1) := by
  induction data with
  | nil => rfl
  | cons f rest ih =>
      cases hf : f.NewValue.isNil
      · simp only [spec.insertFields, spec.shape] at ih ⊢
        simp [List.filter_cons, hf, ih]
      · simp only [spec.insertFields, spec.shape] at ih ⊢
        simp [List.filter_cons, hf, ih]

theorem setFields_names (data : List Fields) (pks : List String) :
    (spec.setFields data pks).map (fun f => f.Field)
      = (spec.shape data).filterMap
          (fun p => if decide (p.1 ∈ pks) || p.2 then none else some p.1) := by
  induction data with
  | nil => rfl
  | cons f rest ih =>
      simp only [spec.setFields, spec.shape] at ih ⊢
      cases hf : f.NewValue.isNil <;> by_cases hp : f.Field ∈ pks <;>
        simp [List.filter_cons, hf, hp, ih]

theorem keyColumns_of_shape (data : List Fields) (pks : List String) :
    spec.keyColumns data pks
      = pks.filter (fun pk => (spec.shape data).any (fun p => decide (p.1 = pk))) := by
  have hany : ∀ pk, data.any (fun f => decide (f.Field = pk))
      = (spec.shape data).any (fun p => decide (p.1 = pk)) := by
    intro pk
    induction data with
    | nil => rfl
    | cons f rest ih =>
        simp only [spec.shape, List.map_cons, List.any_cons] at ih ⊢
        rw [ih]
  unfold spec.keyColumns
  apply List.filter_congr
  intro pk _
  exact hany pk

theorem insertText_of_names (t : String) (fields : List Fields) :
    spec.insertText t fields =
      "INSERT INTO \"" ++ t ++ "\" ("
        ++ ", ".intercalate ((fields.map (fun f => f.Field)).map (fun n => "\"" ++ n ++ "\""))
        ++ ") VALUES (" ++ ", ".intercalate
            (spec.placeholders 1 (fields.map (fun f => f.Field)).length)
        ++ ") ON CONFLICT DO NOTHING" := by
  simp [spec.insertText, List.map_map, Function.comp_def]

theorem insertText_congr (t : String) (data data' : List Fields)
    (h : spec.shape data = spec.shape data') :
    spec.insertText t (spec.insertFields data) = spec.insertText t (spec.insertFields data') := by
  rw [insertText_of_names, insertText_of_names, insertFields_names, insertFields_names, h]

theorem updateText_congr (t : String) (data data' : List Fields) (pks : List String)
    (h : spec.shape data = spec.shape data') :
    spec.updateText t data pks = spec.updateText t data' pks := by
  have hlen : (spec.setFields data pks).length = (spec.setFields data' pks).length := by
    have := congrArg List.length
      ((setFields_names data pks).trans ((congrArg _ h).trans (setFields_names data' pks).symm))
    simpa using this
  unfold spec.updateText
  rw [setFields_names, setFields_names, keyColumns_of_shape, keyColumns_of_shape, h, hlen]

theorem insertFields_nil_congr (data data' : List Fields)
    (h : spec.shape data = spec.shape data') :
    spec.insertFields data = [] ↔ spec.insertFields data' = [] := by
  have e := (insertFields_names data).trans ((congrArg _ h).trans (insertFields_names data').symm)
  constructor
  · intro h0
    rw [h0] at e
    simpa using e.symm
  · intro h0
    rw [h0] at e
    simpa using e

theorem setFields_nil_congr (data data' : List Fields) (pks : List String)
    (h : spec.shape data = spec.shape data') :
    spec.setFields data pks = [] ↔ spec.setFields data' pks = [] := by
  have e := (setFields_names data pks).trans
    ((congrArg _ h).trans (setFields_names data' pks).symm)
  constructor
  · intro h0
    rw [h0] at e
    simpa using e.symm
  · intro h0
    rw [h0] at e
    simpa using e

/-- The statement texts of a run of `InsertData`. -/
theorem InsertData_texts (conn : sql.DB) (t : String) (data : List Fields)
    (log : List sql.Call) :
    (spec.issued log (InsertData conn t data log).2).map spec.callText
      = if (spec.insertFields data).isEmpty then []
        else [spec.insertText t (spec.insertFields data)] := by
  by_cases h : spec.insertFields data = []
  · rw [InsertData_of_allNull conn t data log h, h]
    simp [spec.issued]
  · rw [InsertData_of_nonNull conn t data log h, issued_append]
    have he : (spec.insertFields data).isEmpty = false := by
      cases hl : spec.insertFields data with
      | nil => exact absurd hl h
      | cons a l => rfl
    rw [he]
    rfl

/-- The statement texts of a run of `UpdateData`. -/
theorem UpdateData_texts (conn : sql.DB) (t : String) (data : List Fields)
    (pks : List String) (log : List sql.Call) :
    (spec.setFields data pks = [] ∨ spec.keyColumns data pks = [] →
      (spec.issued log (UpdateData conn t data pks log).2).map spec.callText = [])
    ∧ (spec.setFields data pks ≠ [] → spec.keyColumns data pks ≠ [] →
      ((spec.issued log (UpdateData conn t data pks log).2).map spec.callText
          = [spec.updateText t data pks]
        ∨ (spec.issued log (UpdateData conn t data pks log).2).map spec.callText
          = [spec.updateText t data pks, spec.insertText t (spec.insertFields data)])) := by
  constructor
  · intro h
    rw [UpdateData_log_of_no_reach conn t data pks log h]
    simp [spec.issued]
  · intro hset hkey
    obtain ⟨rest, hlog, hrest⟩ := UpdateData_first_call conn t data pks log hset hkey
    rw [hlog, issued_append]
    rcases hrest with h | h
    · left
      rw [h]
      rfl
    · right
      rw [h]
      rfl

end db

/-- C23. Let two field lists have the same field names in the same order and the
same pattern of null `newValue`s. Then, for the same table name and
`primaryKeyColumns`, whatever the non-null values, the stores and the logs
are: the statement texts that `InsertData` issues are identical; the UPDATE
text that `UpdateData` builds is identical; each run of `UpdateData` issues
no statement, or that UPDATE text, or that UPDATE text followed by the text of
the fallback insert, and one run issues no statement exactly when the other
does. The values are passed in the parameter lists of the calls only. -/
theorem C23_values_only_in_parameters (conn conn' : sql.DB) (t : String)
    (data data' : List Fields) (pks : List String) (log log' : List sql.Call)
    (hshape : spec.shape data = spec.shape data') :
    (spec.issued log (InsertData conn t data log).2).map spec.callText
        = (spec.issued log' (InsertData conn' t data' log').2).map spec.callText
    ∧ updateQuery t (buildUpdate data pks) = updateQuery t (buildUpdate data' pks)
    ∧ (spec.issued log (UpdateData conn t data pks log).2).map spec.callText
        <+: [updateQuery t (buildUpdate data pks), spec.insertText t (spec.insertFields data)]
    ∧ (spec.issued log' (UpdateData conn' t data' pks log').2).map spec.callText
        <+: [updateQuery t (buildUpdate data pks), spec.insertText t (spec.insertFields data)]
    ∧ ((spec.issued log (UpdateData conn t data pks log).2).map spec.callText = []
        ↔ (spec.issued log' (UpdateData conn' t data' pks log').2).map spec.callText = []) := by
  have hI := insertText_congr t data data' hshape
  have hU := updateText_congr t data data' pks hshape
  have hIe := insertFields_nil_congr data data' hshape
  have hSe := setFields_nil_congr data data' pks hshape
  have hK : spec.keyColumns data pks = spec.keyColumns data' pks := by
    rw [keyColumns_of_shape, keyColumns_of_shape, hshape]
  have hprefix : ∀ (c : sql.DB) (d : List Fields) (l : List sql.Call),
      spec.updateText t d pks = spec.updateText t data pks →
      spec.insertText t (spec.insertFields d) = spec.insertText t (spec.insertFields data) →
      (spec.issued l (UpdateData c t d pks l).2).map spec.callText
        <+: [spec.updateText t data pks, spec.insertText t (spec.insertFields data)] := by
    intro c d l h1 h2
    obtain ⟨hno, hyes⟩ := UpdateData_texts c t d pks l
    by_cases hs : spec.setFields d pks = []
    · rw [hno (Or.inl hs)]
      exact List.nil_prefix
    · by_cases hk : spec.keyColumns d pks = []
      · rw [hno (Or.inr hk)]
        exact List.nil_prefix
      · rcases hyes hs hk with h | h
        · rw [h, h1]
          exact ⟨[spec.insertText t (spec.insertFields data)], rfl⟩
        · rw [h, h1, h2]
  have hempty : ∀ (c : sql.DB) (d : List Fields) (l : List sql.Call),
      ((spec.issued l (UpdateData c t d pks l).2).map spec.callText = []
        ↔ (spec.setFields d pks = [] ∨ spec.keyColumns d pks = [])) := by
    intro c d l
    obtain ⟨hno, hyes⟩ := UpdateData_texts c t d pks l
    constructor
    · intro h
      by_contra hc
      rw [not_or] at hc
      rcases hyes hc.1 hc.2 with h2 | h2
      · rw [h2] at h
        exact List.noConfusion h
      · rw [h2] at h
        exact List.noConfusion h
    · exact hno
  refine ⟨?_, ?_, ?_, ?_, ?_⟩
  · rw [InsertData_texts, InsertData_texts, hI]
    have : (spec.insertFields data).isEmpty = (spec.insertFields data').isEmpty := by
      rw [Bool.eq_iff_iff, List.isEmpty_iff, List.isEmpty_iff]
      exact hIe
    rw [this]
  · rw [updateQuery_buildUpdate, updateQuery_buildUpdate, hU]
  · rw [updateQuery_buildUpdate]
    exact hprefix conn data log rfl rfl
  · rw [updateQuery_buildUpdate]
    exact hprefix conn' data' log' hU.symm hI.symm
  · rw [hempty conn data log, hempty conn' data' log', hSe, hK]

/-- C23, at the fields `id = 1`, `name = "Janet"` and the fields `id = 99`,
`name = "Robert'); DROP TABLE leads;--"`, on two different stores. -/
theorem C23_values_only_in_parameters_witness :
    (spec.issued [] (InsertData okStore "leads" janet []).2).map spec.callText
        = (spec.issued [] (InsertData emptyStore "leads"
            [{ Field := "id", NewValue := Value.number "99" },
             { Field := "name", NewValue := Value.str "Robert'); DROP TABLE leads;--" }]
            []).2).map spec.callText
    ∧ updateQuery "leads" (buildUpdate janet ["id"])
        = updateQuery "leads" (buildUpdate
            [{ Field := "id", NewValue := Value.number "99" },
             { Field := "name", NewValue := Value.str "Robert'); DROP TABLE leads;--" }]
            ["id"]) :=
  ⟨(C23_values_only_in_parameters okStore emptyStore "leads" janet
      [{ Field := "id", NewValue := Value.number "99" },
       { Field := "name", NewValue := Value.str "Robert'); DROP TABLE leads;--" }]
      ["id"] [] [] rfl).1,
   (C23_values_only_in_parameters okStore emptyStore "leads" janet
      [{ Field := "id", NewValue := Value.number "99" },
       { Field := "name", NewValue := Value.str "Robert'); DROP TABLE leads;--" }]
      ["id"] [] [] rfl).2.1⟩
